import Mathlib

/-
  Verification of the carrot neural-network library core
  (src/src/architecture/network.js): a shallow embedding of the
  Network genome, its structural editing operations, mutation
  operators, crossover, and the Neat population manager, with
  theorems checking the specification's claims against the code.

  Modelling conventions:
  * JS numbers are modelled by `JNum`, an unnormalized fraction
    `num / den` with `num : Int`, `den : Nat`.  A zero denominator
    plays the role of JS `NaN` / `undefined`-in-arithmetic (it is
    absorbing for `add`/`mul`, like NaN).  All operations are
    kernel-computable.
  * JS object identity is modelled by integer ids: every Node and
    Connection record carries an `id`/`cid` drawn from a `fresh`
    counter stored in the Network, so "new Node()" gets an id
    distinct from every live object.
  * `Math.random()` draws are passed in explicitly as oracle
    parameters (the spec's design notes themselves call for an
    injected random source).
  * Code that throws is modelled in `Except String`; a thrown
    TypeError (property access on `undefined`) is an `Except.error`.
  * The classes `Node` and `Connection` (files node.js,
    connection.js) are not part of the sources under review; where
    their behavior is needed it is modelled from the spec, and each
    such definition is marked `Modelled from the spec:`.
-/

namespace Carrot

/-- JS number as an unnormalized fraction `num / den`; `den = 0` models NaN. -/
structure JNum where
  num : Int
  den : Nat
deriving DecidableEq, Repr

/-- Embed an integer as a JS number. -/
def JNum.ofInt (n : Int) : JNum := ⟨n, 1⟩

instance : OfNat JNum n := ⟨⟨(n : Int), 1⟩⟩

/-- Addition of JS numbers (cross-multiplied, no normalization). -/
def JNum.add (a b : JNum) : JNum := ⟨a.num * b.den + b.num * a.den, a.den * b.den⟩

/-- Subtraction of JS numbers. -/
def JNum.sub (a b : JNum) : JNum := ⟨a.num * b.den - b.num * a.den, a.den * b.den⟩

/-- Multiplication of JS numbers. -/
def JNum.mul (a b : JNum) : JNum := ⟨a.num * b.num, a.den * b.den⟩

instance : Add JNum := ⟨JNum.add⟩
instance : Sub JNum := ⟨JNum.sub⟩
instance : Mul JNum := ⟨JNum.mul⟩

/-- Strict `<` on JS numbers (by cross multiplication; dens are kept positive). -/
def JNum.lt (a b : JNum) : Bool := a.num * b.den < b.num * a.den

/-- Non-strict `<=` on JS numbers. -/
def JNum.le (a b : JNum) : Bool := a.num * b.den ≤ b.num * a.den

/-- Value-level equality (the JS `===` on numbers). -/
def JNum.veq (a b : JNum) : Bool := a.num * b.den == b.num * a.den

/-- The JS test `x === 0` on a number. -/
def JNum.isZero (a : JNum) : Bool := a.num == 0

/-- JS `Math.floor`, as an integer. -/
def JNum.floorI (a : JNum) : Int := a.num.fdiv a.den

/-- JS `Math.pow` with a natural exponent. -/
def JNum.powN (a : JNum) (k : Nat) : JNum := ⟨a.num ^ k, a.den ^ k⟩

/-- JS array indexing `l[i]`: `undefined` (`none`) when out of range. -/
def jsGet (l : List α) (i : Int) : Option α :=
  if i < 0 then none else l.get? i.toNat

/-- Index used by JS `Array.prototype.splice` for a (possibly negative) start. -/
def jsSpliceIdx (i : Int) (len : Nat) : Nat :=
  if i < 0 then ((len : Int) + i).toNat else min i.toNat len

/-- Half-open integer range `[lo, hi)` as a list. -/
def intRange (lo hi : Int) : List Int :=
  (List.range (hi - lo).toNat).map (fun (k : Nat) => lo + (k : Int))

/-- The four node kinds of the data model. -/
inductive NodeType where
  | input
  | hidden
  | output
  | constant
deriving DecidableEq, Repr

/-- Modelled from the spec: a Node of node.js — `kind`, `bias`, last
`activation`, last `state`, `squash` id into the activation-function
registry, dropout `mask`; `id` models JS object identity. -/
structure NNode where
  id : Nat
  type : NodeType
  bias : JNum
  squash : Nat
  mask : JNum
  activation : JNum
  state : JNum
deriving DecidableEq, Repr

/-- Modelled from the spec: `new Node(type)` of node.js; the fresh bias of a
non-input node is a random draw, passed in as `b`. -/
def NNode.new (id : Nat) (type : NodeType) (b : JNum) : NNode :=
  { id := id, type := type, bias := if type = NodeType.input then ⟨0, 1⟩ else b,
    squash := 0, mask := ⟨1, 1⟩, activation := ⟨0, 1⟩, state := ⟨0, 1⟩ }

/-- Modelled from the spec: a Connection of connection.js — `from`/`to`
endpoints (as node ids; `from` is a Lean keyword), `weight`, optional `gater`
node id; `cid` models JS object identity. -/
structure Conn where
  cid : Nat
  fromId : Nat
  toId : Nat
  weight : JNum
  gater : Option Nat
deriving DecidableEq, Repr

/-- The Network genome: sizes, nodes in activation order, ordinary
connections, self-connections, gated-connection list (by connection id),
dropout rate, score (set by the population manager), and the fresh-id
counter modelling JS allocation. -/
structure Network where
  input_size : Int
  output_size : Int
  nodes : List NNode
  connections : List Conn
  selfconns : List Conn
  gates : List Nat
  dropout : JNum
  score : Option JNum
  fresh : Nat
deriving DecidableEq, Repr

/-- JS `this.nodes.indexOf(node)` by object identity (node id); -1 if absent. -/
def jsIndexOfId (nodes : List NNode) (id : Nat) : Int :=
  match nodes.findIdx? (fun n => n.id == id) with
  | some i => (i : Int)
  | none => -1

/-- The ids of the network's nodes. -/
def Network.nodeIds (net : Network) : List Nat := net.nodes.map NNode.id

/-- Look a node up by id. -/
def Network.nodeOf (net : Network) (id : Nat) : Option NNode :=
  net.nodes.find? (fun n => n.id == id)

/-- Derived `node.connections.in` of node.js: incoming ordinary connections,
in network list order (both lists append on create and splice on delete, so
the orders agree). -/
def Network.inConns (net : Network) (id : Nat) : List Conn :=
  net.connections.filter (fun c => c.toId == id)

/-- Derived `node.connections.out` of node.js: outgoing ordinary connections. -/
def Network.outConns (net : Network) (id : Nat) : List Conn :=
  net.connections.filter (fun c => c.fromId == id)

/-- Derived `node.connections.gated` of node.js: connections gated by this node. -/
def Network.gatedConns (net : Network) (id : Nat) : List Conn :=
  (net.connections ++ net.selfconns).filter (fun c => c.gater == some id)

/-- Derived `node.connections.self` of node.js, as present in `selfconns`. -/
def Network.selfConnOf (net : Network) (id : Nat) : Option Conn :=
  net.selfconns.find? (fun c => c.fromId == id)

/-- Derived `node.connections.self.weight` (0 when no self-connection is live,
matching node.js's resident zero-weight self connection). -/
def Network.selfWeight (net : Network) (id : Nat) : JNum :=
  match net.selfConnOf id with
  | some c => c.weight
  | none => ⟨0, 1⟩

/-- Modelled from the spec: node.js `isProjectingTo` — true on itself when the
self-connection is live, else true when some outgoing connection ends at the
target. -/
def Network.isProjectingTo (net : Network) (a b : Nat) : Bool :=
  (a == b && !(net.selfWeight a).isZero) ||
    (net.outConns a).any (fun c => c.toId == b)

/-- All connections, ordinary then self (`this.connections.concat(this.selfconns)`). -/
def Network.allConns (net : Network) : List Conn :=
  net.connections ++ net.selfconns

/-- Look a connection up by connection id. -/
def Network.connOf (net : Network) (cid : Nat) : Option Conn :=
  net.allConns.find? (fun c => c.cid == cid)

/-- Clear the gater field of the connection with this id (node.js
`Node.ungate` bookkeeping on the shared Connection object). -/
def Network.clearGater (net : Network) (cid : Nat) : Network :=
  { net with
    connections := net.connections.map
      (fun c => if c.cid == cid then { c with gater := none } else c),
    selfconns := net.selfconns.map
      (fun c => if c.cid == cid then { c with gater := none } else c) }

/-- Network `ungate(connection)`: error when the connection is not listed in
`gates`; otherwise splice it from `gates` and clear its gater. -/
def Network.ungate (net : Network) (cid : Nat) : Except String Network :=
  match net.gates.findIdx? (fun g => g == cid) with
  | none => Except.error "This connection is not gated!"
  | some i =>
    Except.ok { net.clearGater cid with gates := net.gates.eraseIdx i }

/-- Network `gate(node, connection)`: error when the gating node is not part
of the network; skip (warning in the source) when the connection is already
gated; otherwise set the gater and list the connection in `gates`. -/
def Network.gate (net : Network) (nodeId cid : Nat) : Except String Network :=
  if net.nodes.all (fun n => n.id != nodeId) then
    Except.error "This node is not part of the network!"
  else
    match net.connOf cid with
    | some c =>
      if c.gater.isSome then Except.ok net
      else Except.ok { net with
        connections := net.connections.map
          (fun c2 => if c2.cid == cid then { c2 with gater := some nodeId } else c2),
        selfconns := net.selfconns.map
          (fun c2 => if c2.cid == cid then { c2 with gater := some nodeId } else c2),
        gates := net.gates ++ [cid] }
    | none => Except.ok net

/-- Network `connect(from, to, weight)`, with node.js `Node.connect` modelled
from the spec: a self target sets the resident self-connection's weight to
`weight || 1` and lists it in `selfconns` (re-listing the same object when it
is already live); a duplicate ordinary pair fails; otherwise a fresh
Connection is appended to `connections`.  Returns the connection's id. -/
def Network.connect (net : Network) (fromId toId : Nat) (w : JNum) :
    Except String (Network × Nat) :=
  if fromId == toId then
    let w1 : JNum := if w.isZero then ⟨1, 1⟩ else w
    match net.selfConnOf fromId with
    | some c =>
      let upd := fun (c2 : Conn) => if c2.cid == c.cid then { c2 with weight := w1 } else c2
      Except.ok ({ net with selfconns := net.selfconns.map upd ++ [{ c with weight := w1 }] }, c.cid)
    | none =>
      let c : Conn := ⟨net.fresh, fromId, toId, w1, none⟩
      Except.ok ({ net with selfconns := net.selfconns ++ [c], fresh := net.fresh + 1 }, c.cid)
  else if net.isProjectingTo fromId toId then
    Except.error "Already connected!"
  else
    let c : Conn := ⟨net.fresh, fromId, toId, w, none⟩
    Except.ok ({ net with connections := net.connections ++ [c], fresh := net.fresh + 1 }, c.cid)

/-- Network `disconnect(from, to)`: splice the first matching connection out
of `selfconns` (self) or `connections` (ordinary), ungating it first when
gated; the derived node-level lists drop it with it. -/
def Network.disconnect (net : Network) (fromId toId : Nat) : Except String Network :=
  let isSelf := fromId == toId
  let lst := if isSelf then net.selfconns else net.connections
  match lst.findIdx? (fun c => c.fromId == fromId && c.toId == toId) with
  | none => Except.ok net
  | some i =>
    match lst.get? i with
    | none => Except.ok net
    | some c => do
      let net1 ← if c.gater.isSome then net.ungate c.cid else Except.ok net
      let lst1 := if isSelf then net1.selfconns else net1.connections
      let lst2 := lst1.eraseIdx i
      Except.ok (if isSelf then { net1 with selfconns := lst2 }
                 else { net1 with connections := lst2 })

/-- Random draws consumed by the `Network(input, output)` constructor:
`w i j` is the He-like initial weight
`Math.random() * input_size * sqrt(2 / input_size)` drawn for the pair
(i, j), `b k` the random initial bias of the fresh node at position `k`
(node.js draws one for every non-input node). -/
structure CtorRnd where
  w : Nat → Nat → JNum
  b : Nat → JNum

/-- The node sequence the constructor creates: `input_size + output_size`
fresh nodes, `input`-typed below `input_size` and `output`-typed above. -/
def ctorNodes (input_size output_size : Int) (rnd : CtorRnd) : List NNode :=
  (List.range (input_size + output_size).toNat).map (fun k =>
    NNode.new k (if (k : Int) < input_size then NodeType.input else NodeType.output)
      (rnd.b k))

/-- The `Network(input_size, output_size)` constructor body after the
undefined-check: create the node sequence, then densely connect every
input node to every output node. -/
def Network.ctor (input_size output_size : Int) (rnd : CtorRnd) :
    Except String Network :=
  let base : Network :=
    { input_size := input_size, output_size := output_size,
      nodes := ctorNodes input_size output_size rnd,
      connections := [], selfconns := [], gates := [],
      dropout := ⟨0, 1⟩, score := none,
      fresh := (input_size + output_size).toNat }
  (intRange 0 input_size).foldlM (fun net i =>
    (intRange input_size (output_size + input_size)).foldlM (fun (net : Network) j => do
      match jsGet net.nodes i, jsGet net.nodes j with
      | some nf, some nt => do
        let p ← net.connect nf.id nt.id (rnd.w i.toNat j.toNat)
        pure p.1
      | _, _ => Except.error "TypeError: undefined node") net) base

/-- The full `Network(input_size, output_size)` constructor: the only
validation in the source is the `typeof ... === 'undefined'` check ("No
input or output size given"); numeric sizes of any sign proceed. -/
def Network.construct (input_size output_size : Option Int) (rnd : CtorRnd) :
    Except String Network :=
  match input_size, output_size with
  | some i, some o => Network.ctor i o rnd
  | _, _ => Except.error "No input or output size given"

/-- Network `clone()`: the source returns `new Network(self.input, self.output)`
— a freshly constructed random network from the sizes alone. -/
def Network.clone (net : Network) (rnd : CtorRnd) : Except String Network :=
  Network.ctor net.input_size net.output_size rnd

/-- Current activation of the node with this id (NaN off a dangling id). -/
def Network.actOf (net : Network) (id : Nat) : JNum :=
  match net.nodeOf id with
  | some n => n.activation
  | none => ⟨0, 0⟩

/-- The gating factor `gater?.activation ?? 1` of a connection. -/
def gaterAct (net : Network) (g : Option Nat) : JNum :=
  match g with
  | some gid => net.actOf gid
  | none => ⟨1, 1⟩

/-- Modelled from the spec: node.js `Node.activate` for a non-input node
(§4.1): `state = bias + Σ incoming (weight * from.activation * gain) +
self.weight * previous_state * self_gain`, then
`activation = squash(state) * mask`; `F` is the external squash registry. -/
def Network.nodeActivate (net : Network) (F : Nat → JNum → JNum) (n : NNode) : NNode :=
  let incoming := (net.inConns n.id).foldl
    (fun acc c => acc + c.weight * net.actOf c.fromId * gaterAct net c.gater)
    (⟨0, 1⟩ : JNum)
  let selfpart :=
    match net.selfConnOf n.id with
    | some sc => sc.weight * n.state * gaterAct net sc.gater
    | none => (⟨0, 1⟩ : JNum)
  let st := n.bias + incoming + selfpart
  { n with state := st, activation := F n.squash st * n.mask }

/-- Network `activate(input, training)`: walk the nodes in stored order;
an input node takes `input[node_index]` (the source performs no length
validation, so a missing entry is `undefined` — NaN here), an output node
appends its fresh activation to the output, any other node first draws a
dropout mask when `training`.  `roll k` is the dropout draw for position
`k`.  Nothing on this path can fail. -/
def Network.activate (net : Network) (F : Nat → JNum → JNum)
    (input : List JNum) (training : Bool) (roll : Nat → JNum) :
    Network × List JNum :=
  (List.range net.nodes.length).foldl (fun (acc : Network × List JNum) k =>
    let net := acc.1
    let out := acc.2
    match net.nodes.get? k with
    | none => (net, out)
    | some n =>
      if n.type = NodeType.input then
        let n2 := { n with activation := (input.get? k).getD ⟨0, 0⟩ }
        ({ net with nodes := net.nodes.set k n2 }, out)
      else if n.type = NodeType.output then
        let n2 := net.nodeActivate F n
        ({ net with nodes := net.nodes.set k n2 }, out ++ [n2.activation])
      else
        let n0 := if training then
            { n with mask := if (roll k).lt net.dropout then ⟨0, 1⟩ else ⟨1, 1⟩ }
          else n
        let n2 := net.nodeActivate F n0
        ({ net with nodes := net.nodes.set k n2 }, out))
    (net, ([] : List JNum))

/-- Network `no_trace_activate(input)`: the same numeric walk without the
training branch (the skipped eligibility-trace bookkeeping is not part of
this model). -/
def Network.no_trace_activate (net : Network) (F : Nat → JNum → JNum)
    (input : List JNum) : Network × List JNum :=
  net.activate F input false (fun _ => ⟨0, 1⟩)

/-- Registry position of a squash id in the 15-name `squashes` list of
`serialize` (`squashes.indexOf(node.squash.name)`). -/
def serializeSquashIdx (s : Nat) : Int := if s < 15 then (s : Int) else -1

/-- Network `serialize()`: three flat numeric sequences — activations,
states, and the tokenized connection stream.  The source's inner loop over
`node.connections.in.length` dereferences `node.connectionections` — a
property that does not exist (`undefined`) — so the first iteration of that
loop throws a TypeError; a (from, weight, gater) triple is never pushed. -/
def Network.serialize (net : Network) :
    Except String (List JNum × List JNum × List JNum) := do
  let activations := net.nodes.map NNode.activation
  let states := net.nodes.map NNode.state
  let conns0 : List JNum := [JNum.ofInt net.input_size, JNum.ofInt net.output_size]
  let idxs := intRange net.input_size net.nodes.length
  let conns ← idxs.foldlM (fun (acc : List JNum) i => do
    match jsGet net.nodes i with
    | none => Except.error "TypeError: Cannot read properties of undefined"
    | some n =>
      let acc := acc ++ [JNum.ofInt i, n.bias, JNum.ofInt (serializeSquashIdx n.squash)]
      let acc := acc ++ [net.selfWeight n.id,
        JNum.ofInt (match (net.selfConnOf n.id).bind Conn.gater with
          | none => -1
          | some g => jsIndexOfId net.nodes g)]
      if (net.inConns n.id).length > 0 then
        Except.error "TypeError: Cannot read property 'in' of undefined"
      else
        pure (acc ++ [JNum.ofInt (-2)])) conns0
  pure (activations, states, conns)

/-- The gate-redistribution loop of `remove`: while displaced gater nodes and
fresh connections both remain, gate a uniformly chosen fresh connection with
the next displaced gater and retire that connection. -/
def Network.regate (net : Network) (gaters : List Nat) (conns : List Nat)
    (rs : Nat → JNum) (step : Nat) : Except String Network :=
  match gaters with
  | [] => Except.ok net
  | g :: gs =>
    if conns.isEmpty then Except.ok net
    else
      let k : Int := ((rs step).mul (JNum.ofInt conns.length)).floorI
      match jsGet conns k with
      | none => Except.error "TypeError: undefined connection"
      | some cid => do
        let net2 ← net.gate g cid
        net2.regate gs (conns.eraseIdx k.toNat) rs (step + 1)

/-- Network `remove(node)`: sever the node's self/in/out connections
(collecting displaced gater nodes when `keep_gates` — the global
`mutation.SUB_NODE.keep_gates` flag), reconnect its former sources to its
former targets where not already connected, redistribute the displaced
gaters onto the fresh connections at random (`rs`), ungate everything the
node itself gates, and splice the node out.  `wOf a b` is the random default
weight of the fresh connection a→b. -/
def Network.remove (net : Network) (nodeId : Nat) (keep_gates : Bool)
    (wOf : Nat → Nat → JNum) (rs : Nat → JNum) : Except String Network := do
  let index := jsIndexOfId net.nodes nodeId
  if index == -1 then Except.error "This node does not exist in the network!" else
  let collectGates := fun (l : List Conn) => l.foldl (fun acc c =>
    match c.gater with
    | some g => if keep_gates && g != nodeId then acc ++ [g] else acc
    | none => acc) ([] : List Nat)
  let net1 ← net.disconnect nodeId nodeId
  let ins := (net1.inConns nodeId).reverse
  let gates1 := collectGates ins
  let inputs := ins.map Conn.fromId
  let net2 ← ins.foldlM (fun (n : Network) c => n.disconnect c.fromId nodeId) net1
  let outs := (net2.outConns nodeId).reverse
  let gates2 := collectGates outs
  let outputs := outs.map Conn.toId
  let net3 ← outs.foldlM (fun (n : Network) c => n.disconnect nodeId c.toId) net2
  let acc4 ← inputs.foldlM (fun (acc : Network × List Nat) a =>
      outputs.foldlM (fun (acc : Network × List Nat) b =>
        if acc.1.isProjectingTo a b then pure acc
        else do
          let p ← acc.1.connect a b (wOf a b)
          pure (p.1, acc.2 ++ [p.2])) acc) (net3, ([] : List Nat))
  let net5 ← acc4.1.regate (gates1 ++ gates2) acc4.2 rs 0
  let net6 ← ((net5.gatedConns nodeId).reverse).foldlM
    (fun (n : Network) c => n.ungate c.cid) net5
  let net7 ← net6.disconnect nodeId nodeId
  Except.ok { net7 with nodes := net7.nodes.eraseIdx index.toNat }

/-
  The `possible(method)` query, split into one definition per mutation
  method (the JS switch has heterogeneous candidate payloads).  On a
  degenerate network with a negative declared size some of these JS loops
  would dereference `undefined`; such networks are outside every claim and
  the model simply yields no candidate from those positions.
-/

/-- Network `possible(SUB_NODE)`: nodes that are neither input nor output. -/
def Network.possibleSubNode (net : Network) : Option (List Nat) :=
  let candidates := (net.nodes.filter (fun n =>
    n.type != NodeType.output && n.type != NodeType.input)).map NNode.id
  if candidates.length > 0 then some candidates else none

/-- Network `possible(ADD_CONN)`: pairs `(nodes[i], nodes[j])` with
`i < nodes.length - output_size`, `j` from `max(i+1, input_size)`, not yet
connected. -/
def Network.possibleAddConn (net : Network) : Option (List (Nat × Nat)) :=
  let iMax := ((net.nodes.length : Int) - net.output_size).toNat
  let candidates := (List.range iMax).foldl (fun acc i =>
    match net.nodes.get? i with
    | none => acc
    | some node1 =>
      (intRange (max ((i : Int) + 1) net.input_size) net.nodes.length).foldl
        (fun acc j =>
          match jsGet net.nodes j with
          | some node2 =>
            if !(net.isProjectingTo node1.id node2.id) then acc ++ [(node1.id, node2.id)]
            else acc
          | none => acc) acc) ([] : List (Nat × Nat))
  if candidates.length > 0 then some candidates else none

/-- Network `possible(SUB_CONN)`: forward connections whose removal strands
neither endpoint. -/
def Network.possibleSubConn (net : Network) : Option (List Conn) :=
  let candidates := net.connections.filter (fun c =>
    (net.outConns c.fromId).length > 1 && (net.inConns c.toId).length > 1 &&
      decide (jsIndexOfId net.nodes c.toId > jsIndexOfId net.nodes c.fromId))
  if candidates.length > 0 then some candidates else none

/-- Network `possible(MOD_ACTIVATION)`: a bare feasibility flag (the source
returns `[]`, which is truthy, or `false`). -/
def Network.possibleModActivation (net : Network) (mutateOutput : Bool) : Bool :=
  mutateOutput || decide ((net.nodes.length : Int) > net.input_size + net.output_size)

/-- Network `possible(ADD_SELF_CONN)`: non-input nodes whose resident
self-connection weight is 0. -/
def Network.possibleAddSelfConn (net : Network) : Option (List Nat) :=
  let candidates := (intRange net.input_size net.nodes.length).foldl (fun acc i =>
    match jsGet net.nodes i with
    | some node => if (net.selfWeight node.id).isZero then acc ++ [node.id] else acc
    | none => acc) ([] : List Nat)
  if candidates.length > 0 then some candidates else none

/-- Network `possible(ADD_GATE)`: ungated connections, ordinary then self. -/
def Network.possibleAddGate (net : Network) : Option (List Conn) :=
  let candidates := net.allConns.filter (fun c => c.gater == none)
  if candidates.length > 0 then some candidates else none

/-- Network `possible(ADD_BACK_CONN)`: backward pairs `(nodes[i], nodes[j])`
with `input_size <= j < i`, not yet connected. -/
def Network.possibleAddBackConn (net : Network) : Option (List (Nat × Nat)) :=
  let candidates := (intRange net.input_size net.nodes.length).foldl (fun acc i =>
    (intRange net.input_size i).foldl (fun acc j =>
      match jsGet net.nodes i, jsGet net.nodes j with
      | some n1, some n2 =>
        if !(net.isProjectingTo n1.id n2.id) then acc ++ [(n1.id, n2.id)] else acc
      | _, _ => acc) acc) ([] : List (Nat × Nat))
  if candidates.length > 0 then some candidates else none

/-- Network `possible(SUB_BACK_CONN)`: backward connections whose removal
strands neither endpoint. -/
def Network.possibleSubBackConn (net : Network) : Option (List Conn) :=
  let candidates := net.connections.filter (fun c =>
    (net.outConns c.fromId).length > 1 && (net.inConns c.toId).length > 1 &&
      decide (jsIndexOfId net.nodes c.fromId > jsIndexOfId net.nodes c.toId))
  if candidates.length > 0 then some candidates else none

/-- The SWAP_NODES eligibility filter of the source: every non-input node
when output mutation is allowed, else every node that is neither input nor
output. -/
def Network.eligibleSwapNodes (net : Network) (mutateOutput : Bool) : List NNode :=
  net.nodes.filter (fun n =>
    if mutateOutput then n.type != NodeType.input
    else n.type != NodeType.input && n.type != NodeType.output)

/-- Network `possible(SWAP_NODES)`: the early break
`(nodes.length - 1) - input_size - (mutateOutput ? 0 : output_size) < 2`
comes first, then the eligibility filter with its `candidates.length >= 2`
check. -/
def Network.possibleSwapNodes (net : Network) (mutateOutput : Bool) :
    Option (List Nat) :=
  if ((net.nodes.length : Int) - 1) - net.input_size -
      (if mutateOutput then 0 else net.output_size) < 2 then none
  else
    let candidates := (net.eligibleSwapNodes mutateOutput).map NNode.id
    if candidates.length ≥ 2 then some candidates else none

/-- The thirteen mutation methods; operator-specific parameters
(`randomActivation`, `keep_gates`, `min`/`max`, `mutateOutput`) are carried
on the variant, mirroring the fields of the singleton method objects. -/
inductive Mutation where
  | ADD_NODE (randomActivation : Bool)
  | SUB_NODE (keep_gates : Bool)
  | ADD_CONN
  | SUB_CONN
  | MOD_WEIGHT (mn mx : JNum)
  | MOD_BIAS (mn mx : JNum)
  | MOD_ACTIVATION (mutateOutput : Bool)
  | ADD_SELF_CONN
  | SUB_SELF_CONN
  | ADD_GATE
  | SUB_GATE
  | ADD_BACK_CONN
  | SUB_BACK_CONN
  | SWAP_NODES (mutateOutput : Bool)
deriving DecidableEq, Repr

/-- Random draws consumed by one `mutate(method)` call: `r1`/`r2` the switch
case's own `Math.random()` draws, `w1`/`w2` default weights of fresh
connections, `nb` the fresh node's bias draw, `newSquash` the reassigned
squash id of a `MOD_ACTIVATION`, `wOf`/`rs` the draws of an inner `remove`. -/
structure MutRands where
  r1 : JNum
  r2 : JNum
  w1 : JNum
  w2 : JNum
  nb : JNum
  newSquash : Nat
  wOf : Nat → Nat → JNum
  rs : Nat → JNum

/-- Update the node with this id. -/
def Network.updateNode (net : Network) (id : Nat) (f : NNode → NNode) : Network :=
  { net with nodes := net.nodes.map (fun n => if n.id == id then f n else n) }

/-- Update the weight of the connection with this id. -/
def Network.updateConnWeight (net : Network) (cid : Nat) (w : JNum) : Network :=
  { net with
    connections := net.connections.map
      (fun c => if c.cid == cid then { c with weight := w } else c),
    selfconns := net.selfconns.map
      (fun c => if c.cid == cid then { c with weight := w } else c) }

/-- Uniform pick `l[Math.floor(r * l.length)]` (also lodash `_.sample`). -/
def jsPick (l : List α) (r : JNum) : Option α :=
  jsGet l ((r.mul (JNum.ofInt l.length)).floorI)

/-- Network `mutate(method)`: the thirteen-operator switch of the source.
Candidate-less operators are no-ops; a uniform pick from an `undefined`
candidate (e.g. ADD_NODE on a network without connections) throws. -/
def Network.mutate (net : Network) (m : Mutation) (o : MutRands) :
    Except String Network :=
  match m with
  | Mutation.ADD_NODE randomActivation =>
    match jsPick net.connections o.r1 with
    | none => Except.error "TypeError: undefined connection"
    | some connection => do
      let net1 ← net.disconnect connection.fromId connection.toId
      let toIndex := jsIndexOfId net1.nodes connection.toId
      let node := { NNode.new net1.fresh NodeType.hidden o.nb with
                    squash := if randomActivation then o.newSquash else 0 }
      let net2 := { net1 with fresh := net1.fresh + 1 }
      let minBound := min toIndex ((net2.nodes.length : Int) - net2.output_size)
      let net3 := { net2 with
        nodes := net2.nodes.insertIdx (jsSpliceIdx minBound net2.nodes.length) node }
      let p1 ← net3.connect connection.fromId node.id o.w1
      let p2 ← p1.1.connect node.id connection.toId o.w2
      match connection.gater with
      | some g => (p2.1.gate g (if JNum.le ⟨1, 2⟩ o.r2 then p1.2 else p2.2)).map id
      | none => Except.ok p2.1
  | Mutation.SUB_NODE keep_gates =>
    match net.possibleSubNode with
    | none => Except.ok net
    | some cands =>
      match jsPick cands o.r1 with
      | none => Except.error "TypeError: undefined node"
      | some nid => net.remove nid keep_gates o.wOf o.rs
  | Mutation.ADD_CONN =>
    match net.possibleAddConn with
    | none => Except.ok net
    | some cands =>
      match jsPick cands o.r1 with
      | none => Except.error "TypeError: undefined pair"
      | some pair => do
        let p ← net.connect pair.1 pair.2 o.w1
        pure p.1
  | Mutation.SUB_CONN =>
    match net.possibleSubConn with
    | none => Except.ok net
    | some cands =>
      match jsPick cands o.r1 with
      | none => Except.error "TypeError: undefined connection"
      | some c => net.disconnect c.fromId c.toId
  | Mutation.MOD_WEIGHT mn mx =>
    match jsPick net.allConns o.r1 with
    | none => Except.error "TypeError: undefined connection"
    | some c =>
      Except.ok (net.updateConnWeight c.cid (c.weight + (o.r2 * (mx - mn) + mn)))
  | Mutation.MOD_BIAS mn mx =>
    let idx := (o.r1 * JNum.ofInt ((net.nodes.length : Int) - net.input_size) +
      JNum.ofInt net.input_size).floorI
    match jsGet net.nodes idx with
    | none => Except.error "TypeError: undefined node"
    | some n =>
      Except.ok (net.updateNode n.id
        (fun nd => { nd with bias := nd.bias + (o.r2 * (mx - mn) + mn) }))
  | Mutation.MOD_ACTIVATION mutateOutput =>
    if net.possibleModActivation mutateOutput then
      match jsPick ((net.eligibleSwapNodes mutateOutput).map NNode.id) o.r1 with
      | none => Except.error "TypeError: undefined node"
      | some nid =>
        Except.ok (net.updateNode nid (fun nd => { nd with squash := o.newSquash }))
    else Except.ok net
  | Mutation.ADD_SELF_CONN =>
    match net.possibleAddSelfConn with
    | none => Except.ok net
    | some cands =>
      match jsPick cands o.r1 with
      | none => Except.error "TypeError: undefined node"
      | some nid => do
        let p ← net.connect nid nid ⟨0, 1⟩
        pure p.1
  | Mutation.SUB_SELF_CONN =>
    if net.selfconns.length > 0 then
      match jsPick net.selfconns o.r1 with
      | none => Except.error "TypeError: undefined connection"
      | some c => net.disconnect c.fromId c.toId
    else Except.ok net
  | Mutation.ADD_GATE =>
    match net.possibleAddGate with
    | none => Except.ok net
    | some cands =>
      let nidx := (o.r1 * JNum.ofInt ((net.nodes.length : Int) - net.input_size) +
        JNum.ofInt net.input_size).floorI
      match jsGet net.nodes nidx, jsPick cands o.r2 with
      | some node, some conn => net.gate node.id conn.cid
      | _, _ => Except.error "TypeError: undefined node or connection"
  | Mutation.SUB_GATE =>
    if net.gates.length > 0 then
      match jsPick net.gates o.r1 with
      | none => Except.error "TypeError: undefined connection"
      | some cid => net.ungate cid
    else Except.ok net
  | Mutation.ADD_BACK_CONN =>
    match net.possibleAddBackConn with
    | none => Except.ok net
    | some cands =>
      match jsPick cands o.r1 with
      | none => Except.error "TypeError: undefined pair"
      | some pair => do
        let p ← net.connect pair.1 pair.2 o.w1
        pure p.1
  | Mutation.SUB_BACK_CONN =>
    match net.possibleSubBackConn with
    | none => Except.ok net
    | some cands =>
      match jsPick cands o.r1 with
      | none => Except.error "TypeError: undefined connection"
      | some c => net.disconnect c.fromId c.toId
  | Mutation.SWAP_NODES mutateOutput =>
    match net.possibleSwapNodes mutateOutput with
    | none => Except.ok net
    | some cands =>
      match jsPick cands o.r1 with
      | none => Except.error "TypeError: undefined node"
      | some id1 =>
        let cands2 := cands.filter (fun id => id != id1)
        match jsPick cands2 o.r2 with
        | none => Except.error "TypeError: undefined node"
        | some id2 =>
          match net.nodeOf id1, net.nodeOf id2 with
          | some n1, some n2 =>
            Except.ok ((net.updateNode id1
                (fun nd => { nd with bias := n2.bias, squash := n2.squash })).updateNode id2
                (fun nd => { nd with bias := n1.bias, squash := n1.squash }))
          | _, _ => Except.ok net

/-- What `selectMutationMethod` hands to `genome.mutate`: a method, `null`
(cap exceeded — `mutate` silently no-ops on it), or `undefined` (which
`mutate` rejects with "No (correct) mutate method given!"). -/
inductive MethodPick where
  | undef
  | nullM
  | meth (m : Mutation)
deriving DecidableEq, Repr

/-- Network `mutate` at the calling convention of the population manager:
`undefined` throws, `null` falls through the switch as a no-op. -/
def Network.mutatePick (net : Network) (p : MethodPick) (o : MutRands) :
    Except String Network :=
  match p with
  | MethodPick.undef => Except.error "No (correct) mutate method given!"
  | MethodPick.nullM => Except.ok net
  | MethodPick.meth m => net.mutate m o

/-- Modelled from the spec: connection.js `Connection.innovationID(a, b)` —
the deterministic pairing `1/2 * (a + b) * (a + b + 1) + b` of the
(from-index, to-index) pair, used only to align connection genes. -/
def Connection.innovationID (a b : Int) : Int := (a + b) * (a + b + 1) / 2 + b

/-- One connection gene as collected by `cross_over`: weight, endpoint
indices, gater index (−1 when ungated). -/
structure ConnData where
  weight : JNum
  fromI : Int
  toI : Int
  gater : Int
deriving DecidableEq, Repr

/-- Junk gene (never read on the paths of well-formed parents). -/
def junkData : ConnData := ⟨⟨0, 0⟩, -1, -1, -1⟩

/-- Insert-or-replace in a key-sorted association list.  A JS object whose
keys are integer-like enumerates them in ascending numeric order, so the
dictionary is kept sorted by key. -/
def dictInsert (d : List (Int × ConnData)) (k : Int) (v : ConnData) :
    List (Int × ConnData) :=
  match d with
  | [] => [(k, v)]
  | (k0, v0) :: rest =>
    if k < k0 then (k, v) :: (k0, v0) :: rest
    else if k == k0 then (k, v) :: rest
    else (k0, v0) :: dictInsert rest k v

/-- Lookup in an association list. -/
def dictLookup (d : List (Int × α)) (k : Int) : Option α :=
  match d.find? (fun p => p.1 == k) with
  | some p => some p.2
  | none => none

/-- Mark a key processed (`n2conns[key] = undefined` in the source). -/
def dictMark (d : List (Int × Option ConnData)) (k : Int) :
    List (Int × Option ConnData) :=
  d.map (fun p => if p.1 == k then (p.1, none) else p)

/-- The connection gene of a connection, with endpoint `.index` values (the
source assigns `.index := position` to every node first). -/
def connData (nodes : List NNode) (c : Conn) : ConnData :=
  { weight := c.weight, fromI := jsIndexOfId nodes c.fromId,
    toI := jsIndexOfId nodes c.toId,
    gater := match c.gater with
      | some g => jsIndexOfId nodes g
      | none => -1 }

/-- The innovation-keyed gene dictionary of a parent (ordinary connections
first, then self connections, later assignments replacing earlier ones). -/
def geneDict (net : Network) : List (Int × ConnData) :=
  (net.connections ++ net.selfconns).foldl (fun d c =>
    let data := connData net.nodes c
    dictInsert d (Connection.innovationID data.fromI data.toI) data) []

/-- Random draws consumed by one `cross_over` call: the offspring-size draw,
the per-position node coin, and the per-step common-gene coin. -/
structure XORnd where
  sizeR : JNum
  nodeCoin : Nat → JNum
  geneCoin : Nat → JNum

/-- The common/excess/disjoint gene pass of `cross_over`: walk `keys1` from
the back, inherit a common gene from a random parent and mark it consumed in
`n2conns`, keep a `network1`-only gene when `score1 >= score2 || equal`;
then append the unconsumed `network2` genes when `score2 >= score1 || equal`. -/
def crossGenes (n1 : List (Int × ConnData)) (n2 : List (Int × Option ConnData))
    (keep1 keep2 : Bool) (coin : Nat → JNum) : List ConnData :=
  let keys1 := n1.map Prod.fst
  let step := keys1.reverse.enum.foldl
    (fun (acc : List ConnData × List (Int × Option ConnData)) p =>
      let (i, k) := p
      let (cs, d2) := acc
      match dictLookup d2 k with
      | some (some v2) =>
        let v1 := (dictLookup n1 k).getD junkData
        let chosen := if JNum.le ⟨1, 2⟩ (coin i) then v1 else v2
        (cs ++ [chosen], dictMark d2 k)
      | _ =>
        if keep1 then (cs ++ [(dictLookup n1 k).getD junkData], d2) else (cs, d2))
    (([] : List ConnData), n2)
  if keep2 then
    step.2.foldl (fun cs p =>
      match p.2 with
      | some v => cs ++ [v]
      | none => cs) step.1
  else step.1

/-- Network `cross_over(network1, network2, equal)`: equal input/output
sizes required; offspring node count drawn from the parents' range when
`equal` or the scores tie, else the fitter parent's; per-position node genes
copied from a random parent (falling back when the pick is missing or
output-typed early, and reading tail positions for the output partition);
connection genes aligned by innovation id and instantiated when both
endpoints (and, for gating, the gater index) fall inside the offspring. -/
def Network.cross_over (network1 network2 : Network) (equal : Bool) (o : XORnd) :
    Except String Network := do
  if network1.input_size ≠ network2.input_size ∨
     network1.output_size ≠ network2.output_size then
    Except.error "Networks don`t have the same input/output size!"
  else do
  let base ← Network.ctor network1.input_size network1.output_size
    ⟨fun _ _ => ⟨0, 1⟩, fun _ => ⟨0, 1⟩⟩
  let offspring0 : Network := { base with nodes := [], connections := [] }
  let score1 := network1.score.getD ⟨0, 1⟩
  let score2 := network2.score.getD ⟨0, 1⟩
  let size : Nat :=
    if equal || JNum.veq score1 score2 then
      let mx : Int := max network1.nodes.length network2.nodes.length
      let mn : Int := min network1.nodes.length network2.nodes.length
      ((o.sizeR * JNum.ofInt (mx - mn + 1) + JNum.ofInt mn).floorI).toNat
    else if JNum.lt score2 score1 then network1.nodes.length
    else network2.nodes.length
  let outputSize := network1.output_size
  let offspring1 ← (List.range size).foldlM (fun (acc : Network) (i : Nat) => do
    let chosen : Option NNode :=
      if (i : Int) < (size : Int) - outputSize then
        let r := o.nodeCoin i
        let node := if JNum.le ⟨1, 2⟩ r then jsGet network1.nodes i
                    else jsGet network2.nodes i
        let other := if JNum.le ⟨1, 2⟩ r then jsGet network2.nodes i
                     else jsGet network1.nodes i
        match node with
        | none => other
        | some n => if n.type = NodeType.output then other else some n
      else
        if JNum.le ⟨1, 2⟩ (o.nodeCoin i) then
          jsGet network1.nodes ((network1.nodes.length : Int) + i - size)
        else
          jsGet network2.nodes ((network2.nodes.length : Int) + i - size)
    match chosen with
    | none => Except.error "TypeError: undefined node"
    | some n =>
      let newNode := { NNode.new acc.fresh NodeType.hidden n.bias with
                       type := n.type, squash := n.squash }
      pure { acc with nodes := acc.nodes ++ [newNode], fresh := acc.fresh + 1 })
    offspring0
  let n1 := geneDict network1
  let n2 := (geneDict network2).map (fun p => (p.1, some p.2))
  let keep1 := JNum.le score2 score1 || equal
  let keep2 := JNum.le score1 score2 || equal
  let connections := crossGenes n1 n2 keep1 keep2 o.geneCoin
  connections.foldlM (fun (net : Network) data => do
    if data.toI < (size : Int) ∧ data.fromI < (size : Int) then
      match jsGet net.nodes data.fromI, jsGet net.nodes data.toI with
      | some nf, some nt => do
        let p ← net.connect nf.id nt.id ⟨0, 1⟩
        let net2 := p.1.updateConnWeight p.2 data.weight
        if data.gater ≠ -1 ∧ data.gater < (size : Int) then
          match jsGet net2.nodes data.gater with
          | some ng => net2.gate ng.id p.2
          | none => Except.error "This node is not part of the network!"
        else pure net2
      | _, _ => Except.error "TypeError: undefined node"
    else pure net) offspring1

/-- Serialized form of a connection (`Connection.to_JSON` plus the
from/to/gater indices `to_JSON` writes onto it). -/
structure ConnJSON where
  fromI : Int
  toI : Int
  weight : JNum
  gater : Option Int
deriving DecidableEq, Repr

/-- Modelled from the spec: node.js `Node.to_JSON` — bias, kind, squash id,
mask. -/
structure NodeJSON where
  bias : JNum
  type : NodeType
  squash : Nat
  mask : JNum
deriving DecidableEq, Repr

/-- The structural serialization of a network (§6 of the spec). -/
structure NetJSON where
  input : Int
  output : Int
  dropout : JNum
  nodes : List NodeJSON
  connections : List ConnJSON
deriving DecidableEq, Repr

/-- Modelled from the spec: node.js `Node.to_JSON`. -/
def NNode.to_JSON (n : NNode) : NodeJSON := ⟨n.bias, n.type, n.squash, n.mask⟩

/-- Modelled from the spec: node.js `Node.from_JSON` — a fresh node carrying
the serialized bias/kind/squash/mask. -/
def NNode.from_JSON (j : NodeJSON) (id : Nat) : NNode :=
  { id := id, type := j.type, bias := j.bias, squash := j.squash, mask := j.mask,
    activation := ⟨0, 1⟩, state := ⟨0, 1⟩ }

/-- Network `to_JSON()`: sizes, dropout, node list, and the connection list —
per node the live self-connection (weight ≠ 0), then the ordinary
connections, each with positional from/to/gater indices. -/
def Network.to_JSON (net : Network) : NetJSON :=
  let selfJ := net.nodes.enum.foldl (fun (acc : List ConnJSON) p =>
    let (i, n) := p
    if !(net.selfWeight n.id).isZero then
      acc ++ [⟨(i : Int), (i : Int), net.selfWeight n.id,
        match (net.selfConnOf n.id).bind Conn.gater with
        | some g => some (jsIndexOfId net.nodes g)
        | none => none⟩]
    else acc) []
  let ordJ := net.connections.map (fun c =>
    (⟨jsIndexOfId net.nodes c.fromId, jsIndexOfId net.nodes c.toId, c.weight,
      match c.gater with
      | some g => some (jsIndexOfId net.nodes g)
      | none => none⟩ : ConnJSON))
  ⟨net.input_size, net.output_size, net.dropout, net.nodes.map NNode.to_JSON,
    selfJ ++ ordJ⟩

/-- Network `from_JSON(json)`: a fresh `Network(json.input, json.output)`
whose node and connection lists are discarded and rebuilt from the json —
nodes via `Node.from_JSON`, connections via `connect` (then the serialized
weight) and `gate`. -/
def Network.from_JSON (json : NetJSON) : Except String Network := do
  let base ← Network.ctor json.input json.output ⟨fun _ _ => ⟨0, 1⟩, fun _ => ⟨0, 1⟩⟩
  let start := base.fresh
  let net0 := { base with
    nodes := json.nodes.enum.map (fun p => NNode.from_JSON p.2 (start + p.1)),
    connections := ([] : List Conn), dropout := json.dropout,
    fresh := start + json.nodes.length }
  json.connections.foldlM (fun (net : Network) cj => do
    match jsGet net.nodes cj.fromI, jsGet net.nodes cj.toI with
    | some nf, some nt => do
      let p ← net.connect nf.id nt.id ⟨0, 1⟩
      let net2 := p.1.updateConnWeight p.2 cj.weight
      match cj.gater with
      | some g =>
        match jsGet net2.nodes g with
        | some ng => net2.gate ng.id p.2
        | none => Except.error "This node is not part of the network!"
      | none => pure net2
    | _, _ => Except.error "TypeError: undefined node") net0

/-- The deep copy `Network.from_JSON(net.to_JSON())` used for provenance,
elitism hand-back and the fittest-network return. -/
def Network.jsonClone (net : Network) : Except String Network :=
  Network.from_JSON net.to_JSON

/-- The three selection strategies, with their registry parameters
(`POWER.power`, `TOURNAMENT.size`, `TOURNAMENT.probability`). -/
inductive Selection where
  | POWER (power : Nat)
  | FITNESS_PROPORTIONATE
  | TOURNAMENT (size : Nat) (probability : JNum)
deriving DecidableEq, Repr

/-- The JS comparison `a.score < b.score` (false when either is undefined). -/
def jsScoreLt (a b : Option JNum) : Bool :=
  match a, b with
  | some x, some y => x.lt y
  | _, _ => false

/-- Insert a genome into a descending-by-score list, after existing equals
(the stable JS `sort((a, b) => b.score - a.score)`). -/
def insertByScore (g : Network) : List Network → List Network
  | [] => [g]
  | h :: t => if jsScoreLt h.score g.score then g :: h :: t else h :: insertByScore g t

/-- Stable descending sort by score, modelling `Array.prototype.sort` with
the comparator `(a, b) => b.score - a.score`. -/
def sortByScoreDesc (l : List Network) : List Network :=
  l.foldl (fun acc g => insertByScore g acc) []

/-- The Neat population manager's state and configuration. -/
structure Neat where
  generation : Nat
  input : Int
  output : Int
  equal : Bool
  popsize : Nat
  elitism : Nat
  provenance : Nat
  mutationRate : JNum
  mutationAmount : Nat
  selection : Selection
  mutationList : List Mutation
  template : Network
  maxNodes : Option Nat
  maxConns : Option Nat
  maxGates : Option Nat
  population : List Network

/-- Neat `sort()`. -/
def Neat.sortPop (nt : Neat) : Neat :=
  { nt with population := sortByScoreDesc nt.population }

/-- Random draws consumed by one `getParent()` call: the strategy's main
draw, the fitness-proportionate fallback draw, and the tournament's sample
and acceptance draws. -/
structure POr where
  r : JNum
  fb : JNum
  tSample : Nat → JNum
  tAccept : Nat → JNum

/-- The roulette walk of FITNESS_PROPORTIONATE: accumulate shifted scores
and return the first genome passing the drawn threshold. -/
def fpWalk (random minimalAbs : JNum) : List Network → JNum → Option Network
  | [], _ => none
  | g :: t, value =>
    let v := value + (g.score.getD ⟨0, 0⟩ + minimalAbs)
    if random.lt v then some g else fpWalk random minimalAbs t v

/-- JS `Math.abs`. -/
def JNum.abs (a : JNum) : JNum := ⟨(a.num.natAbs : Int), a.den⟩

/-- Neat `getParent()`: POWER (sorting first when the top two are out of
order, then a power-law index), FITNESS_PROPORTIONATE (roulette over scores
shifted by the population minimum, with a uniform fallback), TOURNAMENT
(sample `size` genomes, sort them, accept each with probability `p`,
guaranteeing the last slot).  A JS path that returns `undefined` instead of
a genome — POWER dereferences `population[1]` unconditionally, a tournament
of size 0 falls through — is an `Except.error` here; the caller
(`cross_over` on an undefined parent) throws immediately in the source. -/
def Neat.getParent (nt : Neat) (o : POr) : Except String Network :=
  match nt.selection with
  | Selection.POWER power =>
    match jsGet nt.population 0, jsGet nt.population 1 with
    | some g0, some g1 =>
      let pop := if jsScoreLt g0.score g1.score then sortByScoreDesc nt.population
                 else nt.population
      let index := ((o.r.powN power) * JNum.ofInt pop.length).floorI
      match jsGet pop index with
      | some g => Except.ok g
      | none => Except.error "TypeError: undefined genome"
    | _, _ => Except.error "TypeError: cannot read score of undefined"
  | Selection.FITNESS_PROPORTIONATE =>
    let minimal := nt.population.foldl
      (fun m g => if jsScoreLt g.score (some m) then g.score.getD ⟨0, 0⟩ else m) ⟨0, 1⟩
    let minimalAbs := minimal.abs
    let total := nt.population.foldl (fun t g => t + g.score.getD ⟨0, 0⟩) ⟨0, 1⟩ +
      minimalAbs * JNum.ofInt nt.population.length
    let random := o.r * total
    match fpWalk random minimalAbs nt.population ⟨0, 1⟩ with
    | some g => Except.ok g
    | none =>
      match jsGet nt.population ((o.fb * JNum.ofInt nt.population.length).floorI) with
      | some g => Except.ok g
      | none => Except.error "TypeError: undefined genome"
  | Selection.TOURNAMENT size probability =>
    if size > nt.popsize then
      Except.error "Your tournament size should be lower than the population size, please change methods.selection.TOURNAMENT.size"
    else do
      let individuals ← (List.range size).foldlM (fun (acc : List Network) i =>
        match jsGet nt.population
            ((o.tSample i * JNum.ofInt nt.population.length).floorI) with
        | some g => pure (acc ++ [g])
        | none => Except.error "TypeError: undefined genome") ([] : List Network)
      let sorted := sortByScoreDesc individuals
      match (List.range size).find?
          (fun i => (o.tAccept i).lt probability || i == size - 1) with
      | some i =>
        match jsGet sorted i with
        | some g => Except.ok g
        | none => Except.error "TypeError: undefined genome"
      | none => Except.error "TypeError: undefined genome"

/-- Neat `selectMutationMethod(genome)` (the `efficientMutation` branch is
dead: the flag is unconditionally reset to `false` first): a uniform pick
from the allowed list, turned into `null` when a maxNodes/maxConns/maxGates
cap is hit, or `undefined` from an empty list. -/
def Neat.selectMutationMethod (nt : Neat) (genome : Network) (r : JNum) : MethodPick :=
  match jsPick nt.mutationList r with
  | none => MethodPick.undef
  | some m =>
    let isAddNode := match m with | Mutation.ADD_NODE _ => true | _ => false
    let capped := fun (cap : Option Nat) (len : Nat) =>
      match cap with
      | some c => decide (len ≥ c)
      | none => false
    if isAddNode && capped nt.maxNodes genome.nodes.length then MethodPick.nullM
    else if (m == Mutation.ADD_CONN) && capped nt.maxConns genome.connections.length then
      MethodPick.nullM
    else if (m == Mutation.ADD_GATE) && capped nt.maxGates genome.gates.length then
      MethodPick.nullM
    else MethodPick.meth m

/-- Random draws consumed by one Neat `mutate()` pass: the per-genome rate
roll, the per-application method pick, and the per-application mutation
draws. -/
structure NMRnd where
  rateRoll : Nat → JNum
  pick : Nat → Nat → JNum
  rands : Nat → Nat → MutRands

/-- Neat `mutate()`: every genome rolls against `mutationRate`; a selected
genome takes `mutationAmount` sequential mutation picks. -/
def Neat.mutatePop (nt : Neat) (o : NMRnd) : Except String Neat := do
  let pop ← nt.population.enum.mapM (fun (p : Nat × Network) => do
    let (i, g) := p
    if (o.rateRoll i).le nt.mutationRate then
      (List.range nt.mutationAmount).foldlM (fun (g : Network) j =>
        g.mutatePick (nt.selectMutationMethod g (o.pick i j)) (o.rands i j)) g
    else pure g)
  pure { nt with population := pop }

/-- Neat `evaluate()` with an injected per-genome fitness evaluator (the
`fitnessPopulation = false` branch; the source's `self.clear` check reads a
property the constructor stored under the name `clean`, so the clearing
branch never runs): assign every score, then sort. -/
def Neat.evaluate (nt : Neat) (fitness : Network → JNum) : Neat :=
  { nt with population :=
      sortByScoreDesc (nt.population.map (fun g => { g with score := some (fitness g) })) }

/-- Random draws consumed by one `getOffspring()` call. -/
structure OffRnd where
  p1 : POr
  p2 : POr
  x : XORnd

/-- Neat `getOffspring()`: two parents via the selection strategy, crossed
over. -/
def Neat.getOffspring (nt : Neat) (o : OffRnd) : Except String Network := do
  let parent1 ← nt.getParent o.p1
  let parent2 ← nt.getParent o.p2
  Network.cross_over parent1 parent2 nt.equal o.x

/-- Random draws consumed by one `evolve()` call. -/
structure EvolveRnd where
  off : Nat → OffRnd
  nm : NMRnd

/-- Neat `evolve()` (without the optional `pickGenome`/`adjustGenome`
filter): check `elitism + provenance <= popsize`, evaluate if the last
genome is unscored, sort, copy the `elitism` best, inject `provenance`
clones of the template, breed the remaining `popsize - elitism - provenance`
slots, mutate the bred genomes, append the elites, re-evaluate, sort, clone
the fittest, reset every score, and advance `generation` by one. -/
def Neat.evolve (nt : Neat) (fitness : Network → JNum) (o : EvolveRnd) :
    Except String (Neat × Network) := do
  if nt.elitism + nt.provenance > nt.popsize then
    Except.error "Can`t evolve! Elitism + provenance exceeds population size!"
  else
  match nt.population.getLast? with
  | none => Except.error "TypeError: cannot read score of undefined"
  | some last => do
    let nt1 := if last.score.isNone then nt.evaluate fitness else nt
    let nt2 := nt1.sortPop
    let elitists ← (List.range nt2.elitism).foldlM (fun (acc : List Network) (i : Nat) =>
      match jsGet nt2.population i with
      | some g => pure (acc ++ [g])
      | none => Except.error "TypeError: undefined genome") ([] : List Network)
    let provClone ← nt2.template.jsonClone
    let newPop0 := List.replicate nt2.provenance provClone
    let newPop ← (List.range (nt2.popsize - nt2.elitism - nt2.provenance)).foldlM
      (fun (acc : List Network) i => do
        let off ← nt2.getOffspring (o.off i)
        pure (acc ++ [off])) newPop0
    let nt4 ← Neat.mutatePop { nt2 with population := newPop } o.nm
    let nt6 := Neat.evaluate { nt4 with population := nt4.population ++ elitists } fitness
    let nt7 := nt6.sortPop
    match nt7.population.head? with
    | none => Except.error "TypeError: undefined genome"
    | some top => do
      let fittestBase ← top.jsonClone
      let fittest := { fittestBase with score := top.score }
      Except.ok ({ nt7 with
        population := nt7.population.map (fun g => { g with score := none }),
        generation := nt7.generation + 1 }, fittest)

/-
  Claim-level predicates and concrete instances.
-/

/-- Region typing of the node at position `i` (spec section 3): input
partition below `input_size`, output partition from `len - output_size`,
hidden/constant in between. -/
def Network.typedAt (net : Network) (i : Nat) (n : NNode) : Prop :=
  ((i : Int) < net.input_size → n.type = NodeType.input) ∧
  (net.input_size ≤ (i : Int) → (i : Int) < (net.nodes.length : Int) - net.output_size →
    (n.type = NodeType.hidden ∨ n.type = NodeType.constant)) ∧
  ((net.nodes.length : Int) - net.output_size ≤ (i : Int) → n.type = NodeType.output)

/-- Full region typing of the node sequence. -/
def Network.typing (net : Network) : Prop :=
  ∀ i (h : i < net.nodes.length), net.typedAt i (net.nodes.get ⟨i, h⟩)

/-- The claim's partition property: `nodes[0 .. input_size)` are input-typed
and `nodes[len - output_size .. len)` are output-typed. -/
def Network.partitionTyped (net : Network) : Prop :=
  ∀ i (h : i < net.nodes.length),
    (((i : Int) < net.input_size → (net.nodes.get ⟨i, h⟩).type = NodeType.input) ∧
     ((net.nodes.length : Int) - net.output_size ≤ (i : Int) →
        (net.nodes.get ⟨i, h⟩).type = NodeType.output))

/-- Region typing of a node sequence against declared sizes: input-typed
below `inp`, output-typed from `length - out` (the claim's partition
property, abstracted over the list). -/
def regionTyped (inp out : Int) (l : List NNode) : Prop :=
  ∀ i (h : i < l.length),
    ((i : Int) < inp → (l.get ⟨i, h⟩).type = NodeType.input) ∧
    ((l.length : Int) - out ≤ (i : Int) → (l.get ⟨i, h⟩).type = NodeType.output)

instance (inp out : Int) (l : List NNode) : Decidable (regionTyped inp out l) := by
  unfold regionTyped
  infer_instance

instance (net : Network) : Decidable net.partitionTyped := by
  unfold Network.partitionTyped
  infer_instance

/-- A node id is live in the network. -/
def Network.hasId (net : Network) (id : Nat) : Prop := id ∈ net.nodeIds

instance (net : Network) (id : Nat) : Decidable (net.hasId id) := by
  unfold Network.hasId; infer_instance

/-- An optional gater reference is live when present. -/
def Network.gaterLive (net : Network) : Option Nat → Prop
  | some g => net.hasId g
  | none => True

instance (net : Network) : (g : Option Nat) → Decidable (net.gaterLive g)
  | some _ => inferInstanceAs (Decidable (Network.hasId _ _))
  | none => inferInstanceAs (Decidable True)

/-- Endpoints and gater of a connection are live node references. -/
def Network.connEndsLive (net : Network) (c : Conn) : Prop :=
  net.hasId c.fromId ∧ net.hasId c.toId ∧ net.gaterLive c.gater

instance (net : Network) (c : Conn) : Decidable (net.connEndsLive c) := by
  unfold Network.connEndsLive; infer_instance

/-- The to-endpoint of a connection is never an input node. -/
def Network.toNotInput (net : Network) (c : Conn) : Prop :=
  ∀ n ∈ net.nodes, n.id = c.toId → n.type ≠ NodeType.input

/-- Well-formedness of a network: non-negative sizes, at least
`input_size + output_size` nodes, distinct node ids, region typing, live
connection endpoints, no connection into an input node, the
ordinary/self split of the connection lists, and freshness of the id
counter. -/
def Network.WF (net : Network) : Prop :=
  0 ≤ net.input_size ∧ 0 ≤ net.output_size ∧
  net.input_size + net.output_size ≤ (net.nodes.length : Int) ∧
  (net.nodes.map NNode.id).Nodup ∧
  net.typing ∧
  (∀ c ∈ net.allConns, net.connEndsLive c) ∧
  (∀ c ∈ net.allConns, net.toNotInput c) ∧
  (∀ c ∈ net.connections, c.fromId ≠ c.toId) ∧
  (∀ c ∈ net.selfconns, c.fromId = c.toId) ∧
  (∀ n ∈ net.nodes, n.id < net.fresh)

/-- A connection touches a node id at either endpoint. -/
def Conn.touches (c : Conn) (id : Nat) : Prop := c.fromId = id ∨ c.toId = id

/-- The (from, to) id pairs of all connections. -/
def Network.connPairs (net : Network) : List (Nat × Nat) :=
  net.allConns.map (fun c => (c.fromId, c.toId))

/-- The (from-index, to-index, weight) triples of all connections — the
"connection set" the crossover claim compares. -/
def Network.connTriples (net : Network) : List (Int × Int × JNum) :=
  net.allConns.map (fun c =>
    (jsIndexOfId net.nodes c.fromId, jsIndexOfId net.nodes c.toId, c.weight))

/-- Number of output-typed nodes (the length `activate` returns). -/
def Network.outputCount (net : Network) : Nat :=
  (net.nodes.filter (fun n => n.type == NodeType.output)).length

/-- The run of connections created for one source id `a` over the target
columns `js`, with connection ids counting up from `base`. -/
def connRun (a : Nat) (w : Nat → Nat → JNum) (base : Nat) : List Int → List Conn
  | [] => []
  | j :: rest => ⟨base, a, j.toNat, w a j.toNat, none⟩ :: connRun a w (base + 1) rest

/-- The full run of constructor connections: source rows `is`, target
columns `js`. -/
def ctorRun (w : Nat → Nat → JNum) (js : List Int) (base : Nat) :
    List Int → List Conn
  | [] => []
  | i0 :: rest =>
    connRun i0.toNat w base js ++ ctorRun w js (base + js.length) rest

/-- The connection list the constructor creates. -/
def ctorConns (input_size output_size : Int) (rnd : CtorRnd) : List Conn :=
  ctorRun rnd.w (intRange input_size (output_size + input_size))
    (input_size + output_size).toNat (intRange 0 input_size)

/-- Deterministic constructor draws for concrete instances: weight 1,
bias 0. -/
def rnd1 : CtorRnd := ⟨fun _ _ => ⟨1, 1⟩, fun _ => ⟨0, 1⟩⟩

/-- Fallback network value (never reached by the concrete instances). -/
def fallbackNetwork : Network :=
  ⟨1, 1, [], [], [], [], ⟨0, 1⟩, none, 0⟩

/-- The concrete `new Network(1, 1)` with deterministic draws. -/
def net11 : Network := ((Network.ctor 1 1 rnd1).toOption).getD fallbackNetwork

/-- The concrete `new Network(2, 1)` with deterministic draws. -/
def net21 : Network := ((Network.ctor 2 1 rnd1).toOption).getD fallbackNetwork

/-- The concrete `new Network(1, 2)` with deterministic draws. -/
def net12 : Network := ((Network.ctor 1 2 rnd1).toOption).getD fallbackNetwork

/-- The network net11 after its single connection's weight was changed to 5
(as a MOD_WEIGHT mutation would). -/
def net11w5 : Network := net11.updateConnWeight 2 ⟨5, 1⟩

/-- The endpoint pair of a connection. -/
def Conn.pair (c : Conn) : Nat × Nat := (c.fromId, c.toId)

/-- Deterministic mutation draws for concrete instances: every `Math.random()`
is 0, every fresh weight 1, the fresh bias 0. -/
def mutA : MutRands :=
  ⟨⟨0, 1⟩, ⟨0, 1⟩, ⟨1, 1⟩, ⟨1, 1⟩, ⟨0, 1⟩, 0, fun _ _ => ⟨1, 1⟩, fun _ => ⟨0, 1⟩⟩

/-- net11 after one ADD_NODE mutation: input 0 → hidden 3 → output 1. -/
def netH : Network :=
  ((net11.mutate (Mutation.ADD_NODE false) mutA).toOption).getD fallbackNetwork

/-- netH after `remove(hidden node 3)`: the severed chain is reconnected
as the direct connection input 0 → output 1. -/
def netHr : Network :=
  ((netH.remove 3 true mutA.wOf mutA.rs).toOption).getD fallbackNetwork

/-- A `Math.random()`-style draw: a fraction in [0, 1). -/
def JNum.unit (a : JNum) : Prop := 0 ≤ a.num ∧ a.num < (a.den : Int)

instance (a : JNum) : Decidable a.unit := by
  unfold JNum.unit
  infer_instance

/-- net11 with a numeric score, as after an `evaluate()` pass. -/
def net11s : Network := { net11 with score := some ⟨3, 1⟩ }

/-- net21 with a numeric score. -/
def net21s : Network := { net21 with score := some ⟨2, 1⟩ }

/-- Deterministic selection draws: every `Math.random()` is 0. -/
def pOr1 : POr := ⟨⟨0, 1⟩, ⟨0, 1⟩, fun _ => ⟨0, 1⟩, fun _ => ⟨0, 1⟩⟩

/-- A POWER-selection population manager over a single evaluated genome. -/
def neatP1 : Neat :=
  { generation := 0, input := 1, output := 1, equal := false, popsize := 1,
    elitism := 0, provenance := 0, mutationRate := ⟨1, 2⟩, mutationAmount := 1,
    selection := Selection.POWER 4, mutationList := [], template := net11,
    maxNodes := none, maxConns := none, maxGates := none,
    population := [net11s] }

/-- A POWER-selection population manager over two evaluated genomes. -/
def neatP2 : Neat :=
  { neatP1 with popsize := 2, population := [net11s, net21s] }

/-- The parent that `neatP2.getParent` draws. -/
def gP2 : Network := ((neatP2.getParent pOr1).toOption).getD fallbackNetwork

/-- Fallback manager value (never reached by the concrete instances). -/
def fallbackNeat : Neat := neatP1

/-- Deterministic crossover draws: every coin 0. -/
def xo1 : XORnd := ⟨⟨0, 1⟩, fun _ => ⟨0, 1⟩, fun _ => ⟨0, 1⟩⟩

/-- Deterministic draws for one `evolve()` call: parents via the zero draw,
mutation rolls that always miss `mutationRate`. -/
def evOr : EvolveRnd :=
  ⟨fun _ => ⟨pOr1, pOr1, xo1⟩, ⟨fun _ => ⟨1, 1⟩, fun _ _ => ⟨0, 1⟩, fun _ _ => mutA⟩⟩

/-- A population manager with popsize 10, elitism 2, provenance 0 over ten
evaluated copies of net11. -/
def neatE : Neat :=
  { generation := 0, input := 1, output := 1, equal := true, popsize := 10,
    elitism := 2, provenance := 0, mutationRate := ⟨1, 2⟩, mutationAmount := 1,
    selection := Selection.POWER 4, mutationList := [], template := net11,
    maxNodes := none, maxConns := none, maxGates := none,
    population := List.replicate 10 net11s }

/-- The state and fittest genome after one `evolve()` call on neatE. -/
def evolveRes : Neat × Network :=
  ((neatE.evolve (fun _ => ⟨1, 1⟩) evOr).toOption).getD (fallbackNeat, fallbackNetwork)

/-- The node list the crossover node loop builds when every position is
copied from the same parent list `l`: position by position, a hidden-typed
clone of `l[i]` keeping type, bias and squash, with fresh ids counting up
from `base` (the dummy fallback is never reached on in-range indices). -/
def xoNodes (l : List NNode) : List Nat → Nat → List NNode
  | [], _ => []
  | i :: rest, base =>
    (match l.get? i with
     | some n => { NNode.new base NodeType.hidden n.bias with
                   type := n.type, squash := n.squash }
     | none => NNode.new base NodeType.hidden ⟨0, 1⟩) :: xoNodes l rest (base + 1)

/-- The `network2` gene dictionary of `cross_over` after the keys in `done`
have been consumed (`n2conns[key] = undefined`). -/
def markedDict (d : List (Int × ConnData)) (done : List Int) :
    List (Int × Option ConnData) :=
  d.map (fun p => (p.1, if p.1 ∈ done then none else some p.2))

end Carrot

open Carrot

/-
  Utility lemmas.
-/

theorem jsGet_of_nonneg {α : Type} (l : List α) (i : Int) (h : 0 ≤ i) :
    jsGet l i = l.get? i.toNat := by
  unfold jsGet
  rw [if_neg (by omega)]

theorem mem_intRange {lo hi x : Int} : x ∈ intRange lo hi ↔ lo ≤ x ∧ x < hi := by
  unfold intRange
  rw [List.mem_map]
  constructor
  · rintro ⟨k, hk, rfl⟩
    rw [List.mem_range] at hk
    omega
  · intro h
    refine ⟨(x - lo).toNat, ?_, ?_⟩
    · rw [List.mem_range]
      omega
    · omega

theorem intRange_toNat_nodup (lo hi : Int) (h : 0 ≤ lo) :
    ((intRange lo hi).map Int.toNat).Nodup := by
  unfold intRange
  rw [List.map_map]
  apply List.Nodup.map_on
  · intro x hx y hy hxy
    rw [List.mem_range] at hx hy
    simp only [Function.comp_apply] at hxy
    omega
  · exact List.nodup_range _

theorem jsGet_ctorNodes (i o : Int) (rnd : CtorRnd) (k : Int)
    (h0 : 0 ≤ k) (h1 : k < i + o) :
    jsGet (ctorNodes i o rnd) k = some
      (NNode.new k.toNat
        (if k < i then NodeType.input else NodeType.output) (rnd.b k.toNat)) := by
  rw [jsGet_of_nonneg _ _ h0]
  unfold ctorNodes
  rw [List.get?_eq_getElem?, List.getElem?_map,
    List.getElem?_range (by omega : k.toNat < (i + o).toNat)]
  simp only [Option.map_some']
  have hnat : ((k.toNat : Nat) : Int) = k := by omega
  rw [hnat]

theorem connect_fresh (net : Network) (a b : Nat) (w : JNum)
    (hab : a ≠ b)
    (hproj : ∀ c ∈ net.connections, c.fromId = a → c.toId ≠ b) :
    net.connect a b w =
      Except.ok ({ net with
        connections := net.connections ++ [⟨net.fresh, a, b, w, none⟩],
        fresh := net.fresh + 1 }, net.fresh) := by
  have h1 : (a == b) = false := by simp [hab]
  have h2 : net.isProjectingTo a b = false := by
    unfold Network.isProjectingTo Network.outConns
    rw [h1]
    simp only [Bool.false_and, Bool.false_or]
    rw [List.any_eq_false]
    intro c hc
    simp only [List.mem_filter, beq_iff_eq] at hc
    simp [hproj c hc.1 hc.2]
  unfold Network.connect
  rw [h1, h2]
  rfl

theorem exceptOkBind {ε α β : Type} (a : α) (f : α → Except ε β) :
    ((Except.ok a : Except ε α) >>= f) = f a := rfl

theorem exceptPureEq {ε α : Type} (a : α) : (pure a : Except ε α) = Except.ok a := rfl

theorem ctor_inner (i o : Int) (rnd : CtorRnd) (i0 : Int) (hi0 : 0 ≤ i0) (hi0i : i0 < i) :
    ∀ (js : List Int) (net : Network),
    net.nodes = ctorNodes i o rnd →
    (∀ j ∈ js, i ≤ j ∧ j < o + i) →
    ((js.map Int.toNat).Nodup) →
    (∀ c ∈ net.connections, c.fromId = i0.toNat → c.toId ∉ js.map Int.toNat) →
    (js.foldlM (fun (net : Network) j => do
      match jsGet net.nodes i0, jsGet net.nodes j with
      | some nf, some nt => do
        let p ← net.connect nf.id nt.id (rnd.w i0.toNat j.toNat)
        pure p.1
      | _, _ => Except.error "TypeError: undefined node") net) =
      Except.ok { net with
        connections := net.connections ++ connRun i0.toNat rnd.w net.fresh js,
        fresh := net.fresh + js.length }
  | [], net, h1, h4, h6, h5 => by
      simp only [List.foldlM_nil, connRun, List.append_nil, List.length_nil,
        Nat.add_zero]
      rfl
  | j :: rest, net, h1, h4, h6, h5 => by
      have hj := h4 j (List.mem_cons_self _ _)
      have hio : i0 < i + o := by omega
      have hgf := jsGet_ctorNodes i o rnd i0 hi0 hio
      have hgt := jsGet_ctorNodes i o rnd j (by omega) (by omega)
      have hconn := connect_fresh net i0.toNat j.toNat (rnd.w i0.toNat j.toNat)
        (by omega)
        (by
          intro c hc hcf hct
          exact h5 c hc hcf
            (by rw [List.map_cons, hct]; exact List.mem_cons_self _ _))
      rw [List.foldlM_cons, h1, hgf, hgt]
      dsimp only [NNode.new]
      rw [hconn, exceptOkBind]
      dsimp only
      rw [exceptPureEq, exceptOkBind]
      have hrec := ctor_inner i o rnd i0 hi0 hi0i rest
        ({ net with
          connections := net.connections ++ [⟨net.fresh, i0.toNat, j.toNat, rnd.w i0.toNat j.toNat, none⟩],
          fresh := net.fresh + 1 })
        (by rw [h1])
        (fun j' hj' => h4 j' (List.mem_cons_of_mem _ hj'))
        (by
          have := h6
          rw [List.map_cons] at this
          exact this.of_cons)
        (by
          intro c hc hcf
          simp only [List.mem_append, List.mem_singleton] at hc
          rcases hc with hc | hc
          · have := h5 c hc hcf
            intro hmem
            exact this (List.mem_cons_of_mem _ hmem)
          · subst hc
            have hnd := h6
            rw [List.map_cons] at hnd
            exact (List.nodup_cons.mp hnd).1)
      rw [hrec]
      dsimp only
      simp only [Except.ok.injEq, Network.mk.injEq, connRun, List.append_assoc,
        List.singleton_append, List.length_cons, and_true, true_and]
      exact ⟨h1, by omega⟩

theorem mem_connRun (a : Nat) (w : Nat → Nat → JNum) :
    ∀ (js : List Int) (base : Nat) (c : Conn), c ∈ connRun a w base js →
      c.fromId = a ∧ (∃ j ∈ js, c.toId = j.toNat) ∧ c.gater = none ∧
        c.weight = w a c.toId ∧ base ≤ c.cid
  | [], _, c, hc => by cases hc
  | j :: rest, base, c, hc => by
      rcases List.mem_cons.mp hc with hc | hc
      · subst hc
        exact ⟨rfl, ⟨j, List.mem_cons_self _ _, rfl⟩, rfl, rfl, Nat.le_refl _⟩
      · obtain ⟨h1, ⟨j', hj', h2⟩, h3, h4, h5⟩ := mem_connRun a w rest (base + 1) c hc
        exact ⟨h1, ⟨j', List.mem_cons_of_mem _ hj', h2⟩, h3, h4, by omega⟩

theorem mem_ctorRun (w : Nat → Nat → JNum) (js : List Int) :
    ∀ (is : List Int) (base : Nat) (c : Conn), c ∈ ctorRun w js base is →
      (∃ i0 ∈ is, c.fromId = i0.toNat) ∧ (∃ j ∈ js, c.toId = j.toNat) ∧
        c.gater = none ∧ c.weight = w c.fromId c.toId
  | [], _, c, hc => by cases hc
  | i0 :: rest, base, c, hc => by
      rw [ctorRun, List.mem_append] at hc
      rcases hc with hc | hc
      · obtain ⟨h1, h2, h3, h4, _⟩ := mem_connRun i0.toNat w js base c hc
        exact ⟨⟨i0, List.mem_cons_self _ _, h1⟩, h2, h3, by rw [h4, h1]⟩
      · obtain ⟨⟨i1, hi1, h1⟩, h2, h3, h4⟩ := mem_ctorRun w js rest (base + js.length) c hc
        exact ⟨⟨i1, List.mem_cons_of_mem _ hi1, h1⟩, h2, h3, h4⟩

theorem ctor_outer (i o : Int) (rnd : CtorRnd) :
    ∀ (is : List Int) (net : Network),
    net.nodes = ctorNodes i o rnd →
    (∀ i0 ∈ is, 0 ≤ i0 ∧ i0 < i) →
    ((is.map Int.toNat).Nodup) →
    (∀ c ∈ net.connections, c.fromId ∉ is.map Int.toNat) →
    (is.foldlM (fun net i0 =>
      (intRange i (o + i)).foldlM (fun (net : Network) j => do
        match jsGet net.nodes i0, jsGet net.nodes j with
        | some nf, some nt => do
          let p ← net.connect nf.id nt.id (rnd.w i0.toNat j.toNat)
          pure p.1
        | _, _ => Except.error "TypeError: undefined node") net) net) =
      Except.ok { net with
        connections := net.connections ++ ctorRun rnd.w (intRange i (o + i)) net.fresh is,
        fresh := net.fresh + (intRange i (o + i)).length * is.length }
  | [], net, h1, h2, h3, h5 => by
      simp only [List.foldlM_nil, ctorRun, List.append_nil, List.length_nil,
        Nat.mul_zero, Nat.add_zero]
      rfl
  | i0 :: rest, net, h1, h2, h3, h5 => by
      have hi0 := h2 i0 (List.mem_cons_self _ _)
      have hinner := ctor_inner i o rnd i0 hi0.1 hi0.2 (intRange i (o + i)) net h1
        (fun j hj => by
          rw [mem_intRange] at hj
          omega)
        (intRange_toNat_nodup i (o + i) (by omega))
        (by
          intro c hc hcf
          exfalso
          exact h5 c hc (by rw [List.map_cons, hcf]; exact List.mem_cons_self _ _))
      rw [List.foldlM_cons, hinner, exceptOkBind]
      have hrec := ctor_outer i o rnd rest
        ({ net with
          connections := net.connections ++ connRun i0.toNat rnd.w net.fresh (intRange i (o + i)),
          fresh := net.fresh + (intRange i (o + i)).length })
        (by rw [h1])
        (fun i1 hi1 => h2 i1 (List.mem_cons_of_mem _ hi1))
        (by
          have := h3
          rw [List.map_cons] at this
          exact this.of_cons)
        (by
          intro c hc hcf
          dsimp only at hc
          rw [List.mem_append] at hc
          rcases hc with hc | hc
          · exact h5 c hc (List.mem_cons_of_mem _ hcf)
          · obtain ⟨h1', _, _, _, _⟩ := mem_connRun i0.toNat rnd.w _ _ c hc
            have hnd := h3
            rw [List.map_cons] at hnd
            rw [h1'] at hcf
            exact (List.nodup_cons.mp hnd).1 hcf)
      rw [hrec]
      dsimp only
      simp only [Except.ok.injEq, Network.mk.injEq, ctorRun, List.append_assoc,
        List.length_cons, and_true, true_and]
      rw [Nat.mul_succ]
      omega

theorem ctor_spec (i o : Int) (rnd : CtorRnd) :
    Network.ctor i o rnd = Except.ok
      { input_size := i, output_size := o,
        nodes := ctorNodes i o rnd,
        connections := ctorConns i o rnd,
        selfconns := [], gates := [],
        dropout := ⟨0, 1⟩, score := none,
        fresh := (i + o).toNat +
          (intRange i (o + i)).length * (intRange 0 i).length } := by
  unfold Network.ctor
  rw [ctor_outer i o rnd (intRange 0 i) _ rfl
    (fun i0 hi0 => by rw [mem_intRange] at hi0; omega)
    (intRange_toNat_nodup 0 i (Int.le_refl 0))
    (by intro c hc; exact absurd hc (List.not_mem_nil c))]
  dsimp only
  rw [List.nil_append]
  rfl

/-
  Claim C4 — constructor validation.
-/

/-- Claim C4 counterexample: the constructor does not reject non-positive
sizes — `new Network(0, 1)` and `new Network(2, -1)` both produce networks
instead of failing. -/
theorem claim_C4_counterexample :
    (Network.construct (some 0) (some 1) rnd1).isOk = true ∧
    (Network.construct (some 2) (some (-1)) rnd1).isOk = true := by
  constructor <;> rfl

/-- Claim C4 (amended): constructing a Network fails exactly when one of the
sizes is unspecified (JS `undefined`); every pair of numeric sizes —
including zero and negative values — produces a network. -/
theorem claim_C4_construct_fails_iff_undefined
    (input_size output_size : Option Int) (rnd : CtorRnd) :
    (Network.construct input_size output_size rnd).isOk = true ↔
      (input_size.isSome = true ∧ output_size.isSome = true) := by
  cases input_size with
  | none => simp [Network.construct, Except.isOk, Except.toBool]
  | some i =>
    cases output_size with
    | none => simp [Network.construct, Except.isOk, Except.toBool]
    | some o => simp [Network.construct, ctor_spec, Except.isOk, Except.toBool]

/-
  Claim C1 — the flattened serialization path.
-/

/-- Claim C1: on `new Network(1, 1)` — whose output node has one incoming
connection — `serialize()` throws a TypeError (its inner loop reads the
nonexistent property `node.connectionections`) instead of returning the
three flat sequences with the per-connection (from, weight, gater) triples. -/
theorem claim_C1_serialize_throws :
    Network.ctor 1 1 rnd1 = Except.ok net11 ∧
    net11.serialize =
      Except.error "TypeError: Cannot read property 'in' of undefined" := by
  constructor
  · rfl
  · rfl

/-
  Claim C3 — activate and input length.
-/

theorem nodeActivate_type (net : Network) (F : Nat → JNum → JNum) (n : NNode) :
    (net.nodeActivate F n).type = n.type := rfl

theorem map_type_set (l : List NNode) (k : Nat) (n n2 : NNode)
    (h : l.get? k = some n) (ht : n2.type = n.type) :
    (l.set k n2).map NNode.type = l.map NNode.type := by
  apply List.ext_get?
  intro j
  rw [List.get?_map, List.get?_map, List.get?_set]
  by_cases hkj : k = j
  · subst hkj
    rw [if_pos rfl, h]
    simp [ht]
  · rw [if_neg hkj]

theorem outPred_congr {l1 l2 : List NNode} (h : l1.map NNode.type = l2.map NNode.type)
    (k : Nat) :
    ((l1.get? k).map (fun n => n.type == NodeType.output)).getD false =
    ((l2.get? k).map (fun n => n.type == NodeType.output)).getD false := by
  have h1 : (l1.map NNode.type).get? k = (l2.map NNode.type).get? k := by rw [h]
  rw [List.get?_map, List.get?_map] at h1
  cases e1 : l1.get? k <;> cases e2 : l2.get? k <;> rw [e1, e2] at h1 <;> simp_all

theorem length_filter_range_get {α : Type} (p : α → Bool) :
    ∀ (l : List α),
    ((List.range l.length).filter (fun k =>
      (((l.get? k).map p).getD false))).length = (l.filter p).length
  | [] => by simp
  | a :: tl => by
      rw [List.length_cons, List.range_succ_eq_map, List.filter_cons]
      have hhead : ((((a :: tl).get? 0).map p).getD false) = p a := rfl
      rw [List.filter_map]
      have hcomp : ((fun k => ((((a :: tl).get? k).map p).getD false)) ∘
          (fun n => n + 1)) = (fun k => (((tl.get? k).map p).getD false)) := by
        funext k
        rfl
      rw [hcomp, List.filter_cons, hhead]
      cases hpa : p a <;>
        simpa using length_filter_range_get p tl

theorem activate_fold_spec (F : Nat → JNum → JNum) (input : List JNum)
    (training : Bool) (roll : Nat → JNum) :
    ∀ (ks : List Nat) (net : Network) (out : List JNum),
    (ks.foldl (fun (acc : Network × List JNum) k =>
      let net := acc.1
      let out := acc.2
      match net.nodes.get? k with
      | none => (net, out)
      | some n =>
        if n.type = NodeType.input then
          let n2 := { n with activation := (input.get? k).getD ⟨0, 0⟩ }
          ({ net with nodes := net.nodes.set k n2 }, out)
        else if n.type = NodeType.output then
          let n2 := net.nodeActivate F n
          ({ net with nodes := net.nodes.set k n2 }, out ++ [n2.activation])
        else
          let n0 := if training then
              { n with mask := if (roll k).lt net.dropout then ⟨0, 1⟩ else ⟨1, 1⟩ }
            else n
          let n2 := net.nodeActivate F n0
          ({ net with nodes := net.nodes.set k n2 }, out)) (net, out)).1.nodes.map
        NNode.type = net.nodes.map NNode.type ∧
    ((ks.foldl (fun (acc : Network × List JNum) k =>
      let net := acc.1
      let out := acc.2
      match net.nodes.get? k with
      | none => (net, out)
      | some n =>
        if n.type = NodeType.input then
          let n2 := { n with activation := (input.get? k).getD ⟨0, 0⟩ }
          ({ net with nodes := net.nodes.set k n2 }, out)
        else if n.type = NodeType.output then
          let n2 := net.nodeActivate F n
          ({ net with nodes := net.nodes.set k n2 }, out ++ [n2.activation])
        else
          let n0 := if training then
              { n with mask := if (roll k).lt net.dropout then ⟨0, 1⟩ else ⟨1, 1⟩ }
            else n
          let n2 := net.nodeActivate F n0
          ({ net with nodes := net.nodes.set k n2 }, out)) (net, out)).2).length =
      out.length + (ks.filter (fun k =>
        (((net.nodes.get? k).map (fun n => n.type == NodeType.output)).getD false))).length
  | [], net, out => by simp
  | k :: ks, net, out => by
      rw [List.foldl_cons, List.filter_cons]
      cases hk : net.nodes.get? k with
      | none =>
        simp only [hk, Option.map_none', Option.getD_none, Bool.false_eq_true,
          if_false]
        have hrec := activate_fold_spec F input training roll ks net out
        refine ⟨hrec.1, ?_⟩
        rw [hrec.2]
      | some n =>
        by_cases hin : n.type = NodeType.input
        · simp only [hk, if_pos hin]
          have hmap := map_type_set net.nodes k n
            { n with activation := (input.get? k).getD ⟨0, 0⟩ } hk rfl
          have hrec := activate_fold_spec F input training roll ks
            { net with nodes := net.nodes.set k { n with activation := (input.get? k).getD ⟨0, 0⟩ } } out
          refine ⟨by rw [hrec.1]; exact hmap, ?_⟩
          rw [hrec.2]
          have hof : (n.type == NodeType.output) = false := by simp [hin]
          simp only [hk, Option.map_some', Option.getD_some, hof,
            Bool.false_eq_true, if_false]
          rw [List.filter_congr (fun j _ => outPred_congr hmap j)]
        · by_cases hout : n.type = NodeType.output
          · simp only [hk, if_neg hin, if_pos hout]
            have hmap := map_type_set net.nodes k n (net.nodeActivate F n) hk rfl
            have hrec := activate_fold_spec F input training roll ks
              { net with nodes := net.nodes.set k (net.nodeActivate F n) }
              (out ++ [(net.nodeActivate F n).activation])
            refine ⟨by rw [hrec.1]; exact hmap, ?_⟩
            rw [hrec.2]
            have hot : (n.type == NodeType.output) = true := by simp [hout]
            simp only [hk, Option.map_some', Option.getD_some, hot, if_true,
              List.length_append, List.length_cons, List.length_nil]
            rw [List.filter_congr (fun j _ => outPred_congr hmap j)]
            omega
          · simp only [hk, if_neg hin, if_neg hout]
            have hmap := map_type_set net.nodes k n
              (net.nodeActivate F (if training then
                { n with mask := if (roll k).lt net.dropout then ⟨0, 1⟩ else ⟨1, 1⟩ }
              else n)) hk (by cases training <;> rfl)
            have hrec := activate_fold_spec F input training roll ks
              { net with nodes := (net.nodes.set k
                  (net.nodeActivate F (if training then
                    { n with mask := if (roll k).lt net.dropout then ⟨0, 1⟩ else ⟨1, 1⟩ }
                  else n))) } out
            refine ⟨by rw [hrec.1]; exact hmap, ?_⟩
            rw [hrec.2]
            have hof : (n.type == NodeType.output) = false := by simp [hout]
            simp only [hk, Option.map_some', Option.getD_some, hof,
              Bool.false_eq_true, if_false]
            rw [List.filter_congr (fun j _ => outPred_congr hmap j)]

/-- Claim C3 (amended): `activate` performs no input-length validation — for
every network, squash registry, input list of any length, training flag and
dropout draws, it computes and returns an output list whose length equals
the number of output-typed nodes; a missing input entry is read as
undefined/NaN. -/
theorem claim_C3_activate_never_fails (net : Network) (F : Nat → JNum → JNum)
    (input : List JNum) (training : Bool) (roll : Nat → JNum) :
    ((net.activate F input training roll).2).length = net.outputCount := by
  unfold Network.activate
  rw [(activate_fold_spec F input training roll (List.range net.nodes.length) net []).2]
  rw [List.length_nil, Nat.zero_add]
  simpa [Network.outputCount] using
    length_filter_range_get (fun n => n.type == NodeType.output) net.nodes

/-- Claim C3 counterexample: on the 2-input network `new Network(2, 1)`,
`activate` with the length-1 input `[5]` does not fail — it computes and
returns a (length-1) output. -/
theorem claim_C3_counterexample :
    net21.input_size = 2 ∧
    (net21.activate (fun _ v => v) [⟨5, 1⟩] false (fun _ => ⟨0, 1⟩)).2 =
      [⟨0, 0⟩] := by
  constructor
  · rfl
  · rfl

/-
  Claim C10 — clone().
-/

/-- Claim C10: `clone()` is `new Network(self.input, self.output)` — it
depends on nothing but the two sizes (equal-size networks have identical
clones); the cloned network has exactly `input_size + output_size` nodes,
carries the freshly drawn input→output weight matrix as its only
connections, and has no self-connections or gates; and cloning does not
preserve activation behavior — a network whose connection weight was
mutated activates differently from its clone. -/
theorem claim_C10_clone (net other : Network) (rnd : CtorRnd)
    (hi : other.input_size = net.input_size)
    (ho : other.output_size = net.output_size) :
    other.clone rnd = net.clone rnd ∧
    (∀ m, net.clone rnd = Except.ok m →
      m.nodes.length = (net.input_size + net.output_size).toNat ∧
      m.connections = ctorConns net.input_size net.output_size rnd ∧
      m.selfconns = [] ∧ m.gates = []) ∧
    (∃ m, net11w5.clone rnd1 = Except.ok m ∧
      (m.no_trace_activate (fun _ v => v) [⟨1, 1⟩]).2 ≠
      (net11w5.no_trace_activate (fun _ v => v) [⟨1, 1⟩]).2) := by
  refine ⟨?_, ?_, ?_⟩
  · unfold Network.clone
    rw [hi, ho]
  · intro m hm
    rw [Network.clone, ctor_spec] at hm
    injection hm with hm
    subst hm
    refine ⟨?_, rfl, rfl, rfl⟩
    simp [ctorNodes]
  · exact ⟨_, rfl, by decide⟩

/-- Claim C10 witness: the mutated network and its source have equal sizes,
so their clones coincide. -/
theorem claim_C10_clone_witness : net11w5.clone rnd1 = net11.clone rnd1 :=
  (claim_C10_clone net11 net11w5 rnd1 (by decide) (by decide)).1

/-- Claim C7: with output mutation allowed, the fresh `new Network(1, 2)`
has exactly 2 eligible nodes (its two output nodes), yet
`possible(SWAP_NODES)` reports impossible: the early break compares
`(nodes.length - 1) - input_size - 0 < 2`, an off-by-one against the
operator's own `candidates.length >= 2` check. -/
theorem claim_C7_swap_possible_bug :
    (net12.eligibleSwapNodes true).length = 2 ∧
    net12.possibleSwapNodes true = none := by
  constructor
  · rfl
  · rfl

/-
  Endpoint bookkeeping for `disconnect`, `connect` and `remove` (claim C9).
  Everything is tracked on the (from, to) id pairs of the two connection
  lists, because gating updates replace list entries by pair-preserving
  copies of the same JS Connection object.
-/

theorem exceptErrBind {ε α β : Type} (e : ε) (f : α → Except ε β) :
    ((Except.error e : Except ε α) >>= f) = Except.error e := rfl

theorem pair_map_update (l : List Conn) (f : Conn → Conn)
    (hf : ∀ c, (f c).fromId = c.fromId ∧ (f c).toId = c.toId) :
    (l.map f).map Conn.pair = l.map Conn.pair := by
  rw [List.map_map]
  apply List.map_congr_left
  intro c _
  simp only [Function.comp_apply, Conn.pair, (hf c).1, (hf c).2]

theorem map_eraseIdx_comm {α β : Type} (f : α → β) :
    ∀ (l : List α) (i : Nat), (l.eraseIdx i).map f = (l.map f).eraseIdx i
  | [], _ => by simp
  | _ :: _, 0 => rfl
  | a :: l, i + 1 => by
    simp only [List.eraseIdx_cons_succ, List.map_cons, map_eraseIdx_comm f l i]

theorem foldl_erase_count {α : Type} [BEq α] [LawfulBEq α] (q : α) :
    ∀ (L P : List α),
      (L.foldl (fun acc x => acc.erase x) P).count q = P.count q - L.count q
  | [], P => by simp
  | x :: L, P => by
    rw [List.foldl_cons, foldl_erase_count q L (P.erase x), List.count_cons,
      List.count_erase]
    by_cases hx : (x == q) = true
    · rw [if_pos hx]
      omega
    · rw [if_neg hx]
      omega

theorem foldl_erase_sublist {α : Type} [BEq α] :
    ∀ (L P : List α), List.Sublist (L.foldl (fun acc x => acc.erase x) P) P
  | [], P => List.Sublist.refl P
  | x :: L, P => by
    rw [List.foldl_cons]
    exact (foldl_erase_sublist L (P.erase x)).trans (List.erase_sublist x P)

theorem findIdx_none_erase (a b : Nat) (l : List Conn)
    (h : l.findIdx? (fun c => c.fromId == a && c.toId == b) = none) :
    (l.map Conn.pair).erase (a, b) = l.map Conn.pair := by
  apply List.erase_of_not_mem
  intro hmem
  obtain ⟨c, hc, hpc⟩ := List.mem_map.mp hmem
  simp only [Conn.pair, Prod.mk.injEq] at hpc
  have hfalse := List.findIdx?_eq_none_iff.mp h c hc
  rw [hpc.1, hpc.2] at hfalse
  simp at hfalse

theorem findIdx_some_erase (a b : Nat) :
    ∀ (l : List Conn) (i : Nat),
      l.findIdx? (fun c => c.fromId == a && c.toId == b) = some i →
      (l.eraseIdx i).map Conn.pair = (l.map Conn.pair).erase (a, b) ∧
      ∃ c0, l.get? i = some c0 ∧ c0.fromId = a ∧ c0.toId = b
  | [], i => by intro h; simp at h
  | c :: l, i => by
    intro h
    rw [List.findIdx?_cons] at h
    by_cases hp : (c.fromId == a && c.toId == b) = true
    · rw [if_pos hp] at h
      simp only [Option.some.injEq] at h
      subst h
      simp only [beq_iff_eq, Bool.and_eq_true] at hp
      refine ⟨?_, c, rfl, hp.1, hp.2⟩
      rw [List.eraseIdx_cons_zero, List.map_cons,
        show Conn.pair c = (a, b) by simp [Conn.pair, hp.1, hp.2],
        List.erase_cons_head]
    · rw [if_neg hp, List.findIdx?_start_succ] at h
      have hne : ¬ ((Conn.pair c == (a, b)) = true) := by
        intro hcon
        rw [beq_iff_eq] at hcon
        simp only [Conn.pair, Prod.mk.injEq] at hcon
        exact hp (by simp [hcon.1, hcon.2])
      cases hfi : l.findIdx? (fun c => c.fromId == a && c.toId == b) with
      | none =>
        rw [hfi] at h
        simp at h
      | some j =>
        rw [hfi] at h
        simp only [Option.map_some', Option.some.injEq] at h
        have hij : i = j + 1 := by omega
        subst hij
        obtain ⟨h1, c0, hg, hf, ht⟩ := findIdx_some_erase a b l j hfi
        refine ⟨?_, c0, ?_, hf, ht⟩
        · rw [List.eraseIdx_cons_succ, List.map_cons, List.map_cons,
            List.erase_cons_tail hne, h1]
        · rw [List.get?_cons_succ]
          exact hg

theorem ungate_pairs (net : Network) (cid : Nat) (net' : Network)
    (h : net.ungate cid = Except.ok net') :
    net'.connections.map Conn.pair = net.connections.map Conn.pair ∧
    net'.selfconns.map Conn.pair = net.selfconns.map Conn.pair ∧
    net'.nodes = net.nodes ∧ net'.input_size = net.input_size ∧
    net'.output_size = net.output_size := by
  unfold Network.ungate at h
  cases hfi : net.gates.findIdx? (fun g => g == cid) with
  | none =>
    rw [hfi] at h
    exact absurd h (by simp)
  | some i =>
    rw [hfi] at h
    simp only [Except.ok.injEq] at h
    subst h
    refine ⟨?_, ?_, rfl, rfl, rfl⟩
    · exact pair_map_update _ _ (fun c => by by_cases hc : (c.cid == cid) = true <;>
        simp [hc])
    · exact pair_map_update _ _ (fun c => by by_cases hc : (c.cid == cid) = true <;>
        simp [hc])

theorem gate_pairs (net : Network) (g cid : Nat) (net' : Network)
    (h : net.gate g cid = Except.ok net') :
    net'.connections.map Conn.pair = net.connections.map Conn.pair ∧
    net'.selfconns.map Conn.pair = net.selfconns.map Conn.pair ∧
    net'.nodes = net.nodes ∧ net'.input_size = net.input_size ∧
    net'.output_size = net.output_size := by
  unfold Network.gate at h
  split at h
  · exact absurd h (by simp)
  · split at h
    · split at h
      · simp only [Except.ok.injEq] at h
        subst h
        exact ⟨rfl, rfl, rfl, rfl, rfl⟩
      · simp only [Except.ok.injEq] at h
        subst h
        refine ⟨?_, ?_, rfl, rfl, rfl⟩
        · exact pair_map_update _ _ (fun c => by
            by_cases hc : (c.cid == cid) = true <;> simp [hc])
        · exact pair_map_update _ _ (fun c => by
            by_cases hc : (c.cid == cid) = true <;> simp [hc])
    · simp only [Except.ok.injEq] at h
      subst h
      exact ⟨rfl, rfl, rfl, rfl, rfl⟩

theorem disconnect_of_ne (net : Network) (a b : Nat) (hab : (a == b) = false) :
    net.disconnect a b =
      (match net.connections.findIdx? (fun c => c.fromId == a && c.toId == b) with
       | none => Except.ok net
       | some i =>
         match net.connections.get? i with
         | none => Except.ok net
         | some c =>
           if c.gater.isSome then do
             let net1 ← net.ungate c.cid
             Except.ok { net1 with connections := net1.connections.eraseIdx i }
           else Except.ok { net with connections := net.connections.eraseIdx i }) := by
  unfold Network.disconnect
  rw [hab]
  rfl

theorem disconnect_of_self (net : Network) (a : Nat) :
    net.disconnect a a =
      (match net.selfconns.findIdx? (fun c => c.fromId == a && c.toId == a) with
       | none => Except.ok net
       | some i =>
         match net.selfconns.get? i with
         | none => Except.ok net
         | some c =>
           if c.gater.isSome then do
             let net1 ← net.ungate c.cid
             Except.ok { net1 with selfconns := net1.selfconns.eraseIdx i }
           else Except.ok { net with selfconns := net.selfconns.eraseIdx i }) := by
  unfold Network.disconnect
  rw [show (a == a) = true from by simp]
  rfl

theorem disconnect_pairs_ord (net : Network) (a b : Nat) (net' : Network)
    (hab : a ≠ b) (h : net.disconnect a b = Except.ok net') :
    net'.connections.map Conn.pair = (net.connections.map Conn.pair).erase (a, b) ∧
    net'.selfconns.map Conn.pair = net.selfconns.map Conn.pair ∧
    net'.nodes = net.nodes ∧ net'.input_size = net.input_size ∧
    net'.output_size = net.output_size := by
  rw [disconnect_of_ne net a b (by simp [hab])] at h
  cases hfi : net.connections.findIdx? (fun c => c.fromId == a && c.toId == b) with
  | none =>
    rw [hfi] at h
    dsimp only at h
    simp only [Except.ok.injEq] at h
    subst h
    exact ⟨(findIdx_none_erase a b _ hfi).symm, rfl, rfl, rfl, rfl⟩
  | some i =>
    rw [hfi] at h
    dsimp only at h
    obtain ⟨herase, c0, hget, hcf, hct⟩ := findIdx_some_erase a b net.connections i hfi
    rw [hget] at h
    dsimp only at h
    cases hg : c0.gater.isSome with
    | false =>
      rw [if_neg (by simp [hg])] at h
      simp only [Except.ok.injEq] at h
      subst h
      exact ⟨herase, rfl, rfl, rfl, rfl⟩
    | true =>
      rw [if_pos hg] at h
      cases hu : net.ungate c0.cid with
      | error e =>
        rw [hu, exceptErrBind] at h
        exact absurd h (by simp)
      | ok n1 =>
        rw [hu, exceptOkBind] at h
        simp only [Except.ok.injEq] at h
        subst h
        obtain ⟨u1, u2, u3, u4, u5⟩ := ungate_pairs net c0.cid n1 hu
        refine ⟨?_, u2, u3, u4, u5⟩
        rw [show ({ n1 with connections := n1.connections.eraseIdx i } : Network).connections
            = n1.connections.eraseIdx i from rfl,
          map_eraseIdx_comm, u1, ← map_eraseIdx_comm, herase]

theorem disconnect_pairs_self (net : Network) (a : Nat) (net' : Network)
    (h : net.disconnect a a = Except.ok net') :
    net'.selfconns.map Conn.pair = (net.selfconns.map Conn.pair).erase (a, a) ∧
    net'.connections.map Conn.pair = net.connections.map Conn.pair ∧
    net'.nodes = net.nodes ∧ net'.input_size = net.input_size ∧
    net'.output_size = net.output_size := by
  rw [disconnect_of_self net a] at h
  cases hfi : net.selfconns.findIdx? (fun c => c.fromId == a && c.toId == a) with
  | none =>
    rw [hfi] at h
    dsimp only at h
    simp only [Except.ok.injEq] at h
    subst h
    exact ⟨(findIdx_none_erase a a _ hfi).symm, rfl, rfl, rfl, rfl⟩
  | some i =>
    rw [hfi] at h
    dsimp only at h
    obtain ⟨herase, c0, hget, hcf, hct⟩ := findIdx_some_erase a a net.selfconns i hfi
    rw [hget] at h
    dsimp only at h
    cases hg : c0.gater.isSome with
    | false =>
      rw [if_neg (by simp [hg])] at h
      simp only [Except.ok.injEq] at h
      subst h
      exact ⟨herase, rfl, rfl, rfl, rfl⟩
    | true =>
      rw [if_pos hg] at h
      cases hu : net.ungate c0.cid with
      | error e =>
        rw [hu, exceptErrBind] at h
        exact absurd h (by simp)
      | ok n1 =>
        rw [hu, exceptOkBind] at h
        simp only [Except.ok.injEq] at h
        subst h
        obtain ⟨u1, u2, u3, u4, u5⟩ := ungate_pairs net c0.cid n1 hu
        refine ⟨?_, u1, u3, u4, u5⟩
        rw [show ({ n1 with selfconns := n1.selfconns.eraseIdx i } : Network).selfconns
            = n1.selfconns.eraseIdx i from rfl,
          map_eraseIdx_comm, u2, ← map_eraseIdx_comm, herase]

theorem disc_fold_pairs (pf : Conn → Nat × Nat) :
    ∀ (L : List Conn) (net net' : Network),
      (∀ c ∈ L, (pf c).1 ≠ (pf c).2) →
      (L.foldlM (fun (n : Network) c => n.disconnect (pf c).1 (pf c).2) net =
        Except.ok net') →
      net'.connections.map Conn.pair =
        (L.map pf).foldl (fun acc q => acc.erase q) (net.connections.map Conn.pair) ∧
      net'.selfconns.map Conn.pair = net.selfconns.map Conn.pair ∧
      net'.nodes = net.nodes ∧ net'.input_size = net.input_size ∧
      net'.output_size = net.output_size
  | [], net, net', _, h => by
    simp only [List.foldlM_nil] at h
    rw [exceptPureEq] at h
    simp only [Except.ok.injEq] at h
    subst h
    exact ⟨rfl, rfl, rfl, rfl, rfl⟩
  | c :: L, net, net', hne, h => by
    rw [List.foldlM_cons] at h
    cases hd : net.disconnect (pf c).1 (pf c).2 with
    | error e =>
      rw [hd, exceptErrBind] at h
      exact absurd h (by simp)
    | ok n1 =>
      rw [hd, exceptOkBind] at h
      obtain ⟨d1, d2, d3, d4, d5⟩ := disconnect_pairs_ord net (pf c).1 (pf c).2 n1
        (hne c (List.mem_cons_self _ _)) hd
      obtain ⟨f1, f2, f3, f4, f5⟩ := disc_fold_pairs pf L n1 net'
        (fun c2 hc2 => hne c2 (List.mem_cons_of_mem _ hc2)) h
      refine ⟨?_, by rw [f2, d2], by rw [f3, d3], by rw [f4, d4], by rw [f5, d5]⟩
      rw [f1, List.map_cons, List.foldl_cons, d1]

theorem connect_mem (net : Network) (a b : Nat) (w : JNum) (net' : Network) (cid : Nat)
    (h : net.connect a b w = Except.ok (net', cid)) :
    (∀ c ∈ net'.connections, c ∈ net.connections ∨ (c.fromId = a ∧ c.toId = b)) ∧
    (∀ c ∈ net'.selfconns, Conn.pair c ∈ net.selfconns.map Conn.pair ∨
      (c.fromId = a ∧ c.toId = b ∧ a = b)) ∧
    net'.nodes = net.nodes ∧ net'.input_size = net.input_size ∧
    net'.output_size = net.output_size := by
  unfold Network.connect at h
  by_cases hab : (a == b) = true
  · rw [if_pos hab] at h
    have hab2 : a = b := by simpa using hab
    cases hsc : net.selfConnOf a with
    | some c0 =>
      rw [hsc] at h
      dsimp only at h
      simp only [Except.ok.injEq, Prod.mk.injEq] at h
      obtain ⟨h1, h2⟩ := h
      subst h1
      refine ⟨fun c hc => Or.inl hc, ?_, rfl, rfl, rfl⟩
      intro c hc
      rcases List.mem_append.mp hc with hm | hm
      · obtain ⟨c2, hc2, hup⟩ := List.mem_map.mp hm
        left
        have hpair : Conn.pair c = Conn.pair c2 := by
          rw [← hup]
          by_cases hcid : (c2.cid == c0.cid) = true <;> simp [hcid, Conn.pair]
        rw [hpair]
        exact List.mem_map_of_mem _ hc2
      · left
        simp only [List.mem_singleton] at hm
        subst hm
        have hc0 : c0 ∈ net.selfconns :=
          List.mem_of_find?_eq_some (hsc : net.selfconns.find? (fun c => c.fromId == a) = some c0)
        have hmap : Conn.pair c0 ∈ net.selfconns.map Conn.pair :=
          List.mem_map_of_mem _ hc0
        exact hmap
    | none =>
      rw [hsc] at h
      dsimp only at h
      simp only [Except.ok.injEq, Prod.mk.injEq] at h
      obtain ⟨h1, h2⟩ := h
      subst h1
      refine ⟨fun c hc => Or.inl hc, ?_, rfl, rfl, rfl⟩
      intro c hc
      rcases List.mem_append.mp hc with hm | hm
      · exact Or.inl (List.mem_map_of_mem _ hm)
      · right
        simp only [List.mem_singleton] at hm
        subst hm
        exact ⟨rfl, rfl, hab2⟩
  · rw [if_neg hab] at h
    cases hproj : net.isProjectingTo a b with
    | true =>
      rw [if_pos hproj] at h
      exact absurd h (by simp)
    | false =>
      rw [if_neg (by simp [hproj])] at h
      dsimp only at h
      simp only [Except.ok.injEq, Prod.mk.injEq] at h
      obtain ⟨h1, h2⟩ := h
      subst h1
      refine ⟨?_, fun c hc => Or.inl (List.mem_map_of_mem _ hc), rfl, rfl, rfl⟩
      intro c hc
      rcases List.mem_append.mp hc with hm | hm
      · exact Or.inl hm
      · right
        simp only [List.mem_singleton] at hm
        subst hm
        exact ⟨rfl, rfl⟩

theorem reconn_inner (wOf : Nat → Nat → JNum) (a : Nat) :
    ∀ (bs : List Nat) (acc acc' : Network × List Nat),
      (bs.foldlM (fun (acc : Network × List Nat) b =>
        if acc.1.isProjectingTo a b then pure acc
        else do
          let p ← acc.1.connect a b (wOf a b)
          pure (p.1, acc.2 ++ [p.2])) acc) = Except.ok acc' →
      (∀ c ∈ acc'.1.connections, c ∈ acc.1.connections ∨ (c.fromId = a ∧ c.toId ∈ bs)) ∧
      (∀ c ∈ acc'.1.selfconns, Conn.pair c ∈ acc.1.selfconns.map Conn.pair ∨
        (c.fromId = a ∧ c.toId ∈ bs)) ∧
      acc'.1.nodes = acc.1.nodes ∧ acc'.1.input_size = acc.1.input_size ∧
      acc'.1.output_size = acc.1.output_size
  | [], acc, acc', h => by
    simp only [List.foldlM_nil] at h
    rw [exceptPureEq] at h
    simp only [Except.ok.injEq] at h
    subst h
    exact ⟨fun c hc => Or.inl hc, fun c hc => Or.inl (List.mem_map_of_mem _ hc),
      rfl, rfl, rfl⟩
  | b :: bs, acc, acc', h => by
    rw [List.foldlM_cons] at h
    cases hproj : acc.1.isProjectingTo a b with
    | true =>
      rw [if_pos hproj, exceptPureEq, exceptOkBind] at h
      obtain ⟨f1, f2, f3, f4, f5⟩ := reconn_inner wOf a bs acc acc' h
      refine ⟨?_, ?_, f3, f4, f5⟩
      · intro c hcm
        rcases f1 c hcm with hin | ⟨hfa, htb⟩
        · exact Or.inl hin
        · exact Or.inr ⟨hfa, List.mem_cons_of_mem _ htb⟩
      · intro c hcm
        rcases f2 c hcm with hin | ⟨hfa, htb⟩
        · exact Or.inl hin
        · exact Or.inr ⟨hfa, List.mem_cons_of_mem _ htb⟩
    | false =>
      rw [if_neg (by simp [hproj])] at h
      cases hc : acc.1.connect a b (wOf a b) with
      | error e =>
        rw [hc, exceptErrBind, exceptErrBind] at h
        exact absurd h (by simp)
      | ok p =>
        rw [hc, exceptOkBind] at h
        rw [exceptPureEq, exceptOkBind] at h
        obtain ⟨m1, m2, m3, m4, m5⟩ := connect_mem acc.1 a b (wOf a b) p.1 p.2 hc
        obtain ⟨f1, f2, f3, f4, f5⟩ := reconn_inner wOf a bs (p.1, acc.2 ++ [p.2]) acc' h
        refine ⟨?_, ?_, by rw [f3]; exact m3, by rw [f4]; exact m4, by rw [f5]; exact m5⟩
        · intro c hcm
          rcases f1 c hcm with hin | ⟨hfa, htb⟩
          · rcases m1 c hin with hin2 | ⟨hfa2, htb2⟩
            · exact Or.inl hin2
            · exact Or.inr ⟨hfa2, by rw [htb2]; exact List.mem_cons_self _ _⟩
          · exact Or.inr ⟨hfa, List.mem_cons_of_mem _ htb⟩
        · intro c hcm
          rcases f2 c hcm with hin | ⟨hfa, htb⟩
          · obtain ⟨c2, hc2, hpc⟩ := List.mem_map.mp hin
            rcases m2 c2 hc2 with hin2 | ⟨h1, h2, h3⟩
            · exact Or.inl (hpc ▸ hin2)
            · right
              have hpab : Conn.pair c = (a, b) := by
                rw [← hpc]
                simp [Conn.pair, h1, h2]
              have hcf : c.fromId = a := congrArg Prod.fst hpab
              have hct : c.toId = b := congrArg Prod.snd hpab
              exact ⟨hcf, by rw [hct]; exact List.mem_cons_self _ _⟩
          · exact Or.inr ⟨hfa, List.mem_cons_of_mem _ htb⟩

theorem reconn_outer (wOf : Nat → Nat → JNum) (bs : List Nat) :
    ∀ (src : List Nat) (acc acc' : Network × List Nat),
      (src.foldlM (fun (acc : Network × List Nat) a =>
        bs.foldlM (fun (acc : Network × List Nat) b =>
          if acc.1.isProjectingTo a b then pure acc
          else do
            let p ← acc.1.connect a b (wOf a b)
            pure (p.1, acc.2 ++ [p.2])) acc) acc) = Except.ok acc' →
      (∀ c ∈ acc'.1.connections, c ∈ acc.1.connections ∨
        (c.fromId ∈ src ∧ c.toId ∈ bs)) ∧
      (∀ c ∈ acc'.1.selfconns, Conn.pair c ∈ acc.1.selfconns.map Conn.pair ∨
        (c.fromId ∈ src ∧ c.toId ∈ bs)) ∧
      acc'.1.nodes = acc.1.nodes ∧ acc'.1.input_size = acc.1.input_size ∧
      acc'.1.output_size = acc.1.output_size
  | [], acc, acc', h => by
    simp only [List.foldlM_nil] at h
    rw [exceptPureEq] at h
    simp only [Except.ok.injEq] at h
    subst h
    exact ⟨fun c hc => Or.inl hc, fun c hc => Or.inl (List.mem_map_of_mem _ hc),
      rfl, rfl, rfl⟩
  | a :: src, acc, acc', h => by
    rw [List.foldlM_cons] at h
    cases hstep : (bs.foldlM (fun (acc : Network × List Nat) b =>
        if acc.1.isProjectingTo a b then pure acc
        else do
          let p ← acc.1.connect a b (wOf a b)
          pure (p.1, acc.2 ++ [p.2])) acc) with
    | error e =>
      rw [hstep, exceptErrBind] at h
      exact absurd h (by simp)
    | ok acc1 =>
      rw [hstep, exceptOkBind] at h
      obtain ⟨i1, i2, i3, i4, i5⟩ := reconn_inner wOf a bs acc acc1 hstep
      obtain ⟨f1, f2, f3, f4, f5⟩ := reconn_outer wOf bs src acc1 acc' h
      refine ⟨?_, ?_, by rw [f3]; exact i3, by rw [f4]; exact i4, by rw [f5]; exact i5⟩
      · intro c hcm
        rcases f1 c hcm with hin | ⟨hfa, htb⟩
        · rcases i1 c hin with hin2 | ⟨hfa2, htb2⟩
          · exact Or.inl hin2
          · exact Or.inr ⟨by rw [hfa2]; exact List.mem_cons_self _ _, htb2⟩
        · exact Or.inr ⟨List.mem_cons_of_mem _ hfa, htb⟩
      · intro c hcm
        rcases f2 c hcm with hin | ⟨hfa, htb⟩
        · obtain ⟨c2, hc2, hpc⟩ := List.mem_map.mp hin
          rcases i2 c2 hc2 with hin2 | ⟨hfa2, htb2⟩
          · exact Or.inl (hpc ▸ hin2)
          · right
            have hcf : c.fromId = c2.fromId := (congrArg Prod.fst hpc).symm
            have hct : c.toId = c2.toId := (congrArg Prod.snd hpc).symm
            exact ⟨by rw [hcf, hfa2]; exact List.mem_cons_self _ _, by rw [hct]; exact htb2⟩
        · exact Or.inr ⟨List.mem_cons_of_mem _ hfa, htb⟩

theorem regate_pairs :
    ∀ (gaters conns : List Nat) (rs : Nat → JNum) (step : Nat) (net net' : Network),
      net.regate gaters conns rs step = Except.ok net' →
      net'.connections.map Conn.pair = net.connections.map Conn.pair ∧
      net'.selfconns.map Conn.pair = net.selfconns.map Conn.pair ∧
      net'.nodes = net.nodes ∧ net'.input_size = net.input_size ∧
      net'.output_size = net.output_size
  | [], conns, rs, step, net, net', h => by
    unfold Network.regate at h
    simp only [Except.ok.injEq] at h
    subst h
    exact ⟨rfl, rfl, rfl, rfl, rfl⟩
  | g :: gs, conns, rs, step, net, net', h => by
    unfold Network.regate at h
    by_cases hemp : conns.isEmpty = true
    · rw [if_pos hemp] at h
      simp only [Except.ok.injEq] at h
      subst h
      exact ⟨rfl, rfl, rfl, rfl, rfl⟩
    · rw [if_neg hemp] at h
      dsimp only at h
      cases hjs : jsGet conns (((rs step).mul (JNum.ofInt conns.length)).floorI) with
      | none =>
        rw [hjs] at h
        exact absurd h (by simp)
      | some cid =>
        rw [hjs] at h
        dsimp only at h
        cases hg : net.gate g cid with
        | error e =>
          rw [hg, exceptErrBind] at h
          exact absurd h (by simp)
        | ok n1 =>
          rw [hg, exceptOkBind] at h
          obtain ⟨g1, g2, g3, g4, g5⟩ := gate_pairs net g cid n1 hg
          obtain ⟨f1, f2, f3, f4, f5⟩ := regate_pairs gs
            (conns.eraseIdx (((rs step).mul (JNum.ofInt conns.length)).floorI).toNat)
            rs (step + 1) n1 net' h
          exact ⟨by rw [f1, g1], by rw [f2, g2], by rw [f3, g3], by rw [f4, g4],
            by rw [f5, g5]⟩

theorem ungate_fold_pairs :
    ∀ (L : List Conn) (net net' : Network),
      L.foldlM (fun (n : Network) c => n.ungate c.cid) net = Except.ok net' →
      net'.connections.map Conn.pair = net.connections.map Conn.pair ∧
      net'.selfconns.map Conn.pair = net.selfconns.map Conn.pair ∧
      net'.nodes = net.nodes ∧ net'.input_size = net.input_size ∧
      net'.output_size = net.output_size
  | [], net, net', h => by
    simp only [List.foldlM_nil] at h
    rw [exceptPureEq] at h
    simp only [Except.ok.injEq] at h
    subst h
    exact ⟨rfl, rfl, rfl, rfl, rfl⟩
  | c :: L, net, net', h => by
    rw [List.foldlM_cons] at h
    cases hu : net.ungate c.cid with
    | error e =>
      rw [hu, exceptErrBind] at h
      exact absurd h (by simp)
    | ok n1 =>
      rw [hu, exceptOkBind] at h
      obtain ⟨u1, u2, u3, u4, u5⟩ := ungate_pairs net c.cid n1 hu
      obtain ⟨f1, f2, f3, f4, f5⟩ := ungate_fold_pairs L n1 net' h
      exact ⟨by rw [f1, u1], by rw [f2, u2], by rw [f3, u3], by rw [f4, u4],
        by rw [f5, u5]⟩

theorem exceptBindOk {ε α β : Type} {x : Except ε α} {f : α → Except ε β} {b : β}
    (h : (x >>= f) = Except.ok b) : ∃ a, x = Except.ok a ∧ f a = Except.ok b := by
  cases x with
  | error e =>
    rw [exceptErrBind] at h
    exact absurd h (by simp)
  | ok a => exact ⟨a, rfl, h⟩

theorem remove_spec (net : Network) (nodeId : Nat) (keep_gates : Bool)
    (wOf : Nat → Nat → JNum) (rs : Nat → JNum) (s : Network)
    (hord : ∀ c ∈ net.connections, c.fromId ≠ c.toId)
    (hselfp : ∀ c ∈ net.selfconns, c.fromId = c.toId)
    (hone : (net.selfconns.map Conn.pair).count (nodeId, nodeId) ≤ 1)
    (h : net.remove nodeId keep_gates wOf rs = Except.ok s) :
    (∀ c ∈ s.connections, ¬ c.touches nodeId) ∧
    (∀ c ∈ s.selfconns, ¬ c.touches nodeId) ∧
    s.nodes = net.nodes.eraseIdx (jsIndexOfId net.nodes nodeId).toNat ∧
    s.input_size = net.input_size ∧ s.output_size = net.output_size := by
  have hordP : ∀ q ∈ net.connections.map Conn.pair, q.1 ≠ q.2 := by
    intro q hq
    obtain ⟨c, hc, hh⟩ := List.mem_map.mp hq
    subst hh
    exact hord c hc
  have hselfP : ∀ q ∈ net.selfconns.map Conn.pair, q.1 = q.2 := by
    intro q hq
    obtain ⟨c, hc, hh⟩ := List.mem_map.mp hq
    subst hh
    exact hselfp c hc
  unfold Network.remove at h
  try dsimp only at h
  by_cases hidx : (jsIndexOfId net.nodes nodeId == -1) = true
  · rw [if_pos hidx] at h
    exact absurd h (by simp)
  rw [if_neg hidx] at h
  obtain ⟨net1, e1, h⟩ := exceptBindOk h
  try dsimp only at h
  obtain ⟨net2, e2, h⟩ := exceptBindOk h
  try dsimp only at h
  obtain ⟨net3, e3, h⟩ := exceptBindOk h
  try dsimp only at h
  obtain ⟨acc4, e4, h⟩ := exceptBindOk h
  try dsimp only at h
  obtain ⟨net5, e5, h⟩ := exceptBindOk h
  try dsimp only at h
  obtain ⟨net6, e6, h⟩ := exceptBindOk h
  try dsimp only at h
  obtain ⟨net7, e7, h⟩ := exceptBindOk h
  simp only [Except.ok.injEq] at h
  subst h
  -- phase 1: the first self-disconnect
  obtain ⟨d1s, d1c, d1n, d1i, d1o⟩ := disconnect_pairs_self net nodeId net1 e1
  have hord1 : ∀ q ∈ net1.connections.map Conn.pair, q.1 ≠ q.2 := by
    rw [d1c]
    exact hordP
  -- phase 2: severing the incoming connections
  have hins : ∀ c ∈ (net1.inConns nodeId).reverse, c.toId = nodeId ∧ c.fromId ≠ nodeId := by
    intro c hc
    rw [List.mem_reverse] at hc
    have hc2 : c ∈ net1.connections.filter (fun c => c.toId == nodeId) := hc
    obtain ⟨hmem, hto⟩ := List.mem_filter.mp hc2
    have hto2 : c.toId = nodeId := by simpa using hto
    have hfne : c.fromId ≠ c.toId := hord1 (Conn.pair c) (List.mem_map_of_mem _ hmem)
    exact ⟨hto2, by rw [← hto2]; exact hfne⟩
  obtain ⟨P2eq, s2eq, n2eq, i2eq, o2eq⟩ := disc_fold_pairs (fun c => (c.fromId, nodeId))
    ((net1.inConns nodeId).reverse) net1 net2 (fun c hc => (hins c hc).2) e2
  have hcnt2 : ∀ x : Nat, (net2.connections.map Conn.pair).count (x, nodeId) = 0 := by
    intro x
    rw [P2eq, foldl_erase_count]
    have hmapeq : ((net1.inConns nodeId).reverse).map (fun c => (c.fromId, nodeId))
        = ((net1.inConns nodeId).reverse).map Conn.pair := by
      apply List.map_congr_left
      intro c hc
      have hto := (hins c hc).1
      simp [Conn.pair, hto]
    have hfm : (net1.inConns nodeId).map Conn.pair
        = (net1.connections.map Conn.pair).filter (fun q => q.2 == nodeId) := by
      show (net1.connections.filter (fun c => c.toId == nodeId)).map Conn.pair = _
      rw [List.filter_map]
      exact congrArg _ (List.filter_congr (fun c _ => rfl))
    rw [hmapeq, List.map_reverse, List.count_reverse, hfm,
      List.count_filter (by simp)]
    omega
  have hp2 : ∀ q ∈ net2.connections.map Conn.pair, q.1 ≠ q.2 := by
    intro q hq
    rw [P2eq] at hq
    exact hord1 q ((foldl_erase_sublist _ _).subset hq)
  -- phase 3: severing the outgoing connections
  have houts : ∀ c ∈ (net2.outConns nodeId).reverse, c.fromId = nodeId ∧ c.toId ≠ nodeId := by
    intro c hc
    rw [List.mem_reverse] at hc
    have hc2 : c ∈ net2.connections.filter (fun c => c.fromId == nodeId) := hc
    obtain ⟨hmem, hfrom⟩ := List.mem_filter.mp hc2
    have hfrom2 : c.fromId = nodeId := by simpa using hfrom
    have hfne : c.fromId ≠ c.toId := hp2 (Conn.pair c) (List.mem_map_of_mem _ hmem)
    exact ⟨hfrom2, fun hh => hfne (hfrom2.trans hh.symm)⟩
  obtain ⟨P3eq, s3eq, n3eq, i3eq, o3eq⟩ := disc_fold_pairs (fun c => (nodeId, c.toId))
    ((net2.outConns nodeId).reverse) net2 net3 (fun c hc => Ne.symm (houts c hc).2) e3
  have hcnt3b : ∀ y : Nat, (net3.connections.map Conn.pair).count (nodeId, y) = 0 := by
    intro y
    rw [P3eq, foldl_erase_count]
    have hmapeq : ((net2.outConns nodeId).reverse).map (fun c => (nodeId, c.toId))
        = ((net2.outConns nodeId).reverse).map Conn.pair := by
      apply List.map_congr_left
      intro c hc
      have hfrom := (houts c hc).1
      simp [Conn.pair, hfrom]
    have hfm : (net2.outConns nodeId).map Conn.pair
        = (net2.connections.map Conn.pair).filter (fun q => q.1 == nodeId) := by
      show (net2.connections.filter (fun c => c.fromId == nodeId)).map Conn.pair = _
      rw [List.filter_map]
      exact congrArg _ (List.filter_congr (fun c _ => rfl))
    rw [hmapeq, List.map_reverse, List.count_reverse, hfm,
      List.count_filter (by simp)]
    omega
  have hsub32 : List.Sublist (net3.connections.map Conn.pair)
      (net2.connections.map Conn.pair) := by
    rw [P3eq]
    exact foldl_erase_sublist _ _
  have hcnt3a : ∀ x : Nat, (net3.connections.map Conn.pair).count (x, nodeId) = 0 := by
    intro x
    have hle := hsub32.count_le (x, nodeId)
    have := hcnt2 x
    omega
  have hp3mem : ∀ q ∈ net3.connections.map Conn.pair, q.1 ≠ nodeId ∧ q.2 ≠ nodeId := by
    intro q hq
    have hpos := List.count_pos_iff.mpr hq
    constructor
    · intro h1
      have h0 := hcnt3b q.2
      rw [← h1, Prod.mk.eta] at h0
      omega
    · intro h1
      have h0 := hcnt3a q.1
      rw [← h1, Prod.mk.eta] at h0
      omega
  -- self pairs after phase 3
  have s3 : net3.selfconns.map Conn.pair
      = (net.selfconns.map Conn.pair).erase (nodeId, nodeId) := by
    rw [s3eq, s2eq, d1s]
  have hcself : (net3.selfconns.map Conn.pair).count (nodeId, nodeId) = 0 := by
    rw [s3, List.count_erase_self]
    omega
  have hself3 : ∀ q ∈ net3.selfconns.map Conn.pair, q.1 ≠ nodeId ∧ q.2 ≠ nodeId := by
    intro q hq
    have hqsub : q ∈ net.selfconns.map Conn.pair := by
      rw [s3] at hq
      exact (List.erase_sublist _ _).subset hq
    have hqq : q.1 = q.2 := hselfP q hqsub
    have hqne : q ≠ (nodeId, nodeId) := by
      intro hcon
      rw [hcon] at hq
      have := List.count_pos_iff.mpr hq
      omega
    constructor
    · intro h1
      exact hqne (Prod.ext_iff.mpr ⟨h1, by rw [← hqq]; exact h1⟩)
    · intro h1
      exact hqne (Prod.ext_iff.mpr ⟨by rw [hqq]; exact h1, h1⟩)
  -- the reconnection endpoints avoid the removed node
  have hinputs : ∀ x ∈ ((net1.inConns nodeId).reverse).map Conn.fromId, x ≠ nodeId := by
    intro x hx
    obtain ⟨c, hc, hh⟩ := List.mem_map.mp hx
    subst hh
    exact (hins c hc).2
  have houtputs : ∀ y ∈ ((net2.outConns nodeId).reverse).map Conn.toId, y ≠ nodeId := by
    intro y hy
    obtain ⟨c, hc, hh⟩ := List.mem_map.mp hy
    subst hh
    exact (houts c hc).2
  obtain ⟨r1, r2, r3, r4, r5⟩ := reconn_outer wOf
    (((net2.outConns nodeId).reverse).map Conn.toId)
    (((net1.inConns nodeId).reverse).map Conn.fromId)
    (net3, ([] : List Nat)) acc4 e4
  -- phases 5-7 preserve the pairs
  obtain ⟨g5c, g5s, g5n, g5i, g5o⟩ := regate_pairs _ _ _ _ _ _ e5
  obtain ⟨g6c, g6s, g6n, g6i, g6o⟩ := ungate_fold_pairs _ _ _ e6
  obtain ⟨g7s, g7c, g7n, g7i, g7o⟩ := disconnect_pairs_self _ _ _ e7
  refine ⟨?_, ?_, ?_, ?_, ?_⟩
  · intro c hc hT
    have hT2 : c.fromId = nodeId ∨ c.toId = nodeId := hT
    have hq : Conn.pair c ∈ net7.connections.map Conn.pair :=
      List.mem_map_of_mem _ hc
    rw [g7c, g6c, g5c] at hq
    obtain ⟨c2, hc2, hpc⟩ := List.mem_map.mp hq
    rcases r1 c2 hc2 with hin | ⟨hfa, htb⟩
    · have h33 := hp3mem (Conn.pair c2) (List.mem_map_of_mem _ hin)
      rcases hT2 with h1 | h1
      · exact h33.1 ((congrArg Prod.fst hpc).trans h1)
      · exact h33.2 ((congrArg Prod.snd hpc).trans h1)
    · rcases hT2 with h1 | h1
      · exact hinputs _ hfa ((congrArg Prod.fst hpc).trans h1)
      · exact houtputs _ htb ((congrArg Prod.snd hpc).trans h1)
  · intro c hc hT
    have hT2 : c.fromId = nodeId ∨ c.toId = nodeId := hT
    have hq : Conn.pair c ∈ net7.selfconns.map Conn.pair :=
      List.mem_map_of_mem _ hc
    rw [g7s, g6s, g5s] at hq
    have hq2 := (List.erase_sublist _ _).subset hq
    obtain ⟨c2, hc2, hpc⟩ := List.mem_map.mp hq2
    rcases r2 c2 hc2 with hin | ⟨hfa, htb⟩
    · have h33 := hself3 (Conn.pair c2) hin
      rcases hT2 with h1 | h1
      · exact h33.1 ((congrArg Prod.fst hpc).trans h1)
      · exact h33.2 ((congrArg Prod.snd hpc).trans h1)
    · rcases hT2 with h1 | h1
      · exact hinputs _ hfa ((congrArg Prod.fst hpc).trans h1)
      · exact houtputs _ htb ((congrArg Prod.snd hpc).trans h1)
  · show net7.nodes.eraseIdx (jsIndexOfId net.nodes nodeId).toNat
      = net.nodes.eraseIdx (jsIndexOfId net.nodes nodeId).toNat
    have hn4 : acc4.1.nodes = net3.nodes := r3
    rw [g7n, g6n, g5n, hn4, n3eq, n2eq, d1n]
  · show net7.input_size = net.input_size
    have hi4 : acc4.1.input_size = net3.input_size := r4
    rw [g7i, g6i, g5i, hi4, i3eq, i2eq, d1i]
  · show net7.output_size = net.output_size
    have ho4 : acc4.1.output_size = net3.output_size := r5
    rw [g7o, g6o, g5o, ho4, o3eq, o2eq, d1o]

/-- Claim C9: for every network whose connection lists satisfy the
ordinary/self split (ordinary connections join distinct nodes, self
connections loop, at most one self connection on the removed node) and
every node that is a member of it, a successful `remove(node)` leaves no
connection — in `connections` or `selfconns` — with the removed node as
its from or to endpoint. -/
theorem claim_C9_remove_endpoints (net : Network) (nodeId : Nat) (keep_gates : Bool)
    (wOf : Nat → Nat → JNum) (rs : Nat → JNum) (s : Network)
    (hmem : net.hasId nodeId)
    (hord : ∀ c ∈ net.connections, c.fromId ≠ c.toId)
    (hselfp : ∀ c ∈ net.selfconns, c.fromId = c.toId)
    (hone : (net.selfconns.map Conn.pair).count (nodeId, nodeId) ≤ 1)
    (h : net.remove nodeId keep_gates wOf rs = Except.ok s) :
    ∀ c ∈ s.connections ++ s.selfconns, ¬ c.touches nodeId := by
  obtain ⟨h1, h2, _, _, _⟩ := remove_spec net nodeId keep_gates wOf rs s hord hselfp hone h
  intro c hc
  rcases List.mem_append.mp hc with hc | hc
  · exact h1 c hc
  · exact h2 c hc

/-- Claim C9 witness: removing the hidden node 3 of netH (net11 after one
ADD_NODE) succeeds and leaves only the reconnected connection 0 → 1. -/
theorem claim_C9_remove_endpoints_witness :
    netH.remove 3 true mutA.wOf mutA.rs = Except.ok netHr ∧
    ∀ c ∈ netHr.connections ++ netHr.selfconns, ¬ c.touches 3 :=
  ⟨by rfl, claim_C9_remove_endpoints netH 3 true mutA.wOf mutA.rs netHr
    (by decide) (by decide) (by decide) (by decide) (by rfl)⟩

/-
  Region typing (claim C2): helper lemmas.
-/

theorem count_le_one_of_nodup {α : Type} [BEq α] [LawfulBEq α] :
    ∀ {l : List α}, l.Nodup → ∀ a : α, l.count a ≤ 1
  | [], _, a => by simp
  | x :: l, h, a => by
    obtain ⟨hx, hl⟩ := List.nodup_cons.mp h
    rw [List.count_cons]
    by_cases hxa : (x == a) = true
    · rw [if_pos hxa]
      have hax : a = x := (LawfulBEq.eq_of_beq hxa).symm
      have : l.count a = 0 := by
        rw [List.count_eq_zero]
        rw [hax]
        exact hx
      omega
    · rw [if_neg hxa]
      have := count_le_one_of_nodup hl a
      omega

theorem jsPick_mem {α : Type} (l : List α) (r : JNum) (x : α)
    (h : jsPick l r = some x) : x ∈ l := by
  unfold jsPick jsGet at h
  split at h
  · exact absurd h (by simp)
  · exact List.get?_mem h

theorem jsGet_mem {α : Type} (l : List α) (i : Int) (x : α)
    (h : jsGet l i = some x) : x ∈ l := by
  unfold jsGet at h
  split at h
  · exact absurd h (by simp)
  · exact List.get?_mem h

theorem exceptMapIdOk {x : Except String Network} {s : Network}
    (h : Except.map id x = Except.ok s) : x = Except.ok s := by
  cases x with
  | error e => exact absurd h (by simp [Except.map])
  | ok a => simpa [Except.map] using h

theorem disconnect_nodes (net : Network) (a b : Nat) (net' : Network)
    (h : net.disconnect a b = Except.ok net') :
    net'.nodes = net.nodes ∧ net'.input_size = net.input_size ∧
    net'.output_size = net.output_size := by
  by_cases hab : a = b
  · subst hab
    obtain ⟨_, _, hn, hi, ho⟩ := disconnect_pairs_self net a net' h
    exact ⟨hn, hi, ho⟩
  · obtain ⟨_, _, hn, hi, ho⟩ := disconnect_pairs_ord net a b net' hab h
    exact ⟨hn, hi, ho⟩

theorem partition_of_region (s : Network) (inp out : Int)
    (hi : s.input_size = inp) (ho : s.output_size = out)
    (h : regionTyped inp out s.nodes) : s.partitionTyped := by
  subst hi
  subst ho
  exact h

theorem region_of_partition (net : Network) (h : net.partitionTyped) :
    regionTyped net.input_size net.output_size net.nodes := h

theorem regionTyped_congr (inp out : Int) (l1 l2 : List NNode)
    (hmap : l1.map NNode.type = l2.map NNode.type) (h : regionTyped inp out l2) :
    regionTyped inp out l1 := by
  have hlen : l1.length = l2.length := by
    have := congrArg List.length hmap
    simpa using this
  intro i hi
  have hi2 : i < l2.length := by omega
  have htype : (l1.get ⟨i, hi⟩).type = (l2.get ⟨i, hi2⟩).type := by
    have h1 : (l1.map NNode.type).get ⟨i, by simpa using hi⟩
        = (l2.map NNode.type).get ⟨i, by simpa using hi2⟩ := by
      have h2 := congrArg (fun ll => ll[i]?) hmap
      simp only [List.getElem?_eq_getElem (by simpa using hi : i < (l1.map NNode.type).length),
        List.getElem?_eq_getElem (by simpa using hi2 : i < (l2.map NNode.type).length)] at h2
      exact Option.some.inj h2
    simpa [List.get_eq_getElem, List.getElem_map] using h1
  obtain ⟨c1, c2⟩ := h i hi2
  refine ⟨fun hlt => ?_, fun hge => ?_⟩
  · rw [List.get_eq_getElem] at htype ⊢
    rw [htype]
    exact c1 hlt
  · rw [List.get_eq_getElem] at htype ⊢
    rw [htype]
    refine c2 ?_
    rw [← hlen]
    exact hge

theorem updateNode_type_map (net : Network) (id : Nat) (f : NNode → NNode)
    (hf : ∀ n, (f n).type = n.type) :
    (net.updateNode id f).nodes.map NNode.type = net.nodes.map NNode.type := by
  show (net.nodes.map (fun n => if n.id == id then f n else n)).map NNode.type = _
  rw [List.map_map]
  apply List.map_congr_left
  intro n _
  simp only [Function.comp_apply]
  by_cases hn : (n.id == id) = true
  · rw [if_pos hn]
    exact hf n
  · rw [if_neg hn]

theorem regionTyped_insert (inp out : Int) (l : List NNode) (nd : NNode) (k : Nat)
    (h0o : 0 ≤ out) (hk1 : inp ≤ (k : Int))
    (hk2 : (k : Int) ≤ (l.length : Int) - out)
    (hpt : regionTyped inp out l) :
    regionTyped inp out (l.insertIdx k nd) := by
  have hklen : k ≤ l.length := by omega
  have hlen : (l.insertIdx k nd).length = l.length + 1 :=
    List.length_insertIdx k l hklen
  intro i hi
  refine ⟨fun hlt => ?_, fun hge => ?_⟩
  · have hik : i < k := by omega
    have hil : i < l.length := by omega
    rw [List.get_eq_getElem, List.getElem_insertIdx_of_lt l nd k i hik hil]
    have := (hpt i hil).1 hlt
    rw [List.get_eq_getElem] at this
    exact this
  · rw [hlen] at hge hi
    have hik : k + 1 ≤ i := by omega
    obtain ⟨j, rfl⟩ : ∃ j, i = k + j + 1 := ⟨i - k - 1, by omega⟩
    have hj : k + j < l.length := by omega
    rw [List.get_eq_getElem]
    rw [List.getElem_insertIdx_add_succ l nd k j hj]
    have := (hpt (k + j) hj).2 (by push_cast; omega)
    rw [List.get_eq_getElem] at this
    exact this

theorem regionTyped_erase (inp out : Int) (l : List NNode) (p : Nat)
    (h0o : 0 ≤ out) (hp1 : inp ≤ (p : Int))
    (hp2 : (p : Int) < (l.length : Int) - out)
    (hpt : regionTyped inp out l) :
    regionTyped inp out (l.eraseIdx p) := by
  have hplen : p < l.length := by omega
  have hlen : (l.eraseIdx p).length = l.length - 1 :=
    List.length_eraseIdx_of_lt hplen
  intro i hi
  refine ⟨fun hlt => ?_, fun hge => ?_⟩
  · have hip : i < p := by omega
    rw [List.get_eq_getElem, List.getElem_eraseIdx_of_lt l p i hi hip]
    have hil : i < l.length := by omega
    have := (hpt i hil).1 hlt
    rw [List.get_eq_getElem] at this
    exact this
  · rw [hlen] at hge hi
    have hpi : p ≤ i := by omega
    rw [List.get_eq_getElem, List.getElem_eraseIdx_of_ge l p i (by omega) hpi]
    have hil : i + 1 < l.length := by omega
    have := (hpt (i + 1) hil).2 (by push_cast; omega)
    rw [List.get_eq_getElem] at this
    exact this

theorem nodeIdx_found (l : List NNode) (id : Nat) (hid : id ∈ l.map NNode.id) :
    ∃ p, l.findIdx? (fun n => n.id == id) = some p ∧
      ∃ (hp : p < l.length), (l.get ⟨p, hp⟩).id = id := by
  cases hfi : l.findIdx? (fun n => n.id == id) with
  | none =>
    exfalso
    obtain ⟨n, hn, hnid⟩ := List.mem_map.mp hid
    have hfalse := List.findIdx?_eq_none_iff.mp hfi n hn
    rw [hnid] at hfalse
    simp at hfalse
  | some p =>
    obtain ⟨hp, hpi, _⟩ := List.findIdx?_eq_some_iff_getElem.mp hfi
    refine ⟨p, rfl, hp, ?_⟩
    rw [List.get_eq_getElem]
    simpa using hpi

theorem nodup_node_eq (l : List NNode) (hnd : (l.map NNode.id).Nodup)
    (n : NNode) (hn : n ∈ l) (p : Nat) (hp : p < l.length)
    (hid : (l.get ⟨p, hp⟩).id = n.id) : l.get ⟨p, hp⟩ = n := by
  obtain ⟨j, hj, hjn⟩ := List.mem_iff_getElem.mp hn
  have hpm : p < (l.map NNode.id).length := by simpa using hp
  have hjm : j < (l.map NNode.id).length := by simpa using hj
  have hids : (l.map NNode.id).get ⟨p, hpm⟩ = (l.map NNode.id).get ⟨j, hjm⟩ := by
    simp only [List.get_eq_getElem, List.getElem_map]
    rw [List.get_eq_getElem] at hid
    rw [hid, hjn]
  rw [List.get_eq_getElem, List.get_eq_getElem] at hids
  have hpj : p = j := (hnd.getElem_inj_iff).mp hids
  subst hpj
  rw [List.get_eq_getElem, hjn]

theorem jsSpliceIdx_of_nonneg (i : Int) (len : Nat) (h0 : 0 ≤ i)
    (hle : i ≤ (len : Int)) : jsSpliceIdx i len = i.toNat := by
  unfold jsSpliceIdx
  rw [if_neg (by omega)]
  omega

theorem jsIndexOfId_found (l : List NNode) (id : Nat) (p : Nat)
    (hfi : l.findIdx? (fun n => n.id == id) = some p) :
    jsIndexOfId l id = (p : Int) := by
  unfold jsIndexOfId
  rw [hfi]

theorem possibleSubNode_some (net : Network) (cands : List Nat)
    (h : net.possibleSubNode = some cands) :
    cands = (net.nodes.filter (fun n =>
      n.type != NodeType.output && n.type != NodeType.input)).map NNode.id := by
  unfold Network.possibleSubNode at h
  try dsimp only at h
  split at h
  · simp only [Option.some.injEq] at h
    exact h.symm
  · exact absurd h (by simp)

theorem ctor_partition (i o : Int) (rnd : CtorRnd) (net : Network)
    (hok : Network.ctor i o rnd = Except.ok net) : net.partitionTyped := by
  rw [ctor_spec] at hok
  simp only [Except.ok.injEq] at hok
  subst hok
  show regionTyped i o (ctorNodes i o rnd)
  intro k hk
  have hlen : (ctorNodes i o rnd).length = (i + o).toNat := by
    unfold ctorNodes
    simp
  have hget : (ctorNodes i o rnd).get ⟨k, hk⟩
      = NNode.new k (if (k : Int) < i then NodeType.input else NodeType.output)
        (rnd.b k) := by
    rw [List.get_eq_getElem]
    unfold ctorNodes
    simp [List.getElem_map, List.getElem_range]
  rw [hlen] at hk
  refine ⟨fun hki => ?_, fun hko => ?_⟩
  · rw [hget]
    show (if (k : Int) < i then NodeType.input else NodeType.output) = NodeType.input
    rw [if_pos hki]
  · rw [hlen] at hko
    rw [hget]
    show (if (k : Int) < i then NodeType.input else NodeType.output) = NodeType.output
    rw [if_neg (by omega)]

theorem mutate_partition (net : Network) (m : Mutation) (mr : MutRands) (s : Network)
    (h0i : 0 ≤ net.input_size) (h0o : 0 ≤ net.output_size)
    (hle : net.input_size + net.output_size ≤ (net.nodes.length : Int))
    (hnd : (net.nodes.map NNode.id).Nodup)
    (htoin : ∀ c ∈ net.connections, c.toId ∈ net.nodeIds)
    (htoni : ∀ c ∈ net.connections, ∀ n ∈ net.nodes,
      n.id = c.toId → n.type ≠ NodeType.input)
    (hordC : ∀ c ∈ net.connections, c.fromId ≠ c.toId)
    (hselfC : ∀ c ∈ net.selfconns, c.fromId = c.toId)
    (hselfnd : (net.selfconns.map Conn.pair).Nodup)
    (hpt : net.partitionTyped)
    (hmut : net.mutate m mr = Except.ok s) : s.partitionTyped := by
  have hW : ∀ (t : Network), t.input_size = net.input_size →
      t.output_size = net.output_size →
      t.nodes.map NNode.type = net.nodes.map NNode.type → t.partitionTyped := by
    intro t hti hto htm
    exact partition_of_region t _ _ hti hto (regionTyped_congr _ _ _ _ htm hpt)
  cases m with
  | ADD_NODE ra =>
    unfold Network.mutate at hmut
    try dsimp only at hmut
    cases hpick : jsPick net.connections mr.r1 with
    | none =>
      rw [hpick] at hmut
      exact absurd hmut (by simp)
    | some connection =>
      rw [hpick] at hmut
      try dsimp only at hmut
      obtain ⟨net1, e1, hmut⟩ := exceptBindOk hmut
      try dsimp only at hmut
      obtain ⟨hn1, hi1, ho1⟩ := disconnect_nodes net connection.fromId connection.toId net1 e1
      obtain ⟨p1, ep1, hmut⟩ := exceptBindOk hmut
      try dsimp only at hmut
      obtain ⟨p2, ep2, hmut⟩ := exceptBindOk hmut
      try dsimp only at hmut
      have hcm1 := connect_mem _ _ _ _ p1.1 p1.2 ep1
      have hcm2 := connect_mem _ _ _ _ p2.1 p2.2 ep2
      have hsn2 : p1.1.nodes = net1.nodes.insertIdx
          (jsSpliceIdx (min (jsIndexOfId net1.nodes connection.toId)
            ((net1.nodes.length : Int) - net1.output_size)) net1.nodes.length)
          { NNode.new net1.fresh NodeType.hidden mr.nb with
            squash := if ra then mr.newSquash else 0 } := hcm1.2.2.1
      have hsi2 : p1.1.input_size = net1.input_size := hcm1.2.2.2.1
      have hso2 : p1.1.output_size = net1.output_size := hcm1.2.2.2.2
      have hconnm : connection ∈ net.connections := jsPick_mem _ _ _ hpick
      have hidm : connection.toId ∈ net.nodeIds := htoin connection hconnm
      obtain ⟨p, hfi, hp, hpid⟩ := nodeIdx_found net.nodes connection.toId hidm
      have hptype : (net.nodes.get ⟨p, hp⟩).type ≠ NodeType.input :=
        htoni connection hconnm _ (List.get_mem _ _ _) hpid
      have hpin : net.input_size ≤ (p : Int) := by
        by_contra hcon
        push_neg at hcon
        exact hptype ((hpt p hp).1 hcon)
      have hidx : jsIndexOfId net.nodes connection.toId = (p : Int) :=
        jsIndexOfId_found _ _ _ hfi
      rw [hn1, ho1] at hsn2
      rw [hi1] at hsi2
      rw [ho1] at hso2
      rw [hidx] at hsn2
      have hK : jsSpliceIdx (min ((p : Int))
          ((net.nodes.length : Int) - net.output_size)) net.nodes.length
          = (min ((p : Int)) ((net.nodes.length : Int) - net.output_size)).toNat :=
        jsSpliceIdx_of_nonneg _ _ (by omega) (by omega)
      rw [hK] at hsn2
      have hreg := regionTyped_insert net.input_size net.output_size net.nodes
        ({ NNode.new net1.fresh NodeType.hidden mr.nb with
          squash := if ra then mr.newSquash else 0 })
        ((min ((p : Int)) ((net.nodes.length : Int) - net.output_size)).toNat)
        h0o (by omega) (by omega) hpt
      cases hg : connection.gater with
      | none =>
        rw [hg] at hmut
        try dsimp only at hmut
        simp only [Except.ok.injEq] at hmut
        subst hmut
        refine partition_of_region p2.1 net.input_size net.output_size ?_ ?_ ?_
        · rw [hcm2.2.2.2.1, hsi2]
        · rw [hcm2.2.2.2.2, hso2]
        · rw [hcm2.2.2.1, hsn2]
          exact hreg
      | some g =>
        rw [hg] at hmut
        try dsimp only at hmut
        have hmut2 := exceptMapIdOk hmut
        obtain ⟨_, _, hgn, hgi, hgo⟩ := gate_pairs _ _ _ _ hmut2
        refine partition_of_region s net.input_size net.output_size ?_ ?_ ?_
        · rw [hgi, hcm2.2.2.2.1, hsi2]
        · rw [hgo, hcm2.2.2.2.2, hso2]
        · rw [hgn, hcm2.2.2.1, hsn2]
          exact hreg
  | SUB_NODE kg =>
    unfold Network.mutate at hmut
    try dsimp only at hmut
    cases hposs : net.possibleSubNode with
    | none =>
      rw [hposs] at hmut
      try dsimp only at hmut
      simp only [Except.ok.injEq] at hmut
      subst hmut
      exact hpt
    | some cands =>
      rw [hposs] at hmut
      try dsimp only at hmut
      cases hpick : jsPick cands mr.r1 with
      | none =>
        rw [hpick] at hmut
        exact absurd hmut (by simp)
      | some nid =>
        rw [hpick] at hmut
        try dsimp only at hmut
        have hone : (net.selfconns.map Conn.pair).count (nid, nid) ≤ 1 :=
          count_le_one_of_nodup hselfnd _
        obtain ⟨_, _, hsn, hsi, hso⟩ :=
          remove_spec net nid kg mr.wOf mr.rs s hordC hselfC hone hmut
        have hcands := possibleSubNode_some net cands hposs
        have hnidm : nid ∈ cands := jsPick_mem _ _ _ hpick
        rw [hcands] at hnidm
        obtain ⟨n, hnf, hnid⟩ := List.mem_map.mp hnidm
        obtain ⟨hnm, htyp⟩ := List.mem_filter.mp hnf
        have htyp2 : n.type ≠ NodeType.output ∧ n.type ≠ NodeType.input := by
          simp only [Bool.and_eq_true, bne_iff_ne, ne_eq] at htyp
          exact htyp
        have hidm2 : nid ∈ net.nodeIds := by
          rw [← hnid]
          exact List.mem_map_of_mem _ hnm
        obtain ⟨p, hfi, hp, hpid⟩ := nodeIdx_found net.nodes nid hidm2
        have hnode_eq : net.nodes.get ⟨p, hp⟩ = n :=
          nodup_node_eq net.nodes hnd n hnm p hp (by rw [hpid, hnid])
        have hpin : net.input_size ≤ (p : Int) := by
          by_contra hcon
          push_neg at hcon
          exact htyp2.2 (by rw [← hnode_eq]; exact (hpt p hp).1 hcon)
        have hpout : (p : Int) < (net.nodes.length : Int) - net.output_size := by
          by_contra hcon
          push_neg at hcon
          exact htyp2.1 (by rw [← hnode_eq]; exact (hpt p hp).2 hcon)
        have hidx : jsIndexOfId net.nodes nid = (p : Int) :=
          jsIndexOfId_found _ _ _ hfi
        rw [hidx, Int.toNat_natCast] at hsn
        have hreg := regionTyped_erase net.input_size net.output_size net.nodes p
          h0o hpin hpout hpt
        exact partition_of_region s _ _ hsi hso (by rw [hsn]; exact hreg)
  | ADD_CONN =>
    unfold Network.mutate at hmut
    try dsimp only at hmut
    cases hposs : net.possibleAddConn with
    | none =>
      rw [hposs] at hmut
      try dsimp only at hmut
      simp only [Except.ok.injEq] at hmut
      subst hmut
      exact hpt
    | some cands =>
      rw [hposs] at hmut
      try dsimp only at hmut
      cases hpick : jsPick cands mr.r1 with
      | none =>
        rw [hpick] at hmut
        exact absurd hmut (by simp)
      | some pr =>
        rw [hpick] at hmut
        try dsimp only at hmut
        obtain ⟨p, ep, hmut⟩ := exceptBindOk hmut
        rw [exceptPureEq] at hmut
        simp only [Except.ok.injEq] at hmut
        subst hmut
        obtain ⟨_, _, hn, hi, ho⟩ := connect_mem _ _ _ _ p.1 p.2 ep
        exact hW p.1 hi ho (by rw [hn])
  | SUB_CONN =>
    unfold Network.mutate at hmut
    try dsimp only at hmut
    cases hposs : net.possibleSubConn with
    | none =>
      rw [hposs] at hmut
      try dsimp only at hmut
      simp only [Except.ok.injEq] at hmut
      subst hmut
      exact hpt
    | some cands =>
      rw [hposs] at hmut
      try dsimp only at hmut
      cases hpick : jsPick cands mr.r1 with
      | none =>
        rw [hpick] at hmut
        exact absurd hmut (by simp)
      | some c =>
        rw [hpick] at hmut
        try dsimp only at hmut
        obtain ⟨hn, hi, ho⟩ := disconnect_nodes _ _ _ _ hmut
        exact hW s hi ho (by rw [hn])
  | MOD_WEIGHT mn mx =>
    unfold Network.mutate at hmut
    try dsimp only at hmut
    cases hpick : jsPick net.allConns mr.r1 with
    | none =>
      rw [hpick] at hmut
      exact absurd hmut (by simp)
    | some c =>
      rw [hpick] at hmut
      try dsimp only at hmut
      simp only [Except.ok.injEq] at hmut
      subst hmut
      exact hW _ rfl rfl rfl
  | MOD_BIAS mn mx =>
    unfold Network.mutate at hmut
    try dsimp only at hmut
    cases hget : jsGet net.nodes ((mr.r1 * JNum.ofInt ((net.nodes.length : Int) -
        net.input_size) + JNum.ofInt net.input_size).floorI) with
    | none =>
      rw [hget] at hmut
      exact absurd hmut (by simp)
    | some n =>
      rw [hget] at hmut
      try dsimp only at hmut
      simp only [Except.ok.injEq] at hmut
      subst hmut
      exact hW _ rfl rfl (updateNode_type_map net n.id _ (fun nd => rfl))
  | MOD_ACTIVATION mo =>
    unfold Network.mutate at hmut
    try dsimp only at hmut
    by_cases hposs : net.possibleModActivation mo = true
    · rw [if_pos hposs] at hmut
      cases hpick : jsPick ((net.eligibleSwapNodes mo).map NNode.id) mr.r1 with
      | none =>
        rw [hpick] at hmut
        exact absurd hmut (by simp)
      | some nid =>
        rw [hpick] at hmut
        try dsimp only at hmut
        simp only [Except.ok.injEq] at hmut
        subst hmut
        exact hW _ rfl rfl (updateNode_type_map net nid _ (fun nd => rfl))
    · rw [if_neg hposs] at hmut
      simp only [Except.ok.injEq] at hmut
      subst hmut
      exact hpt
  | ADD_SELF_CONN =>
    unfold Network.mutate at hmut
    try dsimp only at hmut
    cases hposs : net.possibleAddSelfConn with
    | none =>
      rw [hposs] at hmut
      try dsimp only at hmut
      simp only [Except.ok.injEq] at hmut
      subst hmut
      exact hpt
    | some cands =>
      rw [hposs] at hmut
      try dsimp only at hmut
      cases hpick : jsPick cands mr.r1 with
      | none =>
        rw [hpick] at hmut
        exact absurd hmut (by simp)
      | some nid =>
        rw [hpick] at hmut
        try dsimp only at hmut
        obtain ⟨p, ep, hmut⟩ := exceptBindOk hmut
        rw [exceptPureEq] at hmut
        simp only [Except.ok.injEq] at hmut
        subst hmut
        obtain ⟨_, _, hn, hi, ho⟩ := connect_mem _ _ _ _ p.1 p.2 ep
        exact hW p.1 hi ho (by rw [hn])
  | SUB_SELF_CONN =>
    unfold Network.mutate at hmut
    try dsimp only at hmut
    by_cases hlen : net.selfconns.length > 0
    · rw [if_pos hlen] at hmut
      cases hpick : jsPick net.selfconns mr.r1 with
      | none =>
        rw [hpick] at hmut
        exact absurd hmut (by simp)
      | some c =>
        rw [hpick] at hmut
        try dsimp only at hmut
        obtain ⟨hn, hi, ho⟩ := disconnect_nodes _ _ _ _ hmut
        exact hW s hi ho (by rw [hn])
    · rw [if_neg hlen] at hmut
      simp only [Except.ok.injEq] at hmut
      subst hmut
      exact hpt
  | ADD_GATE =>
    unfold Network.mutate at hmut
    try dsimp only at hmut
    cases hposs : net.possibleAddGate with
    | none =>
      rw [hposs] at hmut
      try dsimp only at hmut
      simp only [Except.ok.injEq] at hmut
      subst hmut
      exact hpt
    | some cands =>
      rw [hposs] at hmut
      try dsimp only at hmut
      cases hget : jsGet net.nodes ((mr.r1 * JNum.ofInt ((net.nodes.length : Int) -
          net.input_size) + JNum.ofInt net.input_size).floorI) with
      | none =>
        rw [hget] at hmut
        try dsimp only at hmut
        exact absurd hmut (by simp)
      | some node =>
        rw [hget] at hmut
        try dsimp only at hmut
        cases hpick : jsPick cands mr.r2 with
        | none =>
          rw [hpick] at hmut
          exact absurd hmut (by simp)
        | some conn =>
          rw [hpick] at hmut
          try dsimp only at hmut
          obtain ⟨_, _, hn, hi, ho⟩ := gate_pairs _ _ _ _ hmut
          exact hW s hi ho (by rw [hn])
  | SUB_GATE =>
    unfold Network.mutate at hmut
    try dsimp only at hmut
    by_cases hlen : net.gates.length > 0
    · rw [if_pos hlen] at hmut
      cases hpick : jsPick net.gates mr.r1 with
      | none =>
        rw [hpick] at hmut
        exact absurd hmut (by simp)
      | some cid =>
        rw [hpick] at hmut
        try dsimp only at hmut
        obtain ⟨_, _, hn, hi, ho⟩ := ungate_pairs _ _ _ hmut
        exact hW s hi ho (by rw [hn])
    · rw [if_neg hlen] at hmut
      simp only [Except.ok.injEq] at hmut
      subst hmut
      exact hpt
  | ADD_BACK_CONN =>
    unfold Network.mutate at hmut
    try dsimp only at hmut
    cases hposs : net.possibleAddBackConn with
    | none =>
      rw [hposs] at hmut
      try dsimp only at hmut
      simp only [Except.ok.injEq] at hmut
      subst hmut
      exact hpt
    | some cands =>
      rw [hposs] at hmut
      try dsimp only at hmut
      cases hpick : jsPick cands mr.r1 with
      | none =>
        rw [hpick] at hmut
        exact absurd hmut (by simp)
      | some pr =>
        rw [hpick] at hmut
        try dsimp only at hmut
        obtain ⟨p, ep, hmut⟩ := exceptBindOk hmut
        rw [exceptPureEq] at hmut
        simp only [Except.ok.injEq] at hmut
        subst hmut
        obtain ⟨_, _, hn, hi, ho⟩ := connect_mem _ _ _ _ p.1 p.2 ep
        exact hW p.1 hi ho (by rw [hn])
  | SUB_BACK_CONN =>
    unfold Network.mutate at hmut
    try dsimp only at hmut
    cases hposs : net.possibleSubBackConn with
    | none =>
      rw [hposs] at hmut
      try dsimp only at hmut
      simp only [Except.ok.injEq] at hmut
      subst hmut
      exact hpt
    | some cands =>
      rw [hposs] at hmut
      try dsimp only at hmut
      cases hpick : jsPick cands mr.r1 with
      | none =>
        rw [hpick] at hmut
        exact absurd hmut (by simp)
      | some c =>
        rw [hpick] at hmut
        try dsimp only at hmut
        obtain ⟨hn, hi, ho⟩ := disconnect_nodes _ _ _ _ hmut
        exact hW s hi ho (by rw [hn])
  | SWAP_NODES mo =>
    unfold Network.mutate at hmut
    try dsimp only at hmut
    cases hposs : net.possibleSwapNodes mo with
    | none =>
      rw [hposs] at hmut
      try dsimp only at hmut
      simp only [Except.ok.injEq] at hmut
      subst hmut
      exact hpt
    | some cands =>
      rw [hposs] at hmut
      try dsimp only at hmut
      cases hpick : jsPick cands mr.r1 with
      | none =>
        rw [hpick] at hmut
        exact absurd hmut (by simp)
      | some id1 =>
        rw [hpick] at hmut
        try dsimp only at hmut
        cases hpick2 : jsPick (cands.filter (fun id => id != id1)) mr.r2 with
        | none =>
          rw [hpick2] at hmut
          exact absurd hmut (by simp)
        | some id2 =>
          rw [hpick2] at hmut
          try dsimp only at hmut
          cases hno1 : net.nodeOf id1 with
          | none =>
            rw [hno1] at hmut
            try dsimp only at hmut
            simp only [Except.ok.injEq] at hmut
            subst hmut
            exact hpt
          | some n1 =>
            rw [hno1] at hmut
            try dsimp only at hmut
            cases hno2 : net.nodeOf id2 with
            | none =>
              rw [hno2] at hmut
              simp only [Except.ok.injEq] at hmut
              subst hmut
              exact hpt
            | some n2 =>
              rw [hno2] at hmut
              try dsimp only at hmut
              simp only [Except.ok.injEq] at hmut
              subst hmut
              refine hW _ rfl rfl ?_
              rw [updateNode_type_map _ id2
                  (fun nd => { nd with bias := n1.bias, squash := n1.squash })
                  (fun nd => rfl),
                updateNode_type_map _ id1
                  (fun nd => { nd with bias := n2.bias, squash := n2.squash })
                  (fun nd => rfl)]

/-- Claim C2: the constructor establishes the node-partition invariant —
positions [0, input_size) input-typed, positions [len - output_size, len)
output-typed — and every successful `mutate` call on a well-formed network
(non-negative sizes, enough nodes, distinct node ids, live non-input
connection targets, ordinary/self connection split) preserves it; in
particular ADD_NODE splices its hidden node strictly between the two
regions. -/
theorem claim_C2_region_typing :
    (∀ (i o : Int) (rnd : CtorRnd) (net : Network),
      Network.ctor i o rnd = Except.ok net → net.partitionTyped) ∧
    (∀ (net : Network) (m : Mutation) (mr : MutRands) (s : Network),
      0 ≤ net.input_size → 0 ≤ net.output_size →
      net.input_size + net.output_size ≤ (net.nodes.length : Int) →
      (net.nodes.map NNode.id).Nodup →
      (∀ c ∈ net.connections, c.toId ∈ net.nodeIds) →
      (∀ c ∈ net.connections, ∀ n ∈ net.nodes,
        n.id = c.toId → n.type ≠ NodeType.input) →
      (∀ c ∈ net.connections, c.fromId ≠ c.toId) →
      (∀ c ∈ net.selfconns, c.fromId = c.toId) →
      (net.selfconns.map Conn.pair).Nodup →
      net.partitionTyped →
      net.mutate m mr = Except.ok s → s.partitionTyped) :=
  ⟨fun i o rnd net h => ctor_partition i o rnd net h,
   fun net m mr s h1 h2 h3 h4 h5 h6 h7 h8 h9 h10 h11 =>
     mutate_partition net m mr s h1 h2 h3 h4 h5 h6 h7 h8 h9 h10 h11⟩

/-- Claim C2 witness: the partition holds for the fresh `new Network(2, 1)`
and is preserved by the ADD_NODE mutation that turns net11 into netH. -/
theorem claim_C2_region_typing_witness :
    net21.partitionTyped ∧ netH.partitionTyped :=
  ⟨claim_C2_region_typing.1 2 1 rnd1 net21 (by rfl),
   claim_C2_region_typing.2 net11 (Mutation.ADD_NODE false) mutA netH
     (by decide) (by decide) (by decide) (by decide) (by decide) (by decide)
     (by decide) (by decide) (by decide) (by decide) (by rfl)⟩

/-
  Selection membership (claim C8).
-/

theorem jsGet_lt {α : Type} (l : List α) (i : Int) (h0 : 0 ≤ i)
    (hlt : i < (l.length : Int)) : ∃ x, jsGet l i = some x := by
  rw [jsGet_of_nonneg _ _ h0]
  have hn : i.toNat < l.length := by omega
  exact ⟨l.get ⟨i.toNat, hn⟩, List.get?_eq_get hn⟩

theorem unit_index_bound (r : JNum) (len : Nat) (hr : r.unit) (hlen : 0 < len) :
    0 ≤ ((r * JNum.ofInt (len : Int)).floorI) ∧
    ((r * JNum.ofInt (len : Int)).floorI) < (len : Int) := by
  obtain ⟨h0, h1⟩ := hr
  have hrw : (r * JNum.ofInt (len : Int)).floorI
      = (r.num * (len : Int)).fdiv ((r.den * 1 : Nat) : Int) := rfl
  rw [hrw]
  have hden : (0 : Int) < ((r.den * 1 : Nat) : Int) := by
    push_cast
    omega
  constructor
  · exact Int.fdiv_nonneg (by positivity) (by omega)
  · rw [Int.fdiv_eq_ediv _ (by omega)]
    apply Int.ediv_lt_of_lt_mul hden
    push_cast
    have hmul : r.num * (len : Int) < (r.den : Int) * (len : Int) :=
      Int.mul_lt_mul_of_pos_right h1 (by exact_mod_cast hlen)
    calc r.num * (len : Int) < (r.den : Int) * (len : Int) := hmul
      _ = (len : Int) * ((r.den : Int) * 1) := by ring

theorem unit_powN (r : JNum) (p : Nat) (hr : r.unit) (hp : p ≠ 0) :
    (r.powN p).unit := by
  obtain ⟨h0, h1⟩ := hr
  constructor
  · exact pow_nonneg h0 p
  · show r.num ^ p < ((r.den ^ p : Nat) : Int)
    push_cast
    exact pow_lt_pow_left h1 h0 hp

theorem insertByScore_mem (g : Network) :
    ∀ (l : List Network) (x : Network), x ∈ insertByScore g l → x = g ∨ x ∈ l
  | [], x, h => by
    unfold insertByScore at h
    simp only [List.mem_singleton] at h
    exact Or.inl h
  | h0 :: t, x, hx => by
    unfold insertByScore at hx
    by_cases hcmp : jsScoreLt h0.score g.score = true
    · rw [if_pos hcmp] at hx
      rcases List.mem_cons.mp hx with h | h
      · exact Or.inl h
      · exact Or.inr h
    · rw [if_neg hcmp] at hx
      rcases List.mem_cons.mp hx with h | h
      · exact Or.inr (by rw [h]; exact List.mem_cons_self _ _)
      · rcases insertByScore_mem g t x h with h2 | h2
        · exact Or.inl h2
        · exact Or.inr (List.mem_cons_of_mem _ h2)

theorem insertByScore_length (g : Network) :
    ∀ (l : List Network), (insertByScore g l).length = l.length + 1
  | [] => rfl
  | h0 :: t => by
    unfold insertByScore
    by_cases hcmp : jsScoreLt h0.score g.score = true
    · rw [if_pos hcmp]
      rfl
    · rw [if_neg hcmp]
      simp only [List.length_cons, insertByScore_length g t]

theorem sort_fold_mem :
    ∀ (l acc : List Network) (x : Network),
      x ∈ l.foldl (fun acc g => insertByScore g acc) acc → x ∈ acc ∨ x ∈ l
  | [], acc, x, h => Or.inl (by simpa using h)
  | g :: t, acc, x, h => by
    rw [List.foldl_cons] at h
    rcases sort_fold_mem t (insertByScore g acc) x h with h2 | h2
    · rcases insertByScore_mem g acc x h2 with h3 | h3
      · exact Or.inr (by rw [h3]; exact List.mem_cons_self _ _)
      · exact Or.inl h3
    · exact Or.inr (List.mem_cons_of_mem _ h2)

theorem sortByScoreDesc_mem (l : List Network) (x : Network)
    (h : x ∈ sortByScoreDesc l) : x ∈ l := by
  rcases sort_fold_mem l [] x h with h2 | h2
  · simp at h2
  · exact h2

theorem sort_fold_length :
    ∀ (l acc : List Network),
      (l.foldl (fun acc g => insertByScore g acc) acc).length = acc.length + l.length
  | [], acc => by simp
  | g :: t, acc => by
    rw [List.foldl_cons, sort_fold_length t _, insertByScore_length]
    simp only [List.length_cons]
    omega

theorem sortByScoreDesc_length (l : List Network) :
    (sortByScoreDesc l).length = l.length := by
  unfold sortByScoreDesc
  rw [sort_fold_length]
  simp

theorem fpWalk_mem (random minAbs : JNum) :
    ∀ (l : List Network) (v : JNum) (g : Network),
      fpWalk random minAbs l v = some g → g ∈ l
  | [], v, g, h => by
    unfold fpWalk at h
    exact absurd h (by simp)
  | h0 :: t, v, g, h => by
    unfold fpWalk at h
    dsimp only at h
    split at h
    · simp only [Option.some.injEq] at h
      subst h
      exact List.mem_cons_self _ _
    · exact List.mem_cons_of_mem _ (fpWalk_mem random minAbs t _ g h)

theorem tour_fold_mem (pop : List Network) (tS : Nat → JNum) :
    ∀ (idxs : List Nat) (acc inds : List Network),
      (idxs.foldlM (fun (acc : List Network) i =>
        match jsGet pop ((tS i * JNum.ofInt pop.length).floorI) with
        | some g => pure (acc ++ [g])
        | none => Except.error "TypeError: undefined genome") acc) = Except.ok inds →
      inds.length = acc.length + idxs.length ∧ (∀ x ∈ inds, x ∈ acc ∨ x ∈ pop)
  | [], acc, inds, h => by
    simp only [List.foldlM_nil] at h
    rw [exceptPureEq] at h
    simp only [Except.ok.injEq] at h
    subst h
    exact ⟨by simp, fun x hx => Or.inl hx⟩
  | i :: idxs, acc, inds, h => by
    rw [List.foldlM_cons] at h
    cases hj : jsGet pop ((tS i * JNum.ofInt pop.length).floorI) with
    | none =>
      rw [hj] at h
      try dsimp only at h
      rw [exceptErrBind] at h
      exact absurd h (by simp)
    | some g =>
      rw [hj] at h
      try dsimp only at h
      rw [exceptPureEq, exceptOkBind] at h
      obtain ⟨hlen, hmem⟩ := tour_fold_mem pop tS idxs (acc ++ [g]) inds h
      refine ⟨by simp at hlen ⊢; omega, ?_⟩
      intro x hx
      rcases hmem x hx with h2 | h2
      · rcases List.mem_append.mp h2 with h3 | h3
        · exact Or.inl h3
        · simp only [List.mem_singleton] at h3
          subst h3
          exact Or.inr (jsGet_mem _ _ _ hj)
      · exact Or.inr h2

theorem tour_fold_ok (pop : List Network) (tS : Nat → JNum) (hlen : 0 < pop.length) :
    ∀ (idxs : List Nat) (acc : List Network),
      (∀ i ∈ idxs, (tS i).unit) →
      ∃ inds, (idxs.foldlM (fun (acc : List Network) i =>
        match jsGet pop ((tS i * JNum.ofInt pop.length).floorI) with
        | some g => pure (acc ++ [g])
        | none => Except.error "TypeError: undefined genome") acc) = Except.ok inds
  | [], acc, _ => ⟨acc, by simp only [List.foldlM_nil]; rw [exceptPureEq]⟩
  | i :: idxs, acc, hu => by
    have hb := unit_index_bound (tS i) pop.length (hu i (List.mem_cons_self _ _)) hlen
    obtain ⟨g, hg⟩ := jsGet_lt pop _ hb.1 hb.2
    obtain ⟨inds, hinds⟩ := tour_fold_ok pop tS hlen idxs (acc ++ [g])
      (fun j hj => hu j (List.mem_cons_of_mem _ hj))
    refine ⟨inds, ?_⟩
    rw [List.foldlM_cons, hg]
    try dsimp only
    rw [exceptPureEq, exceptOkBind]
    exact hinds

theorem getParent_mem (nt : Neat) (o : POr) (g : Network)
    (hok : nt.getParent o = Except.ok g) : g ∈ nt.population := by
  unfold Neat.getParent at hok
  cases hselc : nt.selection with
  | POWER power =>
    rw [hselc] at hok
    try dsimp only at hok
    cases hj0 : jsGet nt.population 0 with
    | none =>
      rw [hj0] at hok
      try dsimp only at hok
      exact absurd hok (by simp)
    | some g0 =>
      rw [hj0] at hok
      try dsimp only at hok
      cases hj1 : jsGet nt.population 1 with
      | none =>
        rw [hj1] at hok
        try dsimp only at hok
        exact absurd hok (by simp)
      | some g1 =>
        rw [hj1] at hok
        try dsimp only at hok
        by_cases hcmp : jsScoreLt g0.score g1.score = true
        · rw [if_pos hcmp] at hok
          split at hok
          · rename_i g2 hji
            simp only [Except.ok.injEq] at hok
            subst hok
            exact sortByScoreDesc_mem _ _ (jsGet_mem _ _ _ hji)
          · exact absurd hok (by simp)
        · rw [if_neg hcmp] at hok
          split at hok
          · rename_i g2 hji
            simp only [Except.ok.injEq] at hok
            subst hok
            exact jsGet_mem _ _ _ hji
          · exact absurd hok (by simp)
  | FITNESS_PROPORTIONATE =>
    rw [hselc] at hok
    try dsimp only at hok
    split at hok
    · rename_i g2 hw
      simp only [Except.ok.injEq] at hok
      subst hok
      exact fpWalk_mem _ _ _ _ _ hw
    · split at hok
      · rename_i g2 hj
        simp only [Except.ok.injEq] at hok
        subst hok
        exact jsGet_mem _ _ _ hj
      · exact absurd hok (by simp)
  | TOURNAMENT size prob =>
    rw [hselc] at hok
    try dsimp only at hok
    split at hok
    · exact absurd hok (by simp)
    · obtain ⟨inds, hfold, hok⟩ := exceptBindOk hok
      try dsimp only at hok
      obtain ⟨hlen, hmem⟩ := tour_fold_mem nt.population o.tSample _ _ _ hfold
      split at hok
      · split at hok
        · rename_i j hfind g2 hjg
          simp only [Except.ok.injEq] at hok
          subst hok
          have h1 := sortByScoreDesc_mem _ _ (jsGet_mem _ _ _ hjg)
          rcases hmem _ h1 with h2 | h2
          · simp at h2
          · exact h2
        · exact absurd hok (by simp)
      · exact absurd hok (by simp)

theorem getParent_total (nt : Neat) (o : POr)
    (hr : o.r.unit) (hfb : o.fb.unit)
    (hsel : match nt.selection with
      | Selection.POWER power => 2 ≤ nt.population.length ∧ power ≠ 0
      | Selection.FITNESS_PROPORTIONATE => 1 ≤ nt.population.length
      | Selection.TOURNAMENT size prob => 1 ≤ nt.population.length ∧ 1 ≤ size ∧
          size ≤ nt.popsize ∧ ∀ i, i < size → (o.tSample i).unit) :
    ∃ g, nt.getParent o = Except.ok g := by
  unfold Neat.getParent
  cases hselc : nt.selection with
  | POWER power =>
    rw [hselc] at hsel
    try dsimp only
    obtain ⟨hl2, hp0⟩ := hsel
    obtain ⟨g0, hg0⟩ := jsGet_lt nt.population 0 (by omega) (by omega)
    obtain ⟨g1, hg1⟩ := jsGet_lt nt.population 1 (by omega) (by omega)
    rw [hg0, hg1]
    try dsimp only
    by_cases hcmp : jsScoreLt g0.score g1.score = true
    · rw [if_pos hcmp]
      have hpl : 0 < (sortByScoreDesc nt.population).length := by
        rw [sortByScoreDesc_length]
        omega
      have hb := unit_index_bound (o.r.powN power) (sortByScoreDesc nt.population).length
        (unit_powN o.r power hr hp0) hpl
      obtain ⟨g, hg⟩ := jsGet_lt (sortByScoreDesc nt.population) _ hb.1 hb.2
      rw [hg]
      exact ⟨g, rfl⟩
    · rw [if_neg hcmp]
      have hb := unit_index_bound (o.r.powN power) nt.population.length
        (unit_powN o.r power hr hp0) (by omega)
      obtain ⟨g, hg⟩ := jsGet_lt nt.population _ hb.1 hb.2
      rw [hg]
      exact ⟨g, rfl⟩
  | FITNESS_PROPORTIONATE =>
    rw [hselc] at hsel
    try dsimp only
    split
    · rename_i g hw
      exact ⟨g, rfl⟩
    · rename_i hw
      have hb := unit_index_bound o.fb nt.population.length hfb (by omega)
      obtain ⟨g, hg⟩ := jsGet_lt nt.population _ hb.1 hb.2
      rw [hg]
      exact ⟨g, rfl⟩
  | TOURNAMENT size prob =>
    rw [hselc] at hsel
    try dsimp only
    obtain ⟨hl1, hs1, hsp, hunit⟩ := hsel
    rw [if_neg (by omega)]
    obtain ⟨inds, hfold⟩ := tour_fold_ok nt.population o.tSample (by omega)
      (List.range size) [] (fun i hi => hunit i (List.mem_range.mp hi))
    rw [hfold, exceptOkBind]
    try dsimp only
    obtain ⟨hlen, _⟩ := tour_fold_mem nt.population o.tSample (List.range size) [] inds hfold
    have hfind : ∃ j, (List.range size).find?
        (fun i => (o.tAccept i).lt prob || i == size - 1) = some j := by
      cases hfq : (List.range size).find?
          (fun i => (o.tAccept i).lt prob || i == size - 1) with
      | some j => exact ⟨j, rfl⟩
      | none =>
        exfalso
        have hnone := List.find?_eq_none.mp hfq (size - 1)
          (List.mem_range.mpr (by omega))
        exact hnone (by simp)
    obtain ⟨j, hj⟩ := hfind
    rw [hj]
    try dsimp only
    have hjlt : j < size := List.mem_range.mp (List.mem_of_find?_eq_some hj)
    have hslen : (sortByScoreDesc inds).length = size := by
      rw [sortByScoreDesc_length]
      simpa using hlen
    obtain ⟨g, hg⟩ := jsGet_lt (sortByScoreDesc inds) (j : Int) (by omega)
      (by rw [hslen]; exact_mod_cast hjlt)
    rw [hg]
    exact ⟨g, rfl⟩

/-- Claim C8 (amended): `getParent()` can only ever hand back a member of the
current population, under any strategy; and it does hand one back — rather
than failing on an `undefined` dereference — whenever the population has at
least 2 members under POWER (with a positive power), at least 1 member under
FITNESS_PROPORTIONATE, and at least 1 member with a tournament size between
1 and popsize under TOURNAMENT, the `Math.random()` draws lying in [0, 1). -/
theorem claim_C8_getParent_membership :
    (∀ (nt : Neat) (o : POr) (g : Network),
      nt.getParent o = Except.ok g → g ∈ nt.population) ∧
    (∀ (nt : Neat) (o : POr),
      (∀ g ∈ nt.population, g.score.isSome = true) →
      o.r.unit → o.fb.unit →
      (match nt.selection with
        | Selection.POWER power => 2 ≤ nt.population.length ∧ power ≠ 0
        | Selection.FITNESS_PROPORTIONATE => 1 ≤ nt.population.length
        | Selection.TOURNAMENT size prob => 1 ≤ nt.population.length ∧ 1 ≤ size ∧
            size ≤ nt.popsize ∧ ∀ i, i < size → (o.tSample i).unit) →
      ∃ g, nt.getParent o = Except.ok g) :=
  ⟨fun nt o g h => getParent_mem nt o g h,
   fun nt o _ hr hfb hsel => getParent_total nt o hr hfb hsel⟩

/-- Claim C8 counterexample: on a fully evaluated single-genome population
the POWER strategy does not return a member: `this.population[1].score`
dereferences `undefined` and throws. -/
theorem claim_C8_counterexample :
    (∀ g ∈ neatP1.population, g.score.isSome = true) ∧
    neatP1.getParent pOr1 =
      Except.error "TypeError: cannot read score of undefined" := by
  constructor
  · decide
  · rfl

/-- Claim C8 witness: on the evaluated two-genome POWER population the
selected parent is a member. -/
theorem claim_C8_getParent_membership_witness :
    gP2 ∈ neatP2.population ∧ ∃ g, neatP2.getParent pOr1 = Except.ok g :=
  ⟨claim_C8_getParent_membership.1 neatP2 pOr1 gP2 (by rfl),
   claim_C8_getParent_membership.2 neatP2 pOr1 (by decide) (by decide) (by decide)
     (by exact ⟨by decide, by decide⟩)⟩

/-
  Population bookkeeping of `evolve()` (claim C6).
-/

theorem mapM_length {α β : Type} (f : α → Except String β) :
    ∀ (l : List α) (out : List β), l.mapM f = Except.ok out → out.length = l.length
  | [], out, h => by
    simp only [List.mapM_nil] at h
    rw [exceptPureEq] at h
    simp only [Except.ok.injEq] at h
    subst h
    rfl
  | a :: l, out, h => by
    rw [List.mapM_cons] at h
    cases hf : f a with
    | error e =>
      rw [hf, exceptErrBind] at h
      exact absurd h (by simp)
    | ok b =>
      rw [hf, exceptOkBind] at h
      cases hm : l.mapM f with
      | error e =>
        rw [hm, exceptErrBind] at h
        exact absurd h (by simp)
      | ok bs =>
        rw [hm, exceptOkBind] at h
        rw [exceptPureEq] at h
        simp only [Except.ok.injEq] at h
        subst h
        simp only [List.length_cons, mapM_length f l bs hm]

theorem jsget_fold_length (pop : List Network) :
    ∀ (idxs : List Nat) (acc out : List Network),
      (idxs.foldlM (fun (acc : List Network) (i : Nat) =>
        match jsGet pop (i : Int) with
        | some g => pure (acc ++ [g])
        | none => Except.error "TypeError: undefined genome") acc) = Except.ok out →
      out.length = acc.length + idxs.length
  | [], acc, out, h => by
    simp only [List.foldlM_nil] at h
    rw [exceptPureEq] at h
    simp only [Except.ok.injEq] at h
    subst h
    simp
  | i :: idxs, acc, out, h => by
    rw [List.foldlM_cons] at h
    cases hj : jsGet pop (i : Int) with
    | none =>
      rw [hj] at h
      try dsimp only at h
      rw [exceptErrBind] at h
      exact absurd h (by simp)
    | some g =>
      rw [hj] at h
      try dsimp only at h
      rw [exceptPureEq, exceptOkBind] at h
      have := jsget_fold_length pop idxs (acc ++ [g]) out h
      simp only [List.length_append, List.length_singleton, List.length_cons,
        List.length_nil] at this ⊢
      omega

theorem append_foldM_length (f : Nat → Except String Network) :
    ∀ (idxs : List Nat) (acc out : List Network),
      (idxs.foldlM (fun (acc : List Network) i => do
        let off ← f i
        pure (acc ++ [off])) acc) = Except.ok out →
      out.length = acc.length + idxs.length
  | [], acc, out, h => by
    simp only [List.foldlM_nil] at h
    rw [exceptPureEq] at h
    simp only [Except.ok.injEq] at h
    subst h
    simp
  | i :: idxs, acc, out, h => by
    rw [List.foldlM_cons] at h
    cases hf : f i with
    | error e =>
      rw [hf, exceptErrBind, exceptErrBind] at h
      exact absurd h (by simp)
    | ok off =>
      rw [hf, exceptOkBind] at h
      rw [exceptPureEq, exceptOkBind] at h
      have := append_foldM_length f idxs (acc ++ [off]) out h
      simp only [List.length_append, List.length_singleton, List.length_cons,
        List.length_nil] at this ⊢
      omega

theorem mutatePop_facts (nt : Neat) (o : NMRnd) (s : Neat)
    (h : nt.mutatePop o = Except.ok s) :
    s.population.length = nt.population.length ∧ s.generation = nt.generation ∧
    s.popsize = nt.popsize := by
  unfold Neat.mutatePop at h
  obtain ⟨pop, hmap, h⟩ := exceptBindOk h
  rw [exceptPureEq] at h
  simp only [Except.ok.injEq] at h
  subst h
  refine ⟨?_, rfl, rfl⟩
  have := mapM_length _ _ _ hmap
  simpa using this

/-- Claim C6: whenever one `evolve()` call completes (the source itself
rejects elitism + provenance > popsize), the new population again has
exactly `popsize` members — `popsize - elitism - provenance` bred offspring,
`provenance` template clones and the `elitism` copied elites — and the
generation counter advances by exactly 1. -/
theorem claim_C6_evolve (nt : Neat) (fitness : Network → JNum) (o : EvolveRnd)
    (s : Neat) (f : Network)
    (h : nt.evolve fitness o = Except.ok (s, f)) :
    s.population.length = nt.popsize ∧ s.generation = nt.generation + 1 := by
  unfold Neat.evolve at h
  by_cases hguard : nt.elitism + nt.provenance > nt.popsize
  · rw [if_pos hguard] at h
    exact absurd h (by simp)
  rw [if_neg hguard] at h
  cases hlast : nt.population.getLast? with
  | none =>
    rw [hlast] at h
    exact absurd h (by simp)
  | some last =>
    rw [hlast] at h
    try dsimp only at h
    have hPop : ((if last.score.isNone = true then nt.evaluate fitness
        else nt).sortPop).popsize = nt.popsize := by
      simp only [Neat.sortPop]
      rw [apply_ite Neat.popsize]
      simp [Neat.evaluate]
    have hEli : ((if last.score.isNone = true then nt.evaluate fitness
        else nt).sortPop).elitism = nt.elitism := by
      simp only [Neat.sortPop]
      rw [apply_ite Neat.elitism]
      simp [Neat.evaluate]
    have hProv : ((if last.score.isNone = true then nt.evaluate fitness
        else nt).sortPop).provenance = nt.provenance := by
      simp only [Neat.sortPop]
      rw [apply_ite Neat.provenance]
      simp [Neat.evaluate]
    have hGen : ((if last.score.isNone = true then nt.evaluate fitness
        else nt).sortPop).generation = nt.generation := by
      simp only [Neat.sortPop]
      rw [apply_ite Neat.generation]
      simp [Neat.evaluate]
    obtain ⟨elitists, hel, h⟩ := exceptBindOk h
    try dsimp only at h
    obtain ⟨provClone, hpc, h⟩ := exceptBindOk h
    try dsimp only at h
    obtain ⟨newPop, hnp, h⟩ := exceptBindOk h
    try dsimp only at h
    obtain ⟨nt4, hmp, h⟩ := exceptBindOk h
    try dsimp only at h
    split at h
    · exact absurd h (by simp)
    · rename_i top hhead
      obtain ⟨fb, hfb2, h⟩ := exceptBindOk h
      try dsimp only at h
      simp only [Except.ok.injEq, Prod.mk.injEq] at h
      obtain ⟨hs, hf⟩ := h
      subst hs
      have hellen : elitists.length = nt.elitism := by
        have h2 := jsget_fold_length _ _ _ _ hel
        simp only [List.length_nil, List.length_range] at h2
        rw [hEli] at h2
        omega
      have hnewlen : newPop.length =
          nt.provenance + (nt.popsize - nt.elitism - nt.provenance) := by
        have h2 := append_foldM_length _ _ _ _ hnp
        simp only [List.length_replicate, List.length_range] at h2
        rw [hProv, hEli, hPop] at h2
        exact h2
      have hmpf := mutatePop_facts _ _ _ hmp
      have h4len : nt4.population.length = newPop.length := hmpf.1
      have h4gen : nt4.generation = nt.generation := by
        have h2 := hmpf.2.1
        dsimp only at h2
        rw [hGen] at h2
        exact h2
      constructor
      · show (List.map _ _).length = nt.popsize
        simp only [List.length_map, Neat.sortPop, Neat.evaluate,
          sortByScoreDesc_length, List.length_append]
        rw [h4len, hnewlen, hellen]
        omega
      · show _ + 1 = nt.generation + 1
        simp only [Neat.sortPop, Neat.evaluate]
        rw [h4gen]

/-- Claim C6 witness: one `evolve()` call on the popsize-10, elitism-2,
provenance-0 manager returns a population of exactly 10 and generation 1. -/
theorem claim_C6_evolve_witness :
    neatE.evolve (fun _ => ⟨1, 1⟩) evOr = Except.ok evolveRes ∧
    evolveRes.1.population.length = neatE.popsize ∧
    evolveRes.1.generation = neatE.generation + 1 :=
  ⟨by rfl, claim_C6_evolve neatE (fun _ => ⟨1, 1⟩) evOr evolveRes.1 evolveRes.2 (by rfl)⟩

/-
  Self-crossover (claim C5): innovation-id alignment.
-/

theorem tri_succ (s : Int) : (s + 1) * (s + 1 + 1) / 2 = s * (s + 1) / 2 + (s + 1) := by
  have h1 : (s + 1) * (s + 1 + 1) = s * (s + 1) + (s + 1) * 2 := by ring
  rw [h1, Int.add_mul_ediv_right _ _ (by omega : (2 : Int) ≠ 0)]

theorem tri_mono (s t : Int) (hs : 0 ≤ s) (hst : s ≤ t) :
    s * (s + 1) / 2 ≤ t * (t + 1) / 2 := by
  apply Int.ediv_le_ediv (by omega)
  have h1 : s * (s + 1) ≤ t * (s + 1) := by
    apply Int.mul_le_mul_of_nonneg_right hst
    omega
  have h2 : t * (s + 1) ≤ t * (t + 1) := by
    apply Int.mul_le_mul_of_nonneg_left
    · omega
    · omega
  omega

theorem innovationID_inj (a b a2 b2 : Int) (ha : 0 ≤ a) (hb : 0 ≤ b)
    (ha2 : 0 ≤ a2) (hb2 : 0 ≤ b2)
    (h : Connection.innovationID a b = Connection.innovationID a2 b2) :
    a = a2 ∧ b = b2 := by
  unfold Connection.innovationID at h
  have key : a + b = a2 + b2 := by
    by_contra hne
    rcases lt_or_gt_of_ne hne with hlt | hgt
    · have h1 : (a + b) * (a + b + 1) / 2 + b < (a + b + 1) * (a + b + 1 + 1) / 2 := by
        rw [tri_succ]
        omega
      have h2 : (a + b + 1) * (a + b + 1 + 1) / 2 ≤ (a2 + b2) * (a2 + b2 + 1) / 2 :=
        tri_mono _ _ (by omega) (by omega)
      omega
    · have h1 : (a2 + b2) * (a2 + b2 + 1) / 2 + b2 < (a2 + b2 + 1) * (a2 + b2 + 1 + 1) / 2 := by
        rw [tri_succ]
        omega
      have h2 : (a2 + b2 + 1) * (a2 + b2 + 1 + 1) / 2 ≤ (a + b) * (a + b + 1) / 2 :=
        tri_mono _ _ (by omega) (by omega)
      omega
  rw [key] at h
  constructor
  · omega
  · omega

theorem jsIndexOfId_live (l : List NNode) (id : Nat) (h : id ∈ l.map NNode.id) :
    ∃ p : Nat, jsIndexOfId l id = (p : Int) ∧
      ∃ (hp : p < l.length), (l.get ⟨p, hp⟩).id = id := by
  obtain ⟨p, hfi, hp, hpid⟩ := nodeIdx_found l id h
  exact ⟨p, jsIndexOfId_found l id p hfi, hp, hpid⟩

theorem jsIndexOfId_inj_live (l : List NNode) (id1 id2 : Nat)
    (h1 : id1 ∈ l.map NNode.id) (h2 : id2 ∈ l.map NNode.id)
    (h : jsIndexOfId l id1 = jsIndexOfId l id2) : id1 = id2 := by
  obtain ⟨p1, hp1, hl1, hid1⟩ := jsIndexOfId_live l id1 h1
  obtain ⟨p2, hp2, hl2, hid2⟩ := jsIndexOfId_live l id2 h2
  rw [hp1, hp2] at h
  have hpp : p1 = p2 := by omega
  subst hpp
  rw [← hid1, ← hid2]

theorem dictInsert_perm (d : List (Int × ConnData)) (k : Int) (v : ConnData)
    (hk : k ∉ d.map Prod.fst) :
    List.Perm (dictInsert d k v) ((k, v) :: d) := by
  induction d with
  | nil => exact List.Perm.refl _
  | cons p rest ih =>
    obtain ⟨k0, v0⟩ := p
    rw [List.map_cons, List.mem_cons] at hk
    push_neg at hk
    unfold dictInsert
    by_cases hlt : k < k0
    · rw [if_pos hlt]
    · rw [if_neg hlt, if_neg (by simpa using hk.1)]
      exact List.Perm.trans (List.Perm.cons _ (ih hk.2)) (List.Perm.swap _ _ _)

theorem geneFold (net : Network) :
    ∀ (cs : List Conn) (d : List (Int × ConnData)),
      (d.map Prod.fst ++ cs.map (fun c =>
        Connection.innovationID (connData net.nodes c).fromI
          (connData net.nodes c).toI)).Nodup →
      List.Perm
        (cs.foldl (fun d c =>
          let data := connData net.nodes c
          dictInsert d (Connection.innovationID data.fromI data.toI) data) d)
        (d ++ cs.map (fun c =>
          (Connection.innovationID (connData net.nodes c).fromI
            (connData net.nodes c).toI, connData net.nodes c))) := by
  intro cs
  induction cs with
  | nil => intro d h; simp
  | cons c rest ih =>
    intro d h
    rw [List.foldl_cons]
    dsimp only
    rw [List.map_cons] at h
    have hdisj := (List.nodup_append.mp h).2.2
    have hk : Connection.innovationID (connData net.nodes c).fromI
        (connData net.nodes c).toI ∉ d.map Prod.fst := by
      intro hmem
      exact hdisj hmem (List.mem_cons_self _ _)
    have hins := dictInsert_perm d _ (connData net.nodes c) hk
    have hkeys := List.Perm.map Prod.fst hins
    have hnew : ((dictInsert d (Connection.innovationID (connData net.nodes c).fromI
          (connData net.nodes c).toI) (connData net.nodes c)).map Prod.fst ++
        rest.map (fun c => Connection.innovationID (connData net.nodes c).fromI
          (connData net.nodes c).toI)).Nodup := by
      refine List.Perm.nodup (List.Perm.trans List.perm_middle ?_) h
      exact List.Perm.append_right _ (List.Perm.symm hkeys)
    have hrec := ih _ hnew
    apply List.Perm.trans hrec
    apply List.Perm.trans (List.Perm.append_right _ hins)
    rw [List.map_cons]
    exact List.Perm.symm List.perm_middle

theorem geneDict_perm (net : Network)
    (hnd : (net.allConns.map (fun c =>
      Connection.innovationID (connData net.nodes c).fromI
        (connData net.nodes c).toI)).Nodup) :
    List.Perm (geneDict net)
      (net.allConns.map (fun c =>
        (Connection.innovationID (connData net.nodes c).fromI
          (connData net.nodes c).toI, connData net.nodes c))) := by
  have h := geneFold net net.allConns [] (by simpa using hnd)
  rw [List.nil_append] at h
  unfold Network.allConns at h
  exact h

theorem geneKeys_nodup (net : Network)
    (hlive : ∀ c ∈ net.allConns, net.connEndsLive c)
    (hpairs : net.connPairs.Nodup) :
    (net.allConns.map (fun c =>
      Connection.innovationID (connData net.nodes c).fromI
        (connData net.nodes c).toI)).Nodup := by
  have hmap : net.allConns.map (fun c =>
      Connection.innovationID (connData net.nodes c).fromI
        (connData net.nodes c).toI)
      = net.connPairs.map (fun p =>
          Connection.innovationID (jsIndexOfId net.nodes p.1)
            (jsIndexOfId net.nodes p.2)) := by
    unfold Network.connPairs
    rw [List.map_map]
    rfl
  rw [hmap]
  apply List.Nodup.map_on _ hpairs
  intro x hx y hy hxy
  unfold Network.connPairs at hx hy
  rw [List.mem_map] at hx hy
  obtain ⟨cx, hcx, hcxe⟩ := hx
  obtain ⟨cy, hcy, hcye⟩ := hy
  obtain ⟨hfx, htx, -⟩ := hlive cx hcx
  obtain ⟨hfy, hty, -⟩ := hlive cy hcy
  unfold Network.hasId Network.nodeIds at hfx htx hfy hty
  subst hcxe
  subst hcye
  dsimp only at hxy ⊢
  obtain ⟨pfx, hpfx, -⟩ := jsIndexOfId_live net.nodes cx.fromId hfx
  obtain ⟨ptx, hptx, -⟩ := jsIndexOfId_live net.nodes cx.toId htx
  obtain ⟨pfy, hpfy, -⟩ := jsIndexOfId_live net.nodes cy.fromId hfy
  obtain ⟨pty, hpty, -⟩ := jsIndexOfId_live net.nodes cy.toId hty
  obtain ⟨h1, h2⟩ := innovationID_inj _ _ _ _
    (by rw [hpfx]; exact Int.natCast_nonneg pfx)
    (by rw [hptx]; exact Int.natCast_nonneg ptx)
    (by rw [hpfy]; exact Int.natCast_nonneg pfy)
    (by rw [hpty]; exact Int.natCast_nonneg pty) hxy
  have hfe := jsIndexOfId_inj_live net.nodes cx.fromId cy.fromId hfx hfy h1
  have hte := jsIndexOfId_inj_live net.nodes cx.toId cy.toId htx hty h2
  rw [hfe, hte]

theorem dictLookup_self (d : List (Int × ConnData)) (k : Int) (v : ConnData)
    (hnd : (d.map Prod.fst).Nodup) (hmem : (k, v) ∈ d) :
    dictLookup d k = some v := by
  induction d with
  | nil => cases hmem
  | cons p rest ih =>
    rw [List.map_cons] at hnd
    unfold dictLookup
    by_cases he : p.1 = k
    · rw [List.find?_cons_of_pos _ (by simpa using he)]
      rcases List.mem_cons.mp hmem with h1 | h1
      · rw [← h1]
      · exfalso
        have hkin : k ∈ rest.map Prod.fst := by
          have := List.mem_map_of_mem Prod.fst h1
          exact this
        rw [← he] at hkin
        exact (List.nodup_cons.mp hnd).1 hkin
    · rw [List.find?_cons_of_neg _ (by simpa using he)]
      have hmem2 : (k, v) ∈ rest := by
        rcases List.mem_cons.mp hmem with h1 | h1
        · exfalso
          apply he
          rw [← h1]
        · exact h1
      have := ih (List.nodup_cons.mp hnd).2 hmem2
      unfold dictLookup at this
      exact this

theorem markedDict_nil (d : List (Int × ConnData)) :
    markedDict d [] = d.map (fun p => (p.1, some p.2)) := by
  unfold markedDict
  apply List.map_congr_left
  intro p hp
  simp

theorem markedDict_mark (d : List (Int × ConnData)) (done : List Int) (k : Int) :
    dictMark (markedDict d done) k = markedDict d (k :: done) := by
  unfold dictMark markedDict
  rw [List.map_map]
  apply List.map_congr_left
  intro p hp
  dsimp only [Function.comp]
  by_cases hk : p.1 = k
  · simp [hk]
  · simp [hk, List.mem_cons]

theorem markedDict_lookup (d : List (Int × ConnData)) (done : List Int)
    (k : Int) (v : ConnData) (hnd : (d.map Prod.fst).Nodup)
    (hmem : (k, v) ∈ d) (hdone : k ∉ done) :
    dictLookup (markedDict d done) k = some (some v) := by
  induction d with
  | nil => cases hmem
  | cons p rest ih =>
    rw [List.map_cons] at hnd
    have hm : markedDict (p :: rest) done
        = (p.1, if p.1 ∈ done then none else some p.2) :: markedDict rest done := rfl
    rw [hm]
    unfold dictLookup
    by_cases he : p.1 = k
    · rw [List.find?_cons_of_pos _ (by simpa using he)]
      rcases List.mem_cons.mp hmem with h1 | h1
      · rw [← h1] at he ⊢
        dsimp only
        rw [if_neg (by simpa [he] using hdone)]
      · exfalso
        have hkin : k ∈ rest.map Prod.fst := List.mem_map_of_mem Prod.fst h1
        rw [← he] at hkin
        exact (List.nodup_cons.mp hnd).1 hkin
    · rw [List.find?_cons_of_neg _ (by simpa using he)]
      have hmem2 : (k, v) ∈ rest := by
        rcases List.mem_cons.mp hmem with h1 | h1
        · exact absurd (by rw [← h1]) he
        · exact h1
      have := ih (List.nodup_cons.mp hnd).2 hmem2
      unfold dictLookup at this
      exact this

theorem marked_keep2 (d : List (Int × ConnData)) (done : List Int)
    (hall : ∀ p ∈ d, p.1 ∈ done) :
    ∀ (cs : List ConnData),
      (markedDict d done).foldl (fun cs p =>
        match p.2 with
        | some v => cs ++ [v]
        | none => cs) cs = cs := by
  induction d with
  | nil => intro cs; rfl
  | cons p rest ih =>
    intro cs
    have hm : markedDict (p :: rest) done
        = (p.1, if p.1 ∈ done then none else some p.2) :: markedDict rest done := rfl
    rw [hm, List.foldl_cons, if_pos (hall p (List.mem_cons_self p rest))]
    exact ih (fun q hq => hall q (List.mem_cons_of_mem p hq)) cs

theorem xo_walk (n1 : List (Int × ConnData)) (keep1 : Bool) (coin : Nat → JNum)
    (hnd : (n1.map Prod.fst).Nodup) :
    ∀ (ps : List (Nat × Int)) (done : List Int) (cs : List ConnData),
      (∀ p ∈ ps, p.2 ∈ n1.map Prod.fst ∧ p.2 ∉ done) →
      ((ps.map Prod.snd).Nodup) →
      ps.foldl
        (fun (acc : List ConnData × List (Int × Option ConnData)) p =>
          let (i, k) := p
          let (cs, d2) := acc
          match dictLookup d2 k with
          | some (some v2) =>
            let v1 := (dictLookup n1 k).getD junkData
            let chosen := if JNum.le ⟨1, 2⟩ (coin i) then v1 else v2
            (cs ++ [chosen], dictMark d2 k)
          | _ =>
            if keep1 then (cs ++ [(dictLookup n1 k).getD junkData], d2) else (cs, d2))
        (cs, markedDict n1 done)
      = (cs ++ ps.map (fun p => (dictLookup n1 p.2).getD junkData),
         markedDict n1 ((ps.map Prod.snd).reverse ++ done)) := by
  intro ps
  induction ps with
  | nil =>
    intro done cs hmem hnd2
    simp
  | cons p rest ih =>
    obtain ⟨i, k⟩ := p
    intro done cs hmem hnd2
    obtain ⟨hk1, hk2⟩ := hmem (i, k) (List.mem_cons_self _ _)
    have hk1 : k ∈ n1.map Prod.fst := hk1
    have hk2 : k ∉ done := hk2
    obtain ⟨q, hq, hqk⟩ := List.mem_map.mp hk1
    have hkv : (k, q.2) ∈ n1 := by
      rw [← hqk]
      exact hq
    have hlook := markedDict_lookup n1 done k q.2 hnd hkv hk2
    have hself := dictLookup_self n1 k q.2 hnd hkv
    rw [List.foldl_cons]
    conv_lhs =>
      arg 2
      dsimp only
      rw [hlook]
      dsimp only
      rw [hself]
      dsimp only [Option.getD]
      rw [ite_self, markedDict_mark]
    have hnd2 : (k :: rest.map Prod.snd).Nodup := by simpa using hnd2
    have htail : ∀ p ∈ rest, p.2 ∈ n1.map Prod.fst ∧ p.2 ∉ k :: done := by
      intro p hp
      obtain ⟨hp1, hp2⟩ := hmem p (List.mem_cons_of_mem _ hp)
      refine ⟨hp1, ?_⟩
      intro hmemc
      rcases List.mem_cons.mp hmemc with h1 | h1
      · apply (List.nodup_cons.mp hnd2).1
        rw [← h1]
        exact List.mem_map_of_mem Prod.snd hp
      · exact hp2 h1
    rw [ih (k :: done) (cs ++ [q.2]) htail (List.nodup_cons.mp hnd2).2]
    simp only [List.map_cons, List.reverse_cons, List.append_assoc,
      List.singleton_append]
    rw [hself]
    dsimp only [Option.getD]

theorem enum_map_g_snd {α β : Type} (l : List α) (g : α → β) :
    l.enum.map (fun p => g p.2) = l.map g := by
  have h1 : (fun (p : Nat × α) => g p.2) = g ∘ Prod.snd := rfl
  rw [h1, ← List.map_map, List.enum_map_snd]

theorem crossGenes_self (n1 : List (Int × ConnData)) (keep1 keep2 : Bool)
    (coin : Nat → JNum) (hnd : (n1.map Prod.fst).Nodup) :
    crossGenes n1 (n1.map (fun p => (p.1, some p.2))) keep1 keep2 coin
      = n1.reverse.map Prod.snd := by
  unfold crossGenes
  rw [← markedDict_nil n1]
  dsimp only
  rw [xo_walk n1 keep1 coin hnd ((n1.map Prod.fst).reverse.enum) [] []
    (by
      intro p hp
      refine ⟨?_, by simp⟩
      have hin : p.2 ∈ ((n1.map Prod.fst).reverse.enum).map Prod.snd :=
        List.mem_map_of_mem Prod.snd hp
      rw [List.enum_map_snd] at hin
      exact List.mem_reverse.mp hin)
    (by
      rw [List.enum_map_snd]
      exact List.nodup_reverse.mpr hnd)]
  dsimp only
  rw [List.enum_map_snd, List.reverse_reverse, List.append_nil]
  have htail : ([] : List ConnData) ++ ((n1.map Prod.fst).reverse.enum).map
      (fun p => (dictLookup n1 p.2).getD junkData) = n1.reverse.map Prod.snd := by
    rw [List.nil_append,
      enum_map_g_snd ((n1.map Prod.fst).reverse)
        (fun k => (dictLookup n1 k).getD junkData),
      ← List.map_reverse, List.map_map]
    apply List.map_congr_left
    intro q hq
    have hq2 : q ∈ n1 := List.mem_reverse.mp hq
    have : (q.1, q.2) ∈ n1 := hq2
    rw [Function.comp_apply, dictLookup_self n1 q.1 q.2 hnd this]
    rfl
  cases keep2 with
  | false =>
    rw [if_neg (by simp)]
    exact htail
  | true =>
    rw [if_pos rfl]
    rw [marked_keep2 n1 (n1.map Prod.fst)
      (fun p hp => List.mem_map_of_mem Prod.fst hp)]
    exact htail

theorem xoNodes_map_id (l : List NNode) :
    ∀ (is : List Nat) (base : Nat),
      (xoNodes l is base).map NNode.id
        = (List.range is.length).map (fun j => base + j) := by
  intro is
  induction is with
  | nil => intro base; rfl
  | cons i rest ih =>
    intro base
    have hx : xoNodes l (i :: rest) base
        = (match l.get? i with
           | some n => { NNode.new base NodeType.hidden n.bias with
                         type := n.type, squash := n.squash }
           | none => NNode.new base NodeType.hidden ⟨0, 1⟩) :: xoNodes l rest (base + 1) := rfl
    have hid : (match l.get? i with
           | some n => { NNode.new base NodeType.hidden n.bias with
                         type := n.type, squash := n.squash }
           | none => NNode.new base NodeType.hidden ⟨0, 1⟩).id = base := by
      cases l.get? i <;> rfl
    rw [hx, List.map_cons, ih (base + 1), hid, List.length_cons,
      List.range_succ_eq_map, List.map_cons, List.map_map]
    refine congrArg₂ List.cons (by omega) ?_
    apply List.map_congr_left
    intro j hj
    dsimp only [Function.comp]
    omega

theorem xoNodes_length (l : List NNode) (is : List Nat) (base : Nat) :
    (xoNodes l is base).length = is.length := by
  have h := congrArg List.length (xoNodes_map_id l is base)
  simpa using h

theorem xo_node_fold (netp : Network) (o : XORnd) (sz : Nat) (os : Int)
    (hsz : sz = netp.nodes.length) :
    ∀ (is : List Nat) (acc : Network),
      (∀ i ∈ is, i < sz) →
      is.foldlM (fun (acc : Network) (i : Nat) => do
        let chosen : Option NNode :=
          if (i : Int) < (sz : Int) - os then
            let r := o.nodeCoin i
            let node := if JNum.le ⟨1, 2⟩ r then jsGet netp.nodes i
                        else jsGet netp.nodes i
            let other := if JNum.le ⟨1, 2⟩ r then jsGet netp.nodes i
                         else jsGet netp.nodes i
            match node with
            | none => other
            | some n => if n.type = NodeType.output then other else some n
          else
            if JNum.le ⟨1, 2⟩ (o.nodeCoin i) then
              jsGet netp.nodes ((netp.nodes.length : Int) + i - sz)
            else
              jsGet netp.nodes ((netp.nodes.length : Int) + i - sz)
        match chosen with
        | none => Except.error "TypeError: undefined node"
        | some n =>
          let newNode := { NNode.new acc.fresh NodeType.hidden n.bias with
                           type := n.type, squash := n.squash }
          pure { acc with nodes := acc.nodes ++ [newNode], fresh := acc.fresh + 1 })
        acc
      = Except.ok { acc with
                    nodes := acc.nodes ++ xoNodes netp.nodes is acc.fresh,
                    fresh := acc.fresh + is.length } := by
  intro is
  induction is with
  | nil =>
    intro acc hb
    show Except.ok acc = _
    have h1 : xoNodes netp.nodes [] acc.fresh = [] := rfl
    rw [h1, List.append_nil, List.length_nil, Nat.add_zero]
  | cons i rest ih =>
    intro acc hb
    have hi : i < netp.nodes.length := by
      have := hb i (List.mem_cons_self _ _)
      omega
    have hjs : jsGet netp.nodes (i : Int) = some (netp.nodes.get ⟨i, hi⟩) := by
      rw [jsGet_of_nonneg _ _ (Int.natCast_nonneg i)]
      rw [Int.toNat_natCast]
      exact List.get?_eq_get hi
    have harith : (netp.nodes.length : Int) + (i : Int) - (sz : Int) = (i : Int) := by
      rw [hsz]; omega
    rw [List.foldlM_cons]
    conv_lhs =>
      arg 1
      dsimp only
      rw [harith]
      rw [hjs]
      rw [ite_self]
      dsimp only
      rw [ite_self]
      rw [ite_self]
      dsimp only
      rw [exceptPureEq]
    rw [exceptOkBind]
    rw [ih _ (fun j hj => hb j (List.mem_cons_of_mem _ hj))]
    have hxo : xoNodes netp.nodes (i :: rest) acc.fresh
        = { NNode.new acc.fresh NodeType.hidden (netp.nodes.get ⟨i, hi⟩).bias with
            type := (netp.nodes.get ⟨i, hi⟩).type,
            squash := (netp.nodes.get ⟨i, hi⟩).squash }
          :: xoNodes netp.nodes rest (acc.fresh + 1) := by
      show (match netp.nodes.get? i with
           | some n => { NNode.new acc.fresh NodeType.hidden n.bias with
                         type := n.type, squash := n.squash }
           | none => NNode.new acc.fresh NodeType.hidden ⟨0, 1⟩)
            :: xoNodes netp.nodes rest (acc.fresh + 1) = _
      rw [List.get?_eq_get hi]
    rw [hxo]
    dsimp only
    simp only [List.length_cons]
    rw [List.append_assoc, List.singleton_append, Nat.add_assoc,
      Nat.add_comm 1 rest.length]

theorem xo_size_self (r : JNum) (len : Nat) (hr : r.unit) :
    ((r * JNum.ofInt ((len : Int) - (len : Int) + 1) + JNum.ofInt (len : Int)).floorI).toNat
      = len := by
  obtain ⟨h0, h1⟩ := hr
  have hX : (len : Int) - (len : Int) + 1 = 1 := by omega
  rw [hX]
  show (((r.mul (JNum.ofInt 1)).add (JNum.ofInt (len : Int))).floorI).toNat = len
  unfold JNum.mul JNum.add JNum.ofInt JNum.floorI
  dsimp only
  simp only [Nat.cast_one, mul_one, Nat.mul_one]
  rw [Int.fdiv_eq_ediv _ (by omega)]
  rw [Int.add_mul_ediv_right _ _ (by omega : ((r.den : Nat) : Int) ≠ 0)]
  rw [Int.ediv_eq_zero_of_lt h0 h1]
  omega

theorem consec_jsGet (nodesL : List NNode) (idBase len : Nat)
    (hids : nodesL.map NNode.id = (List.range len).map (fun j => idBase + j))
    (t : Nat) (ht : t < len) :
    ∃ nd, jsGet nodesL (t : Int) = some nd ∧ nd.id = idBase + t := by
  have hlen : nodesL.length = len := by
    have h := congrArg List.length hids
    simpa using h
  have ht2 : t < nodesL.length := by omega
  refine ⟨nodesL.get ⟨t, ht2⟩, ?_, ?_⟩
  · rw [jsGet_of_nonneg _ _ (Int.natCast_nonneg t), Int.toNat_natCast]
    exact List.get?_eq_get ht2
  · have h1 : (nodesL.map NNode.id)[t]?
        = ((List.range len).map (fun j => idBase + j))[t]? := by rw [hids]
    rw [List.getElem?_map, List.getElem?_map, List.getElem?_range ht,
      List.getElem?_eq_getElem ht2] at h1
    simp only [Option.map_some'] at h1
    have h2 := Option.some.inj h1
    rw [List.get_eq_getElem]
    exact h2

theorem jsIndexOfId_consec (nodesL : List NNode) (idBase len : Nat)
    (hids : nodesL.map NNode.id = (List.range len).map (fun j => idBase + j))
    (t : Nat) (ht : t < len) :
    jsIndexOfId nodesL (idBase + t) = (t : Int) := by
  have hlen : nodesL.length = len := by
    have h := congrArg List.length hids
    simpa using h
  have hid : ∀ (j : Nat) (hj : j < nodesL.length), (nodesL.get ⟨j, hj⟩).id = idBase + j := by
    intro j hj
    obtain ⟨nd, hnd, hndid⟩ := consec_jsGet nodesL idBase len hids j (by omega)
    rw [jsGet_of_nonneg _ _ (Int.natCast_nonneg j), Int.toNat_natCast,
      List.get?_eq_get hj] at hnd
    rw [Option.some.inj hnd, hndid]
  have hfi : nodesL.findIdx? (fun n => n.id == idBase + t) = some t := by
    apply List.findIdx?_eq_some_iff_getElem.mpr
    refine ⟨by omega, ?_, ?_⟩
    · have := hid t (by omega)
      rw [List.get_eq_getElem] at this
      simp [this]
    · intro j hj
      have := hid j (by omega)
      rw [List.get_eq_getElem] at this
      simp only [this]
      simp
      omega
  exact jsIndexOfId_found nodesL (idBase + t) t hfi

theorem connect_self_fresh (net : Network) (a : Nat)
    (hnone : net.selfConnOf a = none) :
    net.connect a a ⟨0, 1⟩ = Except.ok
      ({ net with selfconns := net.selfconns ++ [⟨net.fresh, a, a, ⟨1, 1⟩, none⟩],
                  fresh := net.fresh + 1 }, net.fresh) := by
  unfold Network.connect
  rw [if_pos (show (a == a) = true by simp), hnone]
  rfl

theorem find?_unique {p : Conn → Bool} {L : List Conn} {c : Conn}
    (hc : c ∈ L) (hpc : p c = true) (huniq : ∀ a ∈ L, p a = true → a = c) :
    L.find? p = some c := by
  induction L with
  | nil => cases hc
  | cons a rest ih =>
    by_cases hpa : p a = true
    · rw [List.find?_cons_of_pos _ hpa, huniq a (List.mem_cons_self _ _) hpa]
    · rw [List.find?_cons_of_neg _ (by simpa using hpa)]
      have hc2 : c ∈ rest := by
        rcases List.mem_cons.mp hc with h | h
        · exfalso; apply hpa; rw [← h]; exact hpc
        · exact h
      exact ih hc2 (fun x hx hpx => huniq x (List.mem_cons_of_mem _ hx) hpx)

theorem map_upd_comp {β : Type} (l : List Conn) (p : Conn → Bool) (f : Conn → Conn)
    (g : Conn → β) (hfg : ∀ c, g (f c) = g c) :
    (l.map (fun c => if p c then f c else c)).map g = l.map g := by
  rw [List.map_map]
  apply List.map_congr_left
  intro a ha
  dsimp only [Function.comp]
  split
  · exact hfg a
  · rfl

theorem map_upd_id (l : List Conn) (p : Conn → Bool) (f : Conn → Conn)
    (h : ∀ a ∈ l, p a = false) :
    l.map (fun c => if p c then f c else c) = l := by
  conv_rhs => rw [← List.map_id l]
  apply List.map_congr_left
  intro a ha
  simp [h a ha]

theorem gate_ok_shape (net : Network) (g cid : Nat)
    (hnode : ∃ n ∈ net.nodes, n.id = g)
    (c : Conn) (hfind : net.connOf cid = some c) (hgater : c.gater = none) :
    net.gate g cid = Except.ok { net with
      connections := net.connections.map
        (fun c2 => if c2.cid == cid then { c2 with gater := some g } else c2),
      selfconns := net.selfconns.map
        (fun c2 => if c2.cid == cid then { c2 with gater := some g } else c2),
      gates := net.gates ++ [cid] } := by
  obtain ⟨n, hn, hng⟩ := hnode
  have hall : net.nodes.all (fun n => n.id != g) = false := by
    apply List.all_eq_false.mpr
    exact ⟨n, hn, by simp [hng]⟩
  unfold Network.gate
  rw [if_neg (by rw [hall]; simp), hfind]
  dsimp only
  rw [hgater]
  rfl

theorem append_singleton_perm {α : Type} (A B : List α) (t : α) :
    List.Perm ((A ++ [t]) ++ B) ((A ++ B) ++ [t]) := by
  rw [List.append_assoc, List.append_assoc]
  exact List.Perm.append_left A List.perm_append_comm

theorem inst_step (nodesL : List NNode) (idBase len : Nat)
    (hids : nodesL.map NNode.id = (List.range len).map (fun j => idBase + j))
    (net : Network) (d : ConnData)
    (hnodes : net.nodes = nodesL)
    (hf0 : 0 ≤ d.fromI) (hf1 : d.fromI < (len : Int))
    (ht0 : 0 ≤ d.toI) (ht1 : d.toI < (len : Int))
    (hgd : d.gater = -1 ∨ (0 ≤ d.gater ∧ d.gater < (len : Int)))
    (hcid : ∀ c ∈ net.connections ++ net.selfconns, c.cid < net.fresh)
    (hselfp : ∀ c ∈ net.selfconns, c.fromId = c.toId)
    (hfreshd : ∀ c ∈ net.connections ++ net.selfconns,
      ¬(c.fromId = idBase + d.fromI.toNat ∧ c.toId = idBase + d.toI.toNat)) :
    ∃ net3,
      (fun (net : Network) (data : ConnData) => do
        if data.toI < (len : Int) ∧ data.fromI < (len : Int) then
          match jsGet net.nodes data.fromI, jsGet net.nodes data.toI with
          | some nf, some nt => do
            let p ← net.connect nf.id nt.id ⟨0, 1⟩
            let net2 := p.1.updateConnWeight p.2 data.weight
            if data.gater ≠ -1 ∧ data.gater < (len : Int) then
              match jsGet net2.nodes data.gater with
              | some ng => net2.gate ng.id p.2
              | none => Except.error "This node is not part of the network!"
            else pure net2
          | _, _ => Except.error "TypeError: undefined node"
        else pure net) net d = Except.ok net3 ∧
      net3.nodes = net.nodes ∧
      net3.fresh = net.fresh + 1 ∧
      (∀ c ∈ net3.connections ++ net3.selfconns, c.cid < net3.fresh) ∧
      (∀ c ∈ net3.selfconns, c.fromId = c.toId) ∧
      List.Perm ((net3.connections ++ net3.selfconns).map
          (fun c => (c.fromId, c.toId, c.weight)))
        (((net.connections ++ net.selfconns).map
            (fun c => (c.fromId, c.toId, c.weight)))
          ++ [((idBase + d.fromI.toNat : Nat), (idBase + d.toI.toNat : Nat), d.weight)]) := by
  obtain ⟨nf, hnf0, hnfid⟩ := consec_jsGet nodesL idBase len hids d.fromI.toNat (by omega)
  obtain ⟨nt, hnt0, hntid⟩ := consec_jsGet nodesL idBase len hids d.toI.toNat (by omega)
  have hfnat : ((d.fromI.toNat : Nat) : Int) = d.fromI := Int.toNat_of_nonneg hf0
  have htnat : ((d.toI.toNat : Nat) : Int) = d.toI := Int.toNat_of_nonneg ht0
  rw [hfnat] at hnf0
  rw [htnat] at hnt0
  have hnf1 : jsGet net.nodes d.fromI = some nf := by rw [hnodes]; exact hnf0
  have hnt1 : jsGet net.nodes d.toI = some nt := by rw [hnodes]; exact hnt0
  by_cases hft : d.fromI = d.toI
  · -- self connection
    have hideq : nt.id = nf.id := by rw [hnfid, hntid]; omega
    have hnone : net.selfConnOf nf.id = none := by
      unfold Network.selfConnOf
      rw [List.find?_eq_none]
      intro c hc
      simp only [beq_iff_eq]
      intro hcf
      apply hfreshd c (List.mem_append_right _ hc)
      refine ⟨by rw [hcf, hnfid], ?_⟩
      rw [hselfp c hc] at hcf
      rw [hcf, hnfid]
      omega
    have hstep0 : net.connect nf.id nt.id ⟨0, 1⟩ = Except.ok
        ({ net with
           selfconns := net.selfconns ++ [(⟨net.fresh, nf.id, nf.id, ⟨1, 1⟩, none⟩ : Conn)],
           fresh := net.fresh + 1 }, net.fresh) := by
      rw [hideq]
      exact connect_self_fresh net nf.id hnone
    have hupd : ({ net with
        selfconns := net.selfconns ++ [(⟨net.fresh, nf.id, nf.id, ⟨1, 1⟩, none⟩ : Conn)],
        fresh := net.fresh + 1 } : Network).updateConnWeight net.fresh d.weight
        = { net with
            selfconns := net.selfconns ++ [(⟨net.fresh, nf.id, nf.id, d.weight, none⟩ : Conn)],
            fresh := net.fresh + 1 } := by
      unfold Network.updateConnWeight
      dsimp only
      rw [List.map_append,
        map_upd_id net.connections (fun c => c.cid == net.fresh)
          (fun c => { c with weight := d.weight }) (fun a ha => by
            have := hcid a (List.mem_append_left _ ha)
            simp only [beq_eq_false_iff_ne, ne_eq]
            omega),
        map_upd_id net.selfconns (fun c => c.cid == net.fresh)
          (fun c => { c with weight := d.weight }) (fun a ha => by
            have := hcid a (List.mem_append_right _ ha)
            simp only [beq_eq_false_iff_ne, ne_eq]
            omega)]
      simp
    rcases hgd with hgm1 | ⟨hg0, hg1⟩
    · refine ⟨{ net with
          selfconns := net.selfconns ++ [(⟨net.fresh, nf.id, nf.id, d.weight, none⟩ : Conn)],
          fresh := net.fresh + 1 }, ?_, rfl, rfl, ?_, ?_, ?_⟩
      · dsimp only
        rw [if_pos (⟨ht1, hf1⟩ : d.toI < (len : Int) ∧ d.fromI < (len : Int))]
        rw [hnf1, hnt1]
        dsimp only
        rw [hstep0, exceptOkBind]
        dsimp only
        rw [hupd]
        rw [if_neg (fun h => h.1 hgm1)]
        rfl
      · intro c hc
        dsimp only at hc ⊢
        rcases List.mem_append.mp hc with h | h
        · have := hcid c (List.mem_append_left _ h)
          omega
        · rcases List.mem_append.mp h with h2 | h2
          · have := hcid c (List.mem_append_right _ h2)
            omega
          · rcases List.mem_singleton.mp h2 with rfl
            dsimp only
            omega
      · intro c hc
        dsimp only at hc
        rcases List.mem_append.mp hc with h | h
        · exact hselfp c h
        · rcases List.mem_singleton.mp h with rfl
          rfl
      · dsimp only
        simp only [List.map_append, List.map_cons, List.map_nil]
        rw [hnfid]
        nth_rewrite 2 [show idBase + d.fromI.toNat = idBase + d.toI.toNat from by omega]
        rw [← List.append_assoc]
    · obtain ⟨ng, hng0, hngid⟩ := consec_jsGet nodesL idBase len hids d.gater.toNat (by omega)
      have hgnat : ((d.gater.toNat : Nat) : Int) = d.gater := Int.toNat_of_nonneg hg0
      rw [hgnat] at hng0
      have hng1 : jsGet net.nodes d.gater = some ng := by rw [hnodes]; exact hng0
      have hfind : ({ net with
          selfconns := net.selfconns ++ [(⟨net.fresh, nf.id, nf.id, d.weight, none⟩ : Conn)],
          fresh := net.fresh + 1 } : Network).connOf net.fresh
          = some (⟨net.fresh, nf.id, nf.id, d.weight, none⟩ : Conn) := by
        unfold Network.connOf Network.allConns
        dsimp only
        apply find?_unique
        · exact List.mem_append_right _
            (List.mem_append_right _ (List.mem_singleton.mpr rfl))
        · simp
        · intro a ha hpa
          simp only [beq_iff_eq] at hpa
          rcases List.mem_append.mp ha with h | h
          · exfalso
            have := hcid a (List.mem_append_left _ h)
            omega
          · rcases List.mem_append.mp h with h2 | h2
            · exfalso
              have := hcid a (List.mem_append_right _ h2)
              omega
            · exact List.mem_singleton.mp h2
      have hnodeex : ∃ n ∈ ({ net with
          selfconns := net.selfconns ++ [(⟨net.fresh, nf.id, nf.id, d.weight, none⟩ : Conn)],
          fresh := net.fresh + 1 } : Network).nodes, n.id = ng.id := by
        refine ⟨ng, ?_, rfl⟩
        dsimp only
        rw [hnodes]
        exact jsGet_mem _ _ _ hng0
      have hgate := gate_ok_shape { net with
          selfconns := net.selfconns ++ [(⟨net.fresh, nf.id, nf.id, d.weight, none⟩ : Conn)],
          fresh := net.fresh + 1 } ng.id net.fresh hnodeex
          (⟨net.fresh, nf.id, nf.id, d.weight, none⟩ : Conn) hfind rfl
      refine ⟨{ net with
          connections := net.connections.map
            (fun c2 => if c2.cid == net.fresh then { c2 with gater := some ng.id } else c2),
          selfconns := (net.selfconns
              ++ [(⟨net.fresh, nf.id, nf.id, d.weight, none⟩ : Conn)]).map
            (fun c2 => if c2.cid == net.fresh then { c2 with gater := some ng.id } else c2),
          gates := net.gates ++ [net.fresh],
          fresh := net.fresh + 1 }, ?_, rfl, rfl, ?_, ?_, ?_⟩
      · dsimp only
        rw [if_pos (⟨ht1, hf1⟩ : d.toI < (len : Int) ∧ d.fromI < (len : Int))]
        rw [hnf1, hnt1]
        dsimp only
        rw [hstep0, exceptOkBind]
        dsimp only
        rw [hupd]
        rw [if_pos (⟨by omega, hg1⟩ : d.gater ≠ -1 ∧ d.gater < (len : Int))]
        dsimp only
        rw [hng1]
        dsimp only
        rw [hgate]
      · intro c hc
        dsimp only at hc ⊢
        rcases List.mem_append.mp hc with h | h
        · obtain ⟨a, ha, rfl⟩ := List.mem_map.mp h
          have hq : ((if a.cid == net.fresh then { a with gater := some ng.id } else a)
              : Conn).cid = a.cid := by
            split <;> rfl
          try dsimp only
          rw [hq]
          have := hcid a (List.mem_append_left _ ha)
          omega
        · obtain ⟨a, ha, rfl⟩ := List.mem_map.mp h
          have hq : ((if a.cid == net.fresh then { a with gater := some ng.id } else a)
              : Conn).cid = a.cid := by
            split <;> rfl
          try dsimp only
          rw [hq]
          rcases List.mem_append.mp ha with h2 | h2
          · have := hcid a (List.mem_append_right _ h2)
            omega
          · rcases List.mem_singleton.mp h2 with rfl
            dsimp only
            omega
      · intro c hc
        dsimp only at hc
        obtain ⟨a, ha, rfl⟩ := List.mem_map.mp hc
        have hqf : ((if a.cid == net.fresh then { a with gater := some ng.id } else a)
            : Conn).fromId = a.fromId := by
          split <;> rfl
        have hqt : ((if a.cid == net.fresh then { a with gater := some ng.id } else a)
            : Conn).toId = a.toId := by
          split <;> rfl
        try dsimp only
        rw [hqf, hqt]
        rcases List.mem_append.mp ha with h2 | h2
        · exact hselfp a h2
        · rcases List.mem_singleton.mp h2 with rfl
          rfl
      · dsimp only
        rw [List.map_append,
          map_upd_comp net.connections (fun c2 => c2.cid == net.fresh)
            (fun c2 => { c2 with gater := some ng.id })
            (fun c => (c.fromId, c.toId, c.weight)) (fun c => rfl),
          map_upd_comp (net.selfconns
              ++ [(⟨net.fresh, nf.id, nf.id, d.weight, none⟩ : Conn)])
            (fun c2 => c2.cid == net.fresh)
            (fun c2 => { c2 with gater := some ng.id })
            (fun c => (c.fromId, c.toId, c.weight)) (fun c => rfl)]
        simp only [List.map_append, List.map_cons, List.map_nil]
        rw [hnfid]
        nth_rewrite 2 [show idBase + d.fromI.toNat = idBase + d.toI.toNat from by omega]
        rw [← List.append_assoc]
  · -- ordinary connection
    have hne : nf.id ≠ nt.id := by
      rw [hnfid, hntid]
      omega
    have hproj : ∀ c ∈ net.connections, c.fromId = nf.id → c.toId ≠ nt.id := by
      intro c hc hcf hct
      apply hfreshd c (List.mem_append_left _ hc)
      exact ⟨by rw [hcf, hnfid], by rw [hct, hntid]⟩
    have hstep0 := connect_fresh net nf.id nt.id ⟨0, 1⟩ hne hproj
    have hupd : ({ net with
        connections := net.connections ++ [(⟨net.fresh, nf.id, nt.id, ⟨0, 1⟩, none⟩ : Conn)],
        fresh := net.fresh + 1 } : Network).updateConnWeight net.fresh d.weight
        = { net with
            connections := net.connections
              ++ [(⟨net.fresh, nf.id, nt.id, d.weight, none⟩ : Conn)],
            fresh := net.fresh + 1 } := by
      unfold Network.updateConnWeight
      dsimp only
      rw [List.map_append,
        map_upd_id net.connections (fun c => c.cid == net.fresh)
          (fun c => { c with weight := d.weight }) (fun a ha => by
            have := hcid a (List.mem_append_left _ ha)
            simp only [beq_eq_false_iff_ne, ne_eq]
            omega),
        map_upd_id net.selfconns (fun c => c.cid == net.fresh)
          (fun c => { c with weight := d.weight }) (fun a ha => by
            have := hcid a (List.mem_append_right _ ha)
            simp only [beq_eq_false_iff_ne, ne_eq]
            omega)]
      simp
    rcases hgd with hgm1 | ⟨hg0, hg1⟩
    · refine ⟨{ net with
          connections := net.connections
            ++ [(⟨net.fresh, nf.id, nt.id, d.weight, none⟩ : Conn)],
          fresh := net.fresh + 1 }, ?_, rfl, rfl, ?_, ?_, ?_⟩
      · dsimp only
        rw [if_pos (⟨ht1, hf1⟩ : d.toI < (len : Int) ∧ d.fromI < (len : Int))]
        rw [hnf1, hnt1]
        dsimp only
        rw [hstep0, exceptOkBind]
        dsimp only
        rw [hupd]
        rw [if_neg (fun h => h.1 hgm1)]
        rfl
      · intro c hc
        dsimp only at hc ⊢
        rcases List.mem_append.mp hc with h | h
        · rcases List.mem_append.mp h with h2 | h2
          · have := hcid c (List.mem_append_left _ h2)
            omega
          · rcases List.mem_singleton.mp h2 with rfl
            dsimp only
            omega
        · have := hcid c (List.mem_append_right _ h)
          omega
      · intro c hc
        dsimp only at hc
        exact hselfp c hc
      · dsimp only
        simp only [List.map_append, List.map_cons, List.map_nil]
        rw [hnfid, hntid]
        exact append_singleton_perm _ _ _
    · obtain ⟨ng, hng0, hngid⟩ := consec_jsGet nodesL idBase len hids d.gater.toNat (by omega)
      have hgnat : ((d.gater.toNat : Nat) : Int) = d.gater := Int.toNat_of_nonneg hg0
      rw [hgnat] at hng0
      have hng1 : jsGet net.nodes d.gater = some ng := by rw [hnodes]; exact hng0
      have hfind : ({ net with
          connections := net.connections
            ++ [(⟨net.fresh, nf.id, nt.id, d.weight, none⟩ : Conn)],
          fresh := net.fresh + 1 } : Network).connOf net.fresh
          = some (⟨net.fresh, nf.id, nt.id, d.weight, none⟩ : Conn) := by
        unfold Network.connOf Network.allConns
        dsimp only
        apply find?_unique
        · exact List.mem_append_left _
            (List.mem_append_right _ (List.mem_singleton.mpr rfl))
        · simp
        · intro a ha hpa
          simp only [beq_iff_eq] at hpa
          rcases List.mem_append.mp ha with h | h
          · rcases List.mem_append.mp h with h2 | h2
            · exfalso
              have := hcid a (List.mem_append_left _ h2)
              omega
            · exact List.mem_singleton.mp h2
          · exfalso
            have := hcid a (List.mem_append_right _ h)
            omega
      have hnodeex : ∃ n ∈ ({ net with
          connections := net.connections
            ++ [(⟨net.fresh, nf.id, nt.id, d.weight, none⟩ : Conn)],
          fresh := net.fresh + 1 } : Network).nodes, n.id = ng.id := by
        refine ⟨ng, ?_, rfl⟩
        dsimp only
        rw [hnodes]
        exact jsGet_mem _ _ _ hng0
      have hgate := gate_ok_shape { net with
          connections := net.connections
            ++ [(⟨net.fresh, nf.id, nt.id, d.weight, none⟩ : Conn)],
          fresh := net.fresh + 1 } ng.id net.fresh hnodeex
          (⟨net.fresh, nf.id, nt.id, d.weight, none⟩ : Conn) hfind rfl
      refine ⟨{ net with
          connections := (net.connections
              ++ [(⟨net.fresh, nf.id, nt.id, d.weight, none⟩ : Conn)]).map
            (fun c2 => if c2.cid == net.fresh then { c2 with gater := some ng.id } else c2),
          selfconns := net.selfconns.map
            (fun c2 => if c2.cid == net.fresh then { c2 with gater := some ng.id } else c2),
          gates := net.gates ++ [net.fresh],
          fresh := net.fresh + 1 }, ?_, rfl, rfl, ?_, ?_, ?_⟩
      · dsimp only
        rw [if_pos (⟨ht1, hf1⟩ : d.toI < (len : Int) ∧ d.fromI < (len : Int))]
        rw [hnf1, hnt1]
        dsimp only
        rw [hstep0, exceptOkBind]
        dsimp only
        rw [hupd]
        rw [if_pos (⟨by omega, hg1⟩ : d.gater ≠ -1 ∧ d.gater < (len : Int))]
        dsimp only
        rw [hng1]
        dsimp only
        rw [hgate]
      · intro c hc
        dsimp only at hc ⊢
        rcases List.mem_append.mp hc with h | h
        · obtain ⟨a, ha, rfl⟩ := List.mem_map.mp h
          have hq : ((if a.cid == net.fresh then { a with gater := some ng.id } else a)
              : Conn).cid = a.cid := by
            split <;> rfl
          try dsimp only
          rw [hq]
          rcases List.mem_append.mp ha with h2 | h2
          · have := hcid a (List.mem_append_left _ h2)
            omega
          · rcases List.mem_singleton.mp h2 with rfl
            dsimp only
            omega
        · obtain ⟨a, ha, rfl⟩ := List.mem_map.mp h
          have hq : ((if a.cid == net.fresh then { a with gater := some ng.id } else a)
              : Conn).cid = a.cid := by
            split <;> rfl
          try dsimp only
          rw [hq]
          have := hcid a (List.mem_append_right _ ha)
          omega
      · intro c hc
        dsimp only at hc
        obtain ⟨a, ha, rfl⟩ := List.mem_map.mp hc
        have hqf : ((if a.cid == net.fresh then { a with gater := some ng.id } else a)
            : Conn).fromId = a.fromId := by
          split <;> rfl
        have hqt : ((if a.cid == net.fresh then { a with gater := some ng.id } else a)
            : Conn).toId = a.toId := by
          split <;> rfl
        try dsimp only
        rw [hqf, hqt]
        exact hselfp a ha
      · dsimp only
        rw [List.map_append,
          map_upd_comp (net.connections
              ++ [(⟨net.fresh, nf.id, nt.id, d.weight, none⟩ : Conn)])
            (fun c2 => c2.cid == net.fresh)
            (fun c2 => { c2 with gater := some ng.id })
            (fun c => (c.fromId, c.toId, c.weight)) (fun c => rfl),
          map_upd_comp net.selfconns (fun c2 => c2.cid == net.fresh)
            (fun c2 => { c2 with gater := some ng.id })
            (fun c => (c.fromId, c.toId, c.weight)) (fun c => rfl)]
        simp only [List.map_append, List.map_cons, List.map_nil]
        rw [hnfid, hntid]
        exact append_singleton_perm _ _ _

theorem inst_fold (nodesL : List NNode) (idBase len : Nat)
    (hids : nodesL.map NNode.id = (List.range len).map (fun j => idBase + j)) :
    ∀ (ds : List ConnData) (net : Network),
      net.nodes = nodesL →
      (∀ d ∈ ds, 0 ≤ d.fromI ∧ d.fromI < (len : Int) ∧ 0 ≤ d.toI ∧ d.toI < (len : Int) ∧
        (d.gater = -1 ∨ (0 ≤ d.gater ∧ d.gater < (len : Int)))) →
      (∀ c ∈ net.connections ++ net.selfconns, c.cid < net.fresh) →
      (∀ c ∈ net.selfconns, c.fromId = c.toId) →
      (∀ d ∈ ds, ∀ c ∈ net.connections ++ net.selfconns,
        ¬(c.fromId = idBase + d.fromI.toNat ∧ c.toId = idBase + d.toI.toNat)) →
      ((ds.map (fun d => (d.fromI, d.toI))).Nodup) →
      ∃ child,
        ds.foldlM (fun (net : Network) (data : ConnData) => do
          if data.toI < (len : Int) ∧ data.fromI < (len : Int) then
            match jsGet net.nodes data.fromI, jsGet net.nodes data.toI with
            | some nf, some nt => do
              let p ← net.connect nf.id nt.id ⟨0, 1⟩
              let net2 := p.1.updateConnWeight p.2 data.weight
              if data.gater ≠ -1 ∧ data.gater < (len : Int) then
                match jsGet net2.nodes data.gater with
                | some ng => net2.gate ng.id p.2
                | none => Except.error "This node is not part of the network!"
              else pure net2
            | _, _ => Except.error "TypeError: undefined node"
          else pure net) net = Except.ok child ∧
        child.nodes = net.nodes ∧
        List.Perm ((child.connections ++ child.selfconns).map
            (fun c => (c.fromId, c.toId, c.weight)))
          (((net.connections ++ net.selfconns).map
              (fun c => (c.fromId, c.toId, c.weight)))
            ++ ds.map (fun d =>
                ((idBase + d.fromI.toNat : Nat), (idBase + d.toI.toNat : Nat), d.weight))) := by
  intro ds
  induction ds with
  | nil =>
    intro net hnodes hval hcid hself hfreshp hnd
    exact ⟨net, rfl, rfl, by rw [List.map_nil, List.append_nil]⟩
  | cons d rest ih =>
    intro net hnodes hval hcid hself hfreshp hnd
    obtain ⟨hf0, hf1, ht0, ht1, hgd⟩ := hval d (List.mem_cons_self _ _)
    obtain ⟨net3, hstep, hnodes3, hfresh3, hcid3, hself3, hperm3⟩ :=
      inst_step nodesL idBase len hids net d hnodes hf0 hf1 ht0 ht1 hgd hcid hself
        (fun c hc => hfreshp d (List.mem_cons_self _ _) c hc)
    have hnd2 : ((d.fromI, d.toI) :: rest.map (fun d => (d.fromI, d.toI))).Nodup := by
      simpa using hnd
    have hfreshp3 : ∀ d2 ∈ rest, ∀ c ∈ net3.connections ++ net3.selfconns,
        ¬(c.fromId = idBase + d2.fromI.toNat ∧ c.toId = idBase + d2.toI.toNat) := by
      rintro d2 hd2 c hc ⟨hcf, hct⟩
      have hmem : (c.fromId, c.toId, c.weight) ∈
          (((net.connections ++ net.selfconns).map
              (fun c => (c.fromId, c.toId, c.weight)))
            ++ [((idBase + d.fromI.toNat : Nat), (idBase + d.toI.toNat : Nat), d.weight)]) :=
        hperm3.subset (List.mem_map_of_mem _ hc)
      rcases List.mem_append.mp hmem with h | h
      · obtain ⟨a, ha, hae⟩ := List.mem_map.mp h
        apply hfreshp d2 (List.mem_cons_of_mem _ hd2) a ha
        have h1 : a.fromId = c.fromId := congrArg Prod.fst hae
        have h2 : a.toId = c.toId := congrArg (fun t => t.2.1) hae
        exact ⟨by rw [h1, hcf], by rw [h2, hct]⟩
      · have he := List.mem_singleton.mp h
        have h1 : c.fromId = idBase + d.fromI.toNat := congrArg Prod.fst he
        have h2 : c.toId = idBase + d.toI.toNat := congrArg (fun t => t.2.1) he
        obtain ⟨hf0b, hf1b, ht0b, ht1b, -⟩ := hval d2 (List.mem_cons_of_mem _ hd2)
        have hfe : d2.fromI = d.fromI := by omega
        have hte : d2.toI = d.toI := by omega
        have hm : (d2.fromI, d2.toI) ∈ rest.map (fun d => (d.fromI, d.toI)) :=
          List.mem_map_of_mem _ hd2
        rw [hfe, hte] at hm
        exact (List.nodup_cons.mp hnd2).1 hm
    obtain ⟨child, hfold, hnodesC, hpermC⟩ := ih net3
      (by rw [hnodes3, hnodes])
      (fun d2 hd2 => hval d2 (List.mem_cons_of_mem _ hd2))
      hcid3 hself3 hfreshp3 (List.nodup_cons.mp hnd2).2
    refine ⟨child, ?_, ?_, ?_⟩
    · show ((fun (net : Network) (data : ConnData) => do
          if data.toI < (len : Int) ∧ data.fromI < (len : Int) then
            match jsGet net.nodes data.fromI, jsGet net.nodes data.toI with
            | some nf, some nt => do
              let p ← net.connect nf.id nt.id ⟨0, 1⟩
              let net2 := p.1.updateConnWeight p.2 data.weight
              if data.gater ≠ -1 ∧ data.gater < (len : Int) then
                match jsGet net2.nodes data.gater with
                | some ng => net2.gate ng.id p.2
                | none => Except.error "This node is not part of the network!"
              else pure net2
            | _, _ => Except.error "TypeError: undefined node"
          else pure net) net d) >>= (fun s2 =>
        rest.foldlM (fun (net : Network) (data : ConnData) => do
          if data.toI < (len : Int) ∧ data.fromI < (len : Int) then
            match jsGet net.nodes data.fromI, jsGet net.nodes data.toI with
            | some nf, some nt => do
              let p ← net.connect nf.id nt.id ⟨0, 1⟩
              let net2 := p.1.updateConnWeight p.2 data.weight
              if data.gater ≠ -1 ∧ data.gater < (len : Int) then
                match jsGet net2.nodes data.gater with
                | some ng => net2.gate ng.id p.2
                | none => Except.error "This node is not part of the network!"
              else pure net2
            | _, _ => Except.error "TypeError: undefined node"
          else pure net) s2) = Except.ok child
      rw [hstep, exceptOkBind]
      exact hfold
    · rw [hnodesC, hnodes3]
    · refine hpermC.trans ?_
      refine (List.Perm.append_right _ hperm3).trans ?_
      rw [List.append_assoc, List.singleton_append, List.map_cons]

theorem geneKeys_of_dict (net : Network)
    (hlive : ∀ c ∈ net.allConns, net.connEndsLive c)
    (hpairs : net.connPairs.Nodup) :
    ((geneDict net).map Prod.fst).Nodup := by
  have hK := geneKeys_nodup net hlive hpairs
  have hK2 : ((net.allConns.map (fun c =>
      (Connection.innovationID (connData net.nodes c).fromI (connData net.nodes c).toI,
       connData net.nodes c))).map Prod.fst).Nodup := by
    rw [List.map_map]
    exact hK
  exact (((geneDict_perm net hK).map Prod.fst).symm).nodup hK2

theorem xo_conn_list_perm (net : Network)
    (hlive : ∀ c ∈ net.allConns, net.connEndsLive c)
    (hpairs : net.connPairs.Nodup) :
    List.Perm ((geneDict net).reverse.map Prod.snd)
      (net.allConns.map (fun c => connData net.nodes c)) := by
  have hK := geneKeys_nodup net hlive hpairs
  refine ((List.reverse_perm _).map Prod.snd).trans ?_
  refine ((geneDict_perm net hK).map Prod.snd).trans ?_
  rw [List.map_map]
  exact List.Perm.refl _

theorem xo_conn_list_val (net : Network)
    (hlive : ∀ c ∈ net.allConns, net.connEndsLive c)
    (hpairs : net.connPairs.Nodup) :
    ∀ d ∈ (geneDict net).reverse.map Prod.snd,
      ∃ c ∈ net.allConns, d = connData net.nodes c := by
  intro d hd
  obtain ⟨p, hp, hpd⟩ := List.mem_map.mp hd
  have hpD : p ∈ geneDict net := List.mem_reverse.mp hp
  have hpE := (geneDict_perm net (geneKeys_nodup net hlive hpairs)).subset hpD
  obtain ⟨c, hc, hce⟩ := List.mem_map.mp hpE
  exact ⟨c, hc, by rw [← hpd, ← hce]⟩

theorem connData_bounds (net : Network) (c : Conn) (hc : c ∈ net.allConns)
    (hlive : ∀ c ∈ net.allConns, net.connEndsLive c) :
    0 ≤ (connData net.nodes c).fromI ∧
    (connData net.nodes c).fromI < (net.nodes.length : Int) ∧
    0 ≤ (connData net.nodes c).toI ∧
    (connData net.nodes c).toI < (net.nodes.length : Int) ∧
    ((connData net.nodes c).gater = -1 ∨
      (0 ≤ (connData net.nodes c).gater ∧
        (connData net.nodes c).gater < (net.nodes.length : Int))) := by
  obtain ⟨hcf, hct, hcg⟩ := hlive c hc
  unfold Network.hasId Network.nodeIds at hcf hct
  obtain ⟨pf, hpf, hpfl, -⟩ := jsIndexOfId_live net.nodes c.fromId hcf
  obtain ⟨pt, hpt, hptl, -⟩ := jsIndexOfId_live net.nodes c.toId hct
  unfold connData
  dsimp only
  rw [hpf, hpt]
  refine ⟨by omega, by omega, by omega, by omega, ?_⟩
  cases hg : c.gater with
  | none =>
    left
    rfl
  | some g =>
    right
    rw [hg] at hcg
    have hcg2 : g ∈ net.nodes.map NNode.id := by
      have hh : net.hasId g := hcg
      unfold Network.hasId Network.nodeIds at hh
      exact hh
    obtain ⟨pg, hpg, hpgl, -⟩ := jsIndexOfId_live net.nodes g hcg2
    dsimp only
    rw [hpg]
    exact ⟨by omega, by omega⟩

theorem xo_conn_list_nodup (net : Network)
    (hlive : ∀ c ∈ net.allConns, net.connEndsLive c)
    (hpairs : net.connPairs.Nodup) :
    (((geneDict net).reverse.map Prod.snd).map (fun d => (d.fromI, d.toI))).Nodup := by
  rw [List.map_map]
  have hkeys : ((geneDict net).reverse.map Prod.fst).Nodup := by
    rw [List.map_reverse]
    exact List.nodup_reverse.mpr (geneKeys_of_dict net hlive hpairs)
  have hchar : ∀ p ∈ (geneDict net).reverse,
      p.1 = Connection.innovationID p.2.fromI p.2.toI := by
    intro p hp
    have hpD : p ∈ geneDict net := List.mem_reverse.mp hp
    have hpE := (geneDict_perm net (geneKeys_nodup net hlive hpairs)).subset hpD
    obtain ⟨c, hc, hce⟩ := List.mem_map.mp hpE
    rw [← hce]
  have h2 : List.Pairwise (fun a b : Int × ConnData => a.1 ≠ b.1)
      (geneDict net).reverse := List.pairwise_map.mp hkeys
  have h3 : List.Pairwise (fun a b : Int × ConnData =>
      ((fun d => (d.fromI, d.toI)) ∘ Prod.snd) a ≠ ((fun d => (d.fromI, d.toI)) ∘ Prod.snd) b)
      (geneDict net).reverse := by
    refine List.Pairwise.imp_of_mem ?_ h2
    intro a b ha hb hne heq
    apply hne
    rw [hchar a ha, hchar b hb]
    have he1 : a.2.fromI = b.2.fromI := by
      have := congrArg Prod.fst heq
      simpa using this
    have he2 : a.2.toI = b.2.toI := by
      have := congrArg Prod.snd heq
      simpa using this
    rw [he1, he2]
  exact List.pairwise_map.mpr h3

/-- Claim C5: for every Network N (any score), `cross_over(N, N, equal = true)`
— crossing a network with an identical copy of itself — succeeds and yields an
offspring whose node count equals N's and whose connection set, as the
multiset of (from-index, to-index, weight) triples over ordinary and self
connections, equals N's; stated under the data-model invariants that
connection endpoints and gaters are live node references and that no two
connections join the same ordered node pair, with the offspring-size draw a
`Math.random()` fraction in [0, 1). -/
theorem claim_C5_crossover_self (net : Network) (o : XORnd)
    (hu : o.sizeR.unit)
    (hlive : ∀ c ∈ net.allConns, net.connEndsLive c)
    (hpairs : net.connPairs.Nodup) :
    ∃ child, net.cross_over net true o = Except.ok child ∧
      child.nodes.length = net.nodes.length ∧
      List.Perm child.connTriples net.connTriples := by
  have hndD := geneKeys_of_dict net hlive hpairs
  have hids2 : (xoNodes net.nodes (List.range net.nodes.length)
      ((net.input_size + net.output_size).toNat
        + (intRange net.input_size (net.output_size + net.input_size)).length
          * (intRange 0 net.input_size).length)).map NNode.id
      = (List.range net.nodes.length).map (fun j =>
          (net.input_size + net.output_size).toNat
            + (intRange net.input_size (net.output_size + net.input_size)).length
              * (intRange 0 net.input_size).length + j) := by
    rw [xoNodes_map_id, List.length_range]
  have hvalC : ∀ d ∈ (geneDict net).reverse.map Prod.snd,
      0 ≤ d.fromI ∧ d.fromI < (net.nodes.length : Int) ∧ 0 ≤ d.toI ∧
      d.toI < (net.nodes.length : Int) ∧
      (d.gater = -1 ∨ (0 ≤ d.gater ∧ d.gater < (net.nodes.length : Int))) := by
    intro d hd
    obtain ⟨c, hc, rfl⟩ := xo_conn_list_val net hlive hpairs d hd
    exact connData_bounds net c hc hlive
  have hndC := xo_conn_list_nodup net hlive hpairs
  have hCperm := xo_conn_list_perm net hlive hpairs
  unfold Network.cross_over
  rw [if_neg (by simp)]
  rw [ctor_spec, exceptOkBind]
  dsimp only
  rw [Bool.true_or, if_pos rfl, max_self, min_self,
    xo_size_self o.sizeR net.nodes.length hu]
  rw [xo_node_fold net o net.nodes.length net.output_size rfl
    (List.range net.nodes.length) _ (fun i hi => List.mem_range.mp hi)]
  rw [exceptOkBind]
  dsimp only
  rw [crossGenes_self (geneDict net) _ _ o.geneCoin hndD]
  simp only [List.length_range]
  obtain ⟨child, hfold, hnodesC, hpermC⟩ :=
    inst_fold (xoNodes net.nodes (List.range net.nodes.length)
        ((net.input_size + net.output_size).toNat
          + (intRange net.input_size (net.output_size + net.input_size)).length
            * (intRange 0 net.input_size).length))
      ((net.input_size + net.output_size).toNat
        + (intRange net.input_size (net.output_size + net.input_size)).length
          * (intRange 0 net.input_size).length)
      net.nodes.length hids2
      ((geneDict net).reverse.map Prod.snd)
      (⟨net.input_size, net.output_size,
        xoNodes net.nodes (List.range net.nodes.length)
          ((net.input_size + net.output_size).toNat
            + (intRange net.input_size (net.output_size + net.input_size)).length
              * (intRange 0 net.input_size).length),
        [], [], [], ⟨0, 1⟩, none,
        ((net.input_size + net.output_size).toNat
          + (intRange net.input_size (net.output_size + net.input_size)).length
            * (intRange 0 net.input_size).length) + net.nodes.length⟩ : Network)
      rfl hvalC (by intro c hc; simp at hc) (by intro c hc; simp at hc)
      (by intro d hd c hc; simp at hc) hndC
  refine ⟨child, ?_, ?_, ?_⟩
  · exact hfold
  · rw [hnodesC]
    show (xoNodes net.nodes (List.range net.nodes.length)
        ((net.input_size + net.output_size).toNat
          + (intRange net.input_size (net.output_size + net.input_size)).length
            * (intRange 0 net.input_size).length)).length = net.nodes.length
    rw [xoNodes_length, List.length_range]
  · have hcn : child.nodes = xoNodes net.nodes (List.range net.nodes.length)
        ((net.input_size + net.output_size).toNat
          + (intRange net.input_size (net.output_size + net.input_size)).length
            * (intRange 0 net.input_size).length) := hnodesC
    have hcomb : child.connTriples
        = ((child.connections ++ child.selfconns).map
            (fun c => (c.fromId, c.toId, c.weight))).map
          (fun t => (jsIndexOfId child.nodes t.1, jsIndexOfId child.nodes t.2.1, t.2.2)) := by
      unfold Network.connTriples Network.allConns
      rw [List.map_map]
      rfl
    rw [hcomb]
    refine ((hpermC.map _).trans ?_)
    show List.Perm
      ((((geneDict net).reverse.map Prod.snd).map (fun d =>
          (((net.input_size + net.output_size).toNat
            + (intRange net.input_size (net.output_size + net.input_size)).length
              * (intRange 0 net.input_size).length + d.fromI.toNat : Nat),
           ((net.input_size + net.output_size).toNat
            + (intRange net.input_size (net.output_size + net.input_size)).length
              * (intRange 0 net.input_size).length + d.toI.toNat : Nat), d.weight))).map
        (fun t => (jsIndexOfId child.nodes t.1, jsIndexOfId child.nodes t.2.1, t.2.2)))
      net.connTriples
    rw [List.map_map]
    have hmapeq : ((geneDict net).reverse.map Prod.snd).map
        ((fun t => (jsIndexOfId child.nodes t.1, jsIndexOfId child.nodes t.2.1, t.2.2)) ∘
          (fun d =>
            (((net.input_size + net.output_size).toNat
              + (intRange net.input_size (net.output_size + net.input_size)).length
                * (intRange 0 net.input_size).length + d.fromI.toNat : Nat),
             ((net.input_size + net.output_size).toNat
              + (intRange net.input_size (net.output_size + net.input_size)).length
                * (intRange 0 net.input_size).length + d.toI.toNat : Nat), d.weight)))
        = ((geneDict net).reverse.map Prod.snd).map (fun d => (d.fromI, d.toI, d.weight)) := by
      apply List.map_congr_left
      intro d hd
      obtain ⟨hf0, hf1, ht0, ht1, -⟩ := hvalC d hd
      dsimp only [Function.comp]
      rw [hcn,
        jsIndexOfId_consec _ _ net.nodes.length hids2 d.fromI.toNat (by omega),
        jsIndexOfId_consec _ _ net.nodes.length hids2 d.toI.toNat (by omega),
        Int.toNat_of_nonneg hf0, Int.toNat_of_nonneg ht0]
    rw [hmapeq]
    refine (hCperm.map _).trans ?_
    rw [List.map_map]
    exact List.Perm.refl _

/-- Witness for claim C5: the concrete network netH (input 0 → hidden 3 →
output 1) satisfies the invariants, and crossing it with itself succeeds with
the same node count and connection triples. -/
theorem claim_C5_crossover_self_witness :
    xo1.sizeR.unit ∧ (∀ c ∈ netH.allConns, netH.connEndsLive c) ∧
      netH.connPairs.Nodup ∧
      ∃ child, netH.cross_over netH true xo1 = Except.ok child ∧
        child.nodes.length = netH.nodes.length ∧
        List.Perm child.connTriples netH.connTriples :=
  ⟨by decide, by decide, by decide,
   claim_C5_crossover_self netH xo1 (by decide) (by decide) (by decide)⟩
